import Mathlib

/-!
Waveform channel controller and orchestrator (DACManager), command console (main.h)

A shallow embedding of `DACManager.cpp` / `DACManager.h`: the per-channel
controller `DAC_ChanController`, the two global channels of `DAC_Manager`
and the run-state machine of `SystemController`; of `main.h`: the
voltage-to-code conversion and the command handler `ProcessCommandLine`;
and of `src/User/main.cpp`: the line reader `TryReadCommandLine`.

Conventions of the embedding

* A `float` is the rational number it holds (finite values only); every `float`
  operation rounds its exact result to binary32 (round to nearest, ties to even,
  gradual underflow), one rounding per operation, and a conversion to an integer
  type is `none` where the language leaves it undefined.
* Every call into a collaborator (peripheral library, interrupt dispatch,
  sampling subsystem, waveform engine mutators) is recorded, in program
  order, as one `Op`; a method is a function from the state before the call
  to the state after it together with the list of `Op`s it issued.
* The enable bits of the peripherals are recovered from a trace by `hwRun`.
-/

namespace NS_DAC

/-! ## Identities of peripherals -/

/-- Timer instances (`TIM_TypeDef*` values other than `nullptr`). -/
inductive TIM_TypeDef
  | TIM1 | TIM2 | TIM3 | TIM4 | TIM5 | TIM6 | TIM7 | TIM8
  deriving DecidableEq, Repr

/-- Transfer-engine channels (`DMA_Channel_TypeDef*` values other than `nullptr`). -/
inductive DMA_Channel_TypeDef
  | DMA1_Channel1 | DMA1_Channel2 | DMA1_Channel3 | DMA1_Channel4
  | DMA1_Channel5 | DMA1_Channel6 | DMA1_Channel7
  | DMA2_Channel1 | DMA2_Channel2 | DMA2_Channel3 | DMA2_Channel4 | DMA2_Channel5
  deriving DecidableEq, Repr

/-- The result of the address comparison `dmaChan >= DMA2_Channel1`. -/
def DMA_Channel_TypeDef.geDMA2_Channel1 : DMA_Channel_TypeDef → Bool
  | .DMA2_Channel1 | .DMA2_Channel2 | .DMA2_Channel3 | .DMA2_Channel4 | .DMA2_Channel5 => true
  | _ => false

/-- Trigger selections of the output channel (`DAC_Trigger_*`). -/
inductive DAC_Trigger
  | None | T2_TRGO | T3_TRGO | T4_TRGO | T5_TRGO | T6_TRGO | T7_TRGO | T8_TRGO
  | Ext_IT9 | Software
  deriving DecidableEq, Repr

/-- Output channels: `enum class DAC_Channel`. -/
inductive DAC_Channel
  | CH1 | CH2
  deriving DecidableEq, Repr

/-- Run modes of the orchestrator: `enum class RunMode`. -/
inductive RunMode
  | CV | DPV | IT
  deriving DecidableEq, Repr

/-- Active step algorithm of the waveform engine. -/
inductive GenMode
  | CONSTANT | CV_SCAN | DPV_PULSE
  deriving DecidableEq, Repr

/-- Scan direction of a CV sweep. -/
inductive ScanDIR
  | FORWARD | REVERSE
  deriving DecidableEq, Repr

/-- Parameter pack `CV_VoltParams(high, low, offset)` as it is built in `main.h`. -/
structure CV_VoltParams where
  highVolt : ℚ
  lowVolt : ℚ
  voltOffset : ℚ
  deriving DecidableEq

/-- Parameter pack `CV_Params(duration, rate, dir)` as it is built in `main.h`. -/
structure CV_Params where
  duration : ℚ
  rate : ℚ
  dir : ScanDIR
  deriving DecidableEq

/-- Parameter pack `DPV_Params`, with the fields that `main.h` prints. -/
structure DPV_Params where
  startVolt : ℚ
  endVolt : ℚ
  stepVolt : ℚ
  pulseAmp : ℚ
  pulsePeriodMs : Nat
  pulseWidthMs : Nat
  sampleLeadMs : Nat
  midVolt : ℚ
  deriving DecidableEq

/-! ## Binary32 arithmetic -/

/-- Rounding of a real value to the nearest integer, a tie going to the even one. -/
def roundEven (x : ℚ) : ℤ :=
  if x - ⌊x⌋ < 1 / 2 then ⌊x⌋
  else if 1 / 2 < x - ⌊x⌋ then ⌊x⌋ + 1
  else if ⌊x⌋ % 2 = 0 then ⌊x⌋ else ⌊x⌋ + 1

/-- Exponent of the spacing of binary32 values at the magnitude of `x`: 24 significant
bits, and never finer than `2^-149` (the subnormal range). -/
def quantumExp (x : ℚ) : ℤ :=
  if x = 0 then -149 else max (Int.log 2 |x| - 23) (-149)

/-- The value `x` rounded to binary32 precision, to nearest with ties to even, before
the check of the finite range.  It is also the value of a decimal literal such as
`0.001f`. -/
def rnd32 (x : ℚ) : ℚ :=
  roundEven (x / 2 ^ quantumExp x) * 2 ^ quantumExp x

/-- The `float` result of an operation whose exact value is `x`; `none` where the result
is not a finite value (overflow). -/
def fl32 (x : ℚ) : Option ℚ :=
  if |rnd32 x| < 2 ^ 128 then some (rnd32 x) else none

/-- The `float` product `a * b`. -/
def mul32 (a b : ℚ) : Option ℚ := fl32 (a * b)

/-- The `float` sum `a + b`. -/
def add32 (a b : ℚ) : Option ℚ := fl32 (a + b)

/-- The `float` quotient `a / b`; a division by zero gives no finite value. -/
def div32 (a b : ℚ) : Option ℚ := if b = 0 then none else fl32 (a / b)

/-! ## Interval to tick count (`SetupTIM`, lines 171-176) -/

/-- The conversion `(unsigned int)x` of a `float`: truncation toward zero; `none` where
the truncated value is outside the range of the 32-bit target type, for which the
language defines no result. -/
def toUnsignedInt (x : ℚ) : Option Nat :=
  if -1 < x ∧ x < 2 ^ 32 then some (Int.toNat ⌊x⌋) else none

/-- The local `ticks` of `SetupTIM(period)` after both clamps; `none` where the
computation of line 173 has no defined value.  The literals `10000.0f` and `0.5f` are
binary32 values as they stand. -/
def SetupTIM_ticks (period : ℚ) : Option Nat :=
  (mul32 period 10000).bind fun prod =>
  (add32 prod (1 / 2)).bind fun sum =>
  (toUnsignedInt sum).map fun ticks =>
    let ticks := if ticks < 1 then 1 else ticks
    let ticks := if ticks > 65536 then 65536 else ticks
    ticks

/-- The value stored in `TIM_Period`: `(uint16_t)(ticks - 1u)`. -/
def SetupTIM_period (period : ℚ) : Option Nat :=
  (SetupTIM_ticks period).map fun ticks => (ticks - 1) % 2 ^ 16

/-- The `float` that line 173 converts to the tick count, `period * 10000.0f + 0.5f`
with each operation rounded, where both results are finite. -/
def tickValue (period : ℚ) : ℚ :=
  rnd32 (rnd32 (period * 10000) + 1 / 2)

/-- Rounding to the nearest integer, halves upward, of a non-negative value, clamped into
`[1, 65536]`: the tick count as the specification words it. -/
def roundClampTicks (p : ℚ) : Nat :=
  max 1 (min 65536 (Int.toNat (round (p * 10000))))

/-! ## Calls into collaborators -/

/-- State-changing calls on a channel's waveform engine (`dataMgr`). -/
inductive EngineCall
  | SetupCV (v : CV_VoltParams) (c : CV_Params)
  | SetupDPV (d : DPV_Params)
  | SetupConstant (val : Nat)
  | SwitchMode (m : GenMode)
  | UpdateNextStep
  deriving DecidableEq

/-- One call into a collaborator, with the arguments that vary.  `en` is `true` for
`ENABLE` and `false` for `DISABLE`. -/
inductive Op
  /-- Call `RCC_APB2PeriphClockCmd(RCC_APB2Periph_GPIOA, ENABLE)` -/
  | RCC_APB2PeriphClockCmd_GPIOA
  /-- Call `GPIO_Init(GPIOA, &gpio)` with mode `GPIO_Mode_AIN` and pin `GPIO_Pin_<pin>` -/
  | GPIO_Init_AIN (pin : Nat)
  /-- Call `RCC_APB1PeriphClockCmd(RCC_APB1Periph_DAC, ENABLE)` -/
  | RCC_APB1PeriphClockCmd_DAC
  /-- Call `DAC_Init(ch, &dac)` with the given trigger and the output buffer disabled -/
  | DAC_Init (ch : DAC_Channel) (trigger : DAC_Trigger)
  | DAC_Cmd (ch : DAC_Channel) (en : Bool)
  | DAC_DMACmd (ch : DAC_Channel) (en : Bool)
  /-- Call `RCC_AHBPeriphClockCmd(RCC_AHBPeriph_DMA<unit>, ENABLE)` -/
  | RCC_AHBPeriphClockCmd_DMA (unit : Nat)
  | DMA_DeInit (d : DMA_Channel_TypeDef)
  /-- Call `DMA_Init(d, &dma)`: circular, one half-word, memory = the engine mirror,
  peripheral = the 12-bit right-aligned data register of output channel `dst` -/
  | DMA_Init (d : DMA_Channel_TypeDef) (dst : DAC_Channel)
  | DMA_Cmd (d : DMA_Channel_TypeDef) (en : Bool)
  /-- Call `RCC_APB1PeriphClockCmd(RCC_APB1Periph_TIMx, ENABLE)` -/
  | RCC_APB1PeriphClockCmd_TIM (t : TIM_TypeDef)
  | TIM_DeInit (t : TIM_TypeDef)
  /-- Call `TIM_TimeBaseInit(t, &tb)`: up-counting, clock division 1; `period` is the
  value of `TIM_Period`, `none` where the source gives it no defined value -/
  | TIM_TimeBaseInit (t : TIM_TypeDef) (prescaler : Nat) (period : Option Nat)
  /-- Call `TIM_SelectOutputTrigger(t, TIM_TRGOSource_Update)` -/
  | TIM_SelectOutputTrigger (t : TIM_TypeDef)
  /-- Call `TIM_ITConfig(t, TIM_IT_Update, en)` -/
  | TIM_ITConfig (t : TIM_TypeDef) (en : Bool)
  | TIM_SetCounter (t : TIM_TypeDef) (n : Nat)
  /-- Call `TIM_ClearITPendingBit(t, TIM_IT_Update)` -/
  | TIM_ClearITPendingBit (t : TIM_TypeDef)
  | TIM_Cmd (t : TIM_TypeDef) (en : Bool)
  /-- Call `NVIC_ClearPendingIRQ(TIM_IRQnManage::GetIRQn(t, TIM::IT::UP))` -/
  | NVIC_ClearPendingIRQ (t : TIM_TypeDef)
  /-- Call `TIM_GenerateEvent(t, TIM_EventSource_Update)` -/
  | TIM_GenerateEvent (t : TIM_TypeDef)
  /-- Call `DAC_SetChannel1Data(DAC_Align_12b_R, v)` -/
  | DAC_SetChannel1Data (v : Nat)
  /-- Call `DAC_SetChannel2Data(DAC_Align_12b_R, v)` -/
  | DAC_SetChannel2Data (v : Nat)
  /-- Call `DAC_SoftwareTriggerCmd(ch, ENABLE)` -/
  | DAC_SoftwareTriggerCmd (ch : DAC_Channel)
  /-- Call `NS_ADC::GetStaticADC().StartConversion()` -/
  | ADC_StartConversion
  /-- Call `NS_ADC::GetStaticADC().Pause()` -/
  | ADC_Pause
  /-- Call `NS_ADC::GetStaticADC().Resume()` -/
  | ADC_Resume
  /-- Call `TIM_IRQnManage::Add(t, TIM::IT::UP, handler, 1, 1)` with the handler that calls
  `DAC_Manager::Chan_Scan.TIM_IRQHandler()` -/
  | TIM_IRQnManage_Add (t : TIM_TypeDef)
  /-- a mutator of the waveform engine owned by the controller of output channel `ch` -/
  | Engine (ch : DAC_Channel) (call : EngineCall)
  deriving DecidableEq

/-- The enable bits of the peripherals the controller arms and disarms. -/
structure Hardware where
  timEnabled : TIM_TypeDef → Bool
  dacEnabled : DAC_Channel → Bool
  dmaEnabled : DMA_Channel_TypeDef → Bool

/-- Effect of one call on the enable bits: `*_Cmd` writes the bit, `*_DeInit` resets the
peripheral (bit cleared), every other call leaves the bits alone. -/
def hwStep (h : Hardware) : Op → Hardware
  | .TIM_Cmd t en => { h with timEnabled := fun x => if x = t then en else h.timEnabled x }
  | .TIM_DeInit t => { h with timEnabled := fun x => if x = t then false else h.timEnabled x }
  | .DAC_Cmd c en => { h with dacEnabled := fun x => if x = c then en else h.dacEnabled x }
  | .DMA_Cmd d en => { h with dmaEnabled := fun x => if x = d then en else h.dmaEnabled x }
  | .DMA_DeInit d => { h with dmaEnabled := fun x => if x = d then false else h.dmaEnabled x }
  | _ => h

/-- Enable bits after a trace of calls. -/
def hwRun (h : Hardware) (ops : List Op) : Hardware :=
  ops.foldl hwStep h

/-- Enable bits after reset: everything off. -/
def Hardware.reset : Hardware :=
  { timEnabled := fun _ => false, dacEnabled := fun _ => false, dmaEnabled := fun _ => false }

/-! ## The waveform engine, as seen by the controller -/

/-- Modelled from the spec: `WaveDataManager.h` is not among the sources, so the methods
of the waveform engine that the controller calls are taken as a parameter, acting on an
engine state `E`.  The step algorithm and the current code may depend on the active
mode tag, which is therefore passed in. -/
structure WaveEngine (E : Type) where
  SetupCV : CV_VoltParams → CV_Params → E → E
  SetupDPV : DPV_Params → E → E
  SetupConstant : Nat → E → E
  UpdateNextStep : GenMode → E → E × Bool
  GetCurrentData : GenMode → E → Nat
  /-- the value of `GetCV().cvParams.duration`, a finite `float` -/
  GetCV_duration : E → ℚ

/-- Modelled from the spec: the engine object `dataMgr`.  The mode tag is "changed only
via an explicit mode switch", and `SwitchMode` "sets active tag only; does not reset
state"; everything else of the engine is the parameter state `core`. -/
structure WaveDataManager (E : Type) where
  mode : GenMode
  core : E

namespace WaveDataManager

variable {E : Type}

def SetupCV (eng : WaveEngine E) (v : CV_VoltParams) (c : CV_Params)
    (w : WaveDataManager E) : WaveDataManager E :=
  { w with core := eng.SetupCV v c w.core }

def SetupDPV (eng : WaveEngine E) (d : DPV_Params) (w : WaveDataManager E) :
    WaveDataManager E :=
  { w with core := eng.SetupDPV d w.core }

def SetupConstant (eng : WaveEngine E) (val : Nat) (w : WaveDataManager E) :
    WaveDataManager E :=
  { w with core := eng.SetupConstant val w.core }

def SwitchMode (m : GenMode) (w : WaveDataManager E) : WaveDataManager E :=
  { w with mode := m }

def GetMode (w : WaveDataManager E) : GenMode := w.mode

/-- The current code, a `uint16_t`. -/
def GetCurrentData (eng : WaveEngine E) (w : WaveDataManager E) : Nat :=
  eng.GetCurrentData w.mode w.core % 2 ^ 16

def GetCV_duration (eng : WaveEngine E) (w : WaveDataManager E) : ℚ :=
  eng.GetCV_duration w.core

def UpdateNextStep (eng : WaveEngine E) (w : WaveDataManager E) :
    WaveDataManager E × Bool :=
  ({ w with core := (eng.UpdateNextStep w.mode w.core).1 },
   (eng.UpdateNextStep w.mode w.core).2)

end WaveDataManager

/-! ## Hardware mapping tables (lines 13-51) -/

/-- The constant `TIM_DMA_Update`. -/
def TIM_DMA_Update : Nat := 0x0100

structure TIM_DMA_Mapping where
  TIMx : TIM_TypeDef
  DMA_Request : Nat
  DMA_Channel : DMA_Channel_TypeDef

structure TIM_DAC_Mapping where
  TIMx : TIM_TypeDef
  trigger : DAC_Trigger

/-- The table `timDmaMap`; the device header defines `TIM5`, `TIM6` and `TIM7`, so the
conditional rows are present. -/
def timDmaMap : List TIM_DMA_Mapping :=
  [ ⟨.TIM2, TIM_DMA_Update, .DMA1_Channel2⟩,
    ⟨.TIM3, TIM_DMA_Update, .DMA1_Channel3⟩,
    ⟨.TIM4, TIM_DMA_Update, .DMA1_Channel7⟩,
    ⟨.TIM5, TIM_DMA_Update, .DMA2_Channel2⟩,
    ⟨.TIM6, TIM_DMA_Update, .DMA1_Channel3⟩,
    ⟨.TIM7, TIM_DMA_Update, .DMA2_Channel4⟩ ]

/-- The table `timDacMap`. -/
def timDacMap : List TIM_DAC_Mapping :=
  [ ⟨.TIM2, .T2_TRGO⟩,
    ⟨.TIM3, .T3_TRGO⟩,
    ⟨.TIM4, .T4_TRGO⟩,
    ⟨.TIM5, .T5_TRGO⟩,
    ⟨.TIM6, .T6_TRGO⟩,
    ⟨.TIM7, .T7_TRGO⟩ ]

/-! ## `DAC_ChanController` -/

/-- Requested binding: `struct HW_Config`; `tim = none` is `nullptr`. -/
structure HW_Config where
  dacChan : DAC_Channel
  tim : Option TIM_TypeDef
  deriving DecidableEq

/-- Resolved binding: `struct ResolvedHW`. -/
structure ResolvedHW where
  dacChan : DAC_Channel
  tim : Option TIM_TypeDef
  dmaChan : Option DMA_Channel_TypeDef
  dacTrigger : DAC_Trigger
  timDmaSrc : Nat
  deriving DecidableEq

/-- The fields of `class DAC_ChanController`. -/
structure DAC_ChanController (E : Type) where
  hw : ResolvedHW
  dataMgr : WaveDataManager E
  isPaused : Bool
  useDMA : Bool

namespace DAC_ChanController

variable {E : Type}

/-- The method `ResolveHardware(cfg)`: the value it leaves in `hw`.  Each loop stops at the first
matching row. -/
def ResolveHardware (cfg : HW_Config) : ResolvedHW :=
  match cfg.tim with
  | none =>
    { dacChan := cfg.dacChan, tim := none, dacTrigger := .Software, dmaChan := none,
      timDmaSrc := TIM_DMA_Update }
  | some t =>
    { dacChan := cfg.dacChan,
      tim := some t,
      dacTrigger :=
        match timDacMap.find? (fun m => decide (m.TIMx = t)) with
        | some m => m.trigger
        | none => .Software,
      dmaChan :=
        match timDmaMap.find? (fun m => decide (m.TIMx = t)) with
        | some m => some m.DMA_Channel
        | none => none,
      timDmaSrc := TIM_DMA_Update }

/-- The constructor, given the default-constructed engine `dm`; the member initialisers
are `isPaused = false`, `useDMA = true`. -/
def new (cfg : HW_Config) (dm : WaveDataManager E) : DAC_ChanController E :=
  { hw := ResolveHardware cfg, dataMgr := dm, isPaused := false, useDMA := true }

def InitAsCV (eng : WaveEngine E) (v : CV_VoltParams) (c : CV_Params)
    (s : DAC_ChanController E) : DAC_ChanController E × List Op :=
  ({ s with
      dataMgr := (s.dataMgr.SetupCV eng v c).SwitchMode .CV_SCAN,
      useDMA := true },
   [.Engine s.hw.dacChan (.SetupCV v c), .Engine s.hw.dacChan (.SwitchMode .CV_SCAN)])

def InitAsDPV (eng : WaveEngine E) (d : DPV_Params)
    (s : DAC_ChanController E) : DAC_ChanController E × List Op :=
  ({ s with
      dataMgr := (s.dataMgr.SetupDPV eng d).SwitchMode .DPV_PULSE,
      useDMA := false },
   [.Engine s.hw.dacChan (.SetupDPV d), .Engine s.hw.dacChan (.SwitchMode .DPV_PULSE)])

def InitAsConstant (eng : WaveEngine E) (val : Nat)
    (s : DAC_ChanController E) : DAC_ChanController E × List Op :=
  ({ s with
      dataMgr := (s.dataMgr.SetupConstant eng val).SwitchMode .CONSTANT,
      useDMA := false },
   [.Engine s.hw.dacChan (.SetupConstant val), .Engine s.hw.dacChan (.SwitchMode .CONSTANT)])

def SetupGPIO (s : DAC_ChanController E) : List Op :=
  [.RCC_APB2PeriphClockCmd_GPIOA,
   .GPIO_Init_AIN (if s.hw.dacChan = .CH1 then 4 else 5)]

def SetupDAC (s : DAC_ChanController E) : List Op :=
  [.RCC_APB1PeriphClockCmd_DAC,
   .DAC_Init s.hw.dacChan (if s.useDMA then s.hw.dacTrigger else .Software),
   .DAC_Cmd s.hw.dacChan true,
   if s.useDMA then .DAC_DMACmd s.hw.dacChan true else .DAC_DMACmd s.hw.dacChan false]

def SetupDMA (s : DAC_ChanController E) : List Op :=
  match s.useDMA, s.hw.dmaChan with
  | true, some d =>
    [.RCC_AHBPeriphClockCmd_DMA (if d.geDMA2_Channel1 then 2 else 1),
     .DMA_DeInit d,
     .DMA_Init d s.hw.dacChan,
     .DMA_Cmd d true]
  | _, _ => []

def SetupTIM (s : DAC_ChanController E) (period : ℚ) : List Op :=
  match s.hw.tim with
  | none => []
  | some t =>
    (if t = .TIM2 then [.RCC_APB1PeriphClockCmd_TIM .TIM2] else []) ++
    (if t = .TIM3 then [.RCC_APB1PeriphClockCmd_TIM .TIM3] else []) ++
    (if t = .TIM4 then [.RCC_APB1PeriphClockCmd_TIM .TIM4] else []) ++
    [.TIM_DeInit t,
     .TIM_TimeBaseInit t (7200 - 1) (SetupTIM_period period),
     .TIM_SelectOutputTrigger t,
     .TIM_ITConfig t true,
     .TIM_SetCounter t 0,
     .TIM_ClearITPendingBit t,
     .TIM_Cmd t false]

/-- The `period` that `Start()` hands to `SetupTIM` (lines 215-219). -/
def Start_period (eng : WaveEngine E) (s : DAC_ChanController E) : ℚ :=
  if s.dataMgr.GetMode = .CV_SCAN then
    (if s.dataMgr.GetCV_duration eng ≤ 0 then rnd32 (1 / 1000)
     else s.dataMgr.GetCV_duration eng)
  else rnd32 (1 / 1000)

/-- The timer part of `Start()` (lines 212-230): the bound timer when `needTim` holds. -/
def Start_needTim (s : DAC_ChanController E) : Option TIM_TypeDef :=
  match s.hw.tim with
  | none => none
  | some t =>
    if s.dataMgr.GetMode = .CV_SCAN ∨ s.dataMgr.GetMode = .DPV_PULSE then some t else none

def Start (eng : WaveEngine E) (s : DAC_ChanController E) :
    DAC_ChanController E × List Op :=
  ({ s with isPaused := false },
    SetupGPIO s ++ SetupDAC s ++ SetupDMA s ++
    [if s.hw.dacChan = .CH1 then .DAC_SetChannel1Data (s.dataMgr.GetCurrentData eng)
     else .DAC_SetChannel2Data (s.dataMgr.GetCurrentData eng)] ++
    (if s.useDMA then [] else [.DAC_SoftwareTriggerCmd s.hw.dacChan]) ++
    (match Start_needTim s with
     | none => []
     | some t =>
       SetupTIM s (Start_period eng s) ++
       [.TIM_SetCounter t 0,
        .TIM_ClearITPendingBit t,
        .NVIC_ClearPendingIRQ t,
        .TIM_Cmd t true,
        .TIM_GenerateEvent t]))

def Stop (s : DAC_ChanController E) : DAC_ChanController E × List Op :=
  (s,
   (match s.hw.tim with | some t => [.TIM_Cmd t false] | none => []) ++
   [.DAC_Cmd s.hw.dacChan false] ++
   (match s.useDMA, s.hw.dmaChan with
    | true, some d => [.DMA_Cmd d false]
    | _, _ => []))

def Pause (s : DAC_ChanController E) : DAC_ChanController E × List Op :=
  if s.isPaused then (s, [])
  else ({ s with isPaused := true },
        match s.hw.tim with | some t => [.TIM_Cmd t false] | none => [])

def Resume (s : DAC_ChanController E) : DAC_ChanController E × List Op :=
  if !s.isPaused then (s, [])
  else ({ s with isPaused := false },
        match s.hw.tim with | some t => [.TIM_Cmd t true] | none => [])

def TIM_IRQHandler (eng : WaveEngine E) (s : DAC_ChanController E) :
    DAC_ChanController E × List Op :=
  let r := s.dataMgr.UpdateNextStep eng
  let s1 := { s with dataMgr := r.1 }
  (s1,
   [.Engine s.hw.dacChan .UpdateNextStep] ++
   (if !s.useDMA && r.2 then
      [if s.hw.dacChan = .CH1 then .DAC_SetChannel1Data (s1.dataMgr.GetCurrentData eng)
       else .DAC_SetChannel2Data (s1.dataMgr.GetCurrentData eng),
       .DAC_SoftwareTriggerCmd s.hw.dacChan]
    else []))

end DAC_ChanController

/-! ## `SystemController` and the global channels -/

/-- The fields of `class SystemController`. -/
structure SystemController where
  currentMode : RunMode
  isRunning : Bool
  isPaused : Bool
  /-- a `uint32_t` -/
  updateTimes : Nat
  cachedCV_Volt : CV_VoltParams
  cachedCV_Params : CV_Params
  cachedDPV_Params : DPV_Params
  cachedScanConstantVal : Nat
  cachedBiasConstantVal : Nat
  deriving DecidableEq

/-- Run-state of the orchestrator, read from its two flags. -/
inductive RunState
  | Idle | Running | Paused
  deriving DecidableEq, Repr

namespace SystemController

/-- Idle = not `isRunning`; Running = `isRunning` and not `isPaused`;
Paused = `isRunning` and `isPaused`. -/
def runState (c : SystemController) : RunState :=
  if !c.isRunning then .Idle else if c.isPaused then .Paused else .Running

def SetMode (mode : RunMode) (c : SystemController) : SystemController :=
  if !c.isRunning then { c with currentMode := mode } else c

def SetCVParams (v : CV_VoltParams) (p : CV_Params) (c : SystemController) :
    SystemController :=
  { c with cachedCV_Volt := v, cachedCV_Params := p }

def SetDPVParams (d : DPV_Params) (c : SystemController) : SystemController :=
  { c with cachedDPV_Params := d }

def SetConstantVal (val : Nat) (c : SystemController) : SystemController :=
  { c with cachedScanConstantVal := val, cachedBiasConstantVal := val }

def SetScanConstantVal (val : Nat) (c : SystemController) : SystemController :=
  { c with cachedScanConstantVal := val }

def SetBiasConstantVal (val : Nat) (c : SystemController) : SystemController :=
  { c with cachedBiasConstantVal := val }

def GetMode (c : SystemController) : RunMode := c.currentMode

def UpdateTick (c : SystemController) : SystemController :=
  if c.isRunning && !c.isPaused then { c with updateTimes := (c.updateTimes + 1) % 2 ^ 32 }
  else c

def GetTickCount (c : SystemController) : Nat := c.updateTimes

def ClearTick (c : SystemController) : SystemController :=
  { c with updateTimes := 0 }

end SystemController

/-- The process-lifetime singletons: the orchestrator instance and the two channels of
`DAC_Manager`. -/
structure Device (E : Type) where
  ctl : SystemController
  Chan_Scan : DAC_ChanController E
  Chan_Constant : DAC_ChanController E

namespace Device

variable {E : Type}

/-- The method `SystemController::Start()`, step 1: the `switch` that initialises the Scan channel. -/
def Start_initScan (eng : WaveEngine E) (g : Device E) : DAC_ChanController E × List Op :=
  match g.ctl.currentMode with
  | .CV => g.Chan_Scan.InitAsCV eng g.ctl.cachedCV_Volt g.ctl.cachedCV_Params
  | .DPV => g.Chan_Scan.InitAsDPV eng g.ctl.cachedDPV_Params
  | .IT => g.Chan_Scan.InitAsConstant eng g.ctl.cachedScanConstantVal

/-- The test `currentMode == RunMode::CV || currentMode == RunMode::DPV`. -/
def periodic (g : Device E) : Bool :=
  decide (g.ctl.currentMode = .CV) || decide (g.ctl.currentMode = .DPV)

/-- The method `SystemController::Start()`. -/
def Start (eng : WaveEngine E) (g : Device E) : Device E × List Op :=
  let scan1 := Start_initScan eng g
  let bias1 := g.Chan_Constant.InitAsConstant eng g.ctl.cachedBiasConstantVal
  let scan2 := scan1.1.Start eng
  let bias2 := bias1.1.Start eng
  ({ ctl := ({ g.ctl with isRunning := true, isPaused := false }).ClearTick,
     Chan_Scan := scan2.1,
     Chan_Constant := bias2.1 },
   [.ADC_StartConversion] ++
   scan1.2 ++
   bias1.2 ++
   (if periodic g then [.TIM_IRQnManage_Add .TIM2, .NVIC_ClearPendingIRQ .TIM2] else []) ++
   scan2.2 ++
   bias2.2 ++
   (if periodic g then [.TIM_GenerateEvent .TIM2] else []))

/-- The method `SystemController::Stop()`. -/
def Stop (g : Device E) : Device E × List Op :=
  let scan := g.Chan_Scan.Stop
  let bias := g.Chan_Constant.Stop
  ({ ctl := { g.ctl with isRunning := false, isPaused := false },
     Chan_Scan := scan.1,
     Chan_Constant := bias.1 },
   scan.2 ++ bias.2)

/-- The method `SystemController::Pause()`. -/
def Pause (g : Device E) : Device E × List Op :=
  let scan := g.Chan_Scan.Pause
  ({ g with ctl := { g.ctl with isPaused := true }, Chan_Scan := scan.1 },
   scan.2 ++ [.ADC_Pause])

/-- The method `SystemController::Resume()`. -/
def Resume (g : Device E) : Device E × List Op :=
  let scan := g.Chan_Scan.Resume
  ({ g with ctl := { g.ctl with isPaused := false }, Chan_Scan := scan.1 },
   scan.2 ++ [.ADC_Resume])

end Device

/-- A request to the orchestrator through its public surface. -/
inductive Request
  | Start | Stop | Pause | Resume
  | SetMode (m : RunMode)
  | UpdateTick
  deriving DecidableEq, Repr

/-- The device together with the enable bits of its peripherals. -/
structure World (E : Type) where
  dev : Device E
  hw : Hardware

namespace World

variable {E : Type}

/-- Run one method on the device and let its calls act on the hardware. -/
def after (w : World E) (r : Device E × List Op) : World E :=
  { dev := r.1, hw := hwRun w.hw r.2 }

/-- Serve one request. -/
def serve (eng : WaveEngine E) (w : World E) : Request → World E
  | .Start => w.after (w.dev.Start eng)
  | .Stop => w.after w.dev.Stop
  | .Pause => w.after w.dev.Pause
  | .Resume => w.after w.dev.Resume
  | .SetMode m => { w with dev := { w.dev with ctl := w.dev.ctl.SetMode m } }
  | .UpdateTick => { w with dev := { w.dev with ctl := w.dev.ctl.UpdateTick } }

/-- Serve a sequence of requests, first to last. -/
def serveAll (eng : WaveEngine E) (w : World E) (rs : List Request) : World E :=
  rs.foldl (serve eng) w

end World

/-! ## Concrete configuration (`main.h`, global instances) -/

/-- The conversion `(int32_t)x` of a `float`: truncation toward zero; `none` where the
truncated value is outside the range of the target type, for which the language defines
no result. -/
def toInt32 (x : ℚ) : Option Int :=
  if -(2 ^ 31) - 1 < x ∧ x < 2 ^ 31 then some (if 0 ≤ x then ⌊x⌋ else ⌈x⌉) else none

/-- The function `VoltToCode12(v, vref)` of `main.h`; the default reference is the
literal `3.3f`. -/
def VoltToCode12 (v : ℚ) (vref : ℚ := rnd32 (33 / 10)) : Option Nat :=
  let v := if v < 0 then 0 else v
  let v := if v > vref then vref else v
  (div32 v vref).bind fun quot =>
  (mul32 quot 4095).bind fun prod =>
  (add32 prod (1 / 2)).bind fun sum =>
  (toInt32 sum).map fun code =>
    let code := if code < 0 then 0 else code
    let code := if code > 4095 then 4095 else code
    Int.toNat code % 2 ^ 16

/-- The `float` that `VoltToCode12` converts to an integer, for `vref > 0`: the three
rounded operations on the clamped voltage. -/
def voltCodeValue (v vref : ℚ) : ℚ :=
  rnd32 (rnd32 (rnd32 (min (max v 0) vref / vref) * 4095) + 1 / 2)

/-- The constant `kDefaultCVVolt(0.8f, -0.8f, 1.65f)`. -/
def kDefaultCVVolt : CV_VoltParams := ⟨rnd32 (8 / 10), rnd32 (-(8 / 10)), rnd32 (165 / 100)⟩

/-- The constant `kDefaultCVParams(0.05f, 0.05f, FORWARD)`. -/
def kDefaultCVParams : CV_Params := ⟨rnd32 (5 / 100), rnd32 (5 / 100), .FORWARD⟩

/-- A DPV parameter pack: the values of the example in `MakeDefaultDPV`. -/
def exampleDPV : DPV_Params :=
  ⟨rnd32 (-(5 / 10)), rnd32 (5 / 10), rnd32 (5 / 1000), rnd32 (5 / 100), 50, 10, 1,
   rnd32 (165 / 100)⟩

/-- State of a minimal engine: the code it outputs and the stored CV step duration. -/
structure HoldCore where
  code : Nat
  cvDuration : ℚ
  deriving DecidableEq

/-- The code of a voltage given as an offset and a relative potential; 0 where the
conversion has no value. -/
def startCode (offset rel : ℚ) : Nat :=
  ((add32 offset rel).bind fun x => VoltToCode12 x).getD 0

/-- Modelled from the spec: `WaveDataManager.h` is not among the sources.  A minimal
engine on which the controller can be run at concrete inputs: `SetupConstant` fixes the
code, `SetupCV` and `SetupDPV` reset the code to the converted start voltage (the low
bound of a forward sweep, the high bound of a reverse one), and `SetupCV` stores the step
duration, a zero or negative one "clamped to the minimum representable tick", 0.1 ms;
`UpdateNextStep` holds the code, which is the CONSTANT behaviour, in every mode.  The
waveform itself is not part of this instance. -/
def holdEngine : WaveEngine HoldCore where
  SetupCV v c _ :=
    { code := startCode v.voltOffset (if c.dir = .FORWARD then v.lowVolt else v.highVolt),
      cvDuration := if c.duration ≤ 0 then rnd32 (1 / 10000) else c.duration }
  SetupDPV d e := { e with code := startCode d.midVolt d.startVolt }
  SetupConstant val e := { e with code := val }
  UpdateNextStep _ e := (e, false)
  GetCurrentData _ e := e.code
  GetCV_duration e := e.cvDuration

/-- The orchestrator after `ApplyDefaultParams()` on the member initialisers. -/
def ctlDefaults : SystemController :=
  { currentMode := .CV, isRunning := false, isPaused := false, updateTimes := 0,
    cachedCV_Volt := kDefaultCVVolt, cachedCV_Params := kDefaultCVParams,
    cachedDPV_Params := exampleDPV,
    cachedScanConstantVal := 2048, cachedBiasConstantVal := 2048 }

/-- The global instances after start-up: `Chan_Scan({CH2, TIM2})`,
`Chan_Constant({CH1, nullptr})`, the orchestrator with the defaults of `main.h`; the
engines hold mid-scale. -/
def powerOn : World HoldCore :=
  { dev :=
      { ctl := ctlDefaults,
        Chan_Scan := DAC_ChanController.new ⟨.CH2, some .TIM2⟩ ⟨.CONSTANT, ⟨2048, 0⟩⟩,
        Chan_Constant := DAC_ChanController.new ⟨.CH1, none⟩ ⟨.CONSTANT, ⟨2048, 0⟩⟩ },
    hw := Hardware.reset }

/-- The write of code `v` to the data register of output channel `ch`. -/
def Op.dataWrite (ch : DAC_Channel) (v : Nat) : Op :=
  match ch with
  | .CH1 => .DAC_SetChannel1Data v
  | .CH2 => .DAC_SetChannel2Data v

/-- Is the call a write to an output data register? -/
def Op.isDataWrite : Op → Bool
  | .DAC_SetChannel1Data _ => true
  | .DAC_SetChannel2Data _ => true
  | _ => false

/-- A channel bound like the Scan channel (CH2, TIM2) whose engine is in CV_SCAN mode
with code 2048 and step duration `0.05f`, in push mode, with the pause flag set. -/
def scanCV : DAC_ChanController HoldCore :=
  { hw := DAC_ChanController.ResolveHardware ⟨.CH2, some .TIM2⟩,
    dataMgr := ⟨.CV_SCAN, ⟨2048, rnd32 (5 / 100)⟩⟩,
    isPaused := true,
    useDMA := true }

/-- Is the call an operation on an output channel (configuration, enable, data write or
software trigger)? -/
def Op.isOutputOp : Op → Bool
  | .DAC_Init _ _ => true
  | .DAC_Cmd _ _ => true
  | .DAC_DMACmd _ _ => true
  | .DAC_SetChannel1Data _ => true
  | .DAC_SetChannel2Data _ => true
  | .DAC_SoftwareTriggerCmd _ => true
  | _ => false

/-- Is the call an operation on a timer (its clock, registers, events or interrupt)? -/
def Op.isTimerOp : Op → Bool
  | .RCC_APB1PeriphClockCmd_TIM _ => true
  | .TIM_DeInit _ => true
  | .TIM_TimeBaseInit _ _ _ => true
  | .TIM_SelectOutputTrigger _ => true
  | .TIM_ITConfig _ _ => true
  | .TIM_SetCounter _ _ => true
  | .TIM_ClearITPendingBit _ => true
  | .TIM_Cmd _ _ => true
  | .NVIC_ClearPendingIRQ _ => true
  | .TIM_GenerateEvent _ => true
  | .TIM_IRQnManage_Add _ => true
  | _ => false

/-- The state after `n` successive invocations of `TIM_IRQHandler()` and all the calls
they issued, first to last. -/
def DAC_ChanController.TIM_IRQHandler_times {E : Type} (eng : WaveEngine E) :
    Nat → DAC_ChanController E → DAC_ChanController E × List Op
  | 0, s => (s, [])
  | n + 1, s =>
    ((TIM_IRQHandler_times eng n (s.TIM_IRQHandler eng).1).1,
     (s.TIM_IRQHandler eng).2 ++ (TIM_IRQHandler_times eng n (s.TIM_IRQHandler eng).1).2)

/-- Modelled from the spec: `WaveDataManager.h` is not among the sources.  A minimal
stepping engine, used only as a concrete input: its state is the code; in CONSTANT mode
`UpdateNextStep` is a no-op returning false, in the periodic modes the code advances by
one (within 12 bits) and the step reports the change. -/
def countEngine : WaveEngine Nat where
  SetupCV _ _ _ := 0
  SetupDPV _ _ := 0
  SetupConstant val _ := val
  UpdateNextStep m e :=
    match m with
    | .CONSTANT => (e, false)
    | _ => ((e + 1) % 4096, true)
  GetCurrentData _ e := e
  GetCV_duration _ := rnd32 (1 / 1000)

/-- A channel bound like the Scan channel (CH2, TIM2) in pull mode, its engine in
DPV_PULSE mode at code 7. -/
def scanDPV : DAC_ChanController Nat :=
  { hw := DAC_ChanController.ResolveHardware ⟨.CH2, some .TIM2⟩,
    dataMgr := ⟨.DPV_PULSE, 7⟩,
    isPaused := false,
    useDMA := false }

/-- Console state: `enum class CommandState`. -/
inductive CommandState
  | UNKNOWN | START | PAUSE | RESUME | STOP
  deriving DecidableEq, Repr

/-- The byte values of the characters of a string literal. -/
def cstr (s : String) : List Nat := s.toList.map Char.toNat

/-- The case folding of `my_stricmp`: `a` to `z` go to `A` to `Z`. -/
def toUpperAZ (c : Nat) : Nat :=
  if 97 ≤ c ∧ c ≤ 122 then c - 97 + 65 else c

/-- The function `my_stricmp(s1, s2)` on two non-null C strings, each given as the list
of its characters (byte values) before the terminating NUL. -/
def my_stricmp : List Nat → List Nat → Int
  | [], s2 => (0 : Int) - (s2.headD 0 : Int)
  | c1 :: _, [] => (c1 : Int) - 0
  | c1 :: s1, c2 :: s2 =>
    if toUpperAZ c1 ≠ toUpperAZ c2 then (toUpperAZ c1 : Int) - (toUpperAZ c2 : Int)
    else my_stricmp s1 s2

/-- Space or tab, the characters that `trim_inplace` strips. -/
def isBlank (c : Nat) : Bool := c = 32 || c = 9

/-- The function `trim_inplace(s)`: the content of `s` afterwards. -/
def trim_inplace (s : List Nat) : List Nat :=
  ((s.dropWhile isBlank).reverse.dropWhile isBlank).reverse

/-- Space, tab or comma: the delimiter set of `strtok(buf, " \t,")`. -/
def isDelim (c : Nat) : Bool := c = 32 || c = 9 || c = 44

/-- The first token of `strtok(buf, " \t,")`, `none` for a null result. -/
def strtok_first (buf : List Nat) : Option (List Nat) :=
  match buf.dropWhile isDelim with
  | [] => none
  | c :: rest => some ((c :: rest).takeWhile (fun x => !isDelim x))

/-- What the console prints in answer to a line. -/
inductive ConsoleOut
  | Help
  | Defaults
  | Printf (msg : String)
  deriving DecidableEq

/-- Outcome of `ProcessCommandLine`: the returned state, the device afterwards, the
orchestrator method it invoked (at most one), the calls that method issued, and the
console output. -/
structure CommandResult (E : Type) where
  state : CommandState
  dev : Device E
  requests : List Request
  calls : List Op
  out : List ConsoleOut

/-- The command word of `ProcessCommandLine` (lines 164-173) for a non-null `line`: the
first token of the trimmed copy of at most 127 characters, `none` where the function
returns before looking at a command. -/
def commandWord (line : List Nat) : Option (List Nat) :=
  if line = [] then none
  else if trim_inplace (line.take 127) = [] then none
  else strtok_first (trim_inplace (line.take 127))

/-- The dispatch of `ProcessCommandLine` (lines 175-223) on the command word, acting on
the orchestrator singleton of device `g`. -/
def runCommand {E : Type} (eng : WaveEngine E) (cmd : List Nat)
    (current : CommandState) (g : Device E) : CommandResult E :=
  if my_stricmp cmd (cstr "HELP") = 0 then ⟨current, g, [], [], [.Help]⟩
  else if my_stricmp cmd (cstr "SHOW") = 0 then ⟨current, g, [], [], [.Defaults]⟩
  else if my_stricmp cmd (cstr "START") = 0 then
    if current = .START ∨ current = .PAUSE ∨ current = .RESUME then
      ⟨current, g, [], [], [.Printf "Already running. Use STOP first.\r\n"]⟩
    else
      ⟨.START, (g.Start eng).1, [.Start], (g.Start eng).2, [.Printf "Starting...\r\n"]⟩
  else if my_stricmp cmd (cstr "STOP") = 0 then
    ⟨.STOP, g.Stop.1, [.Stop], g.Stop.2, [.Printf "Stopping...\r\n"]⟩
  else if my_stricmp cmd (cstr "PAUSE") = 0 then
    if current ≠ .START ∧ current ≠ .RESUME then
      ⟨current, g, [], [], [.Printf "Error: PAUSE only valid after START/RESUME.\r\n"]⟩
    else
      ⟨.PAUSE, g.Pause.1, [.Pause], g.Pause.2, [.Printf "Paused.\r\n"]⟩
  else if my_stricmp cmd (cstr "RESUME") = 0 then
    if current ≠ .PAUSE then
      ⟨current, g, [], [], [.Printf "Resume ignored. Device is not paused.\r\n"]⟩
    else
      ⟨.RESUME, g.Resume.1, [.Resume], g.Resume.2, [.Printf "Resumed.\r\n"]⟩
  else ⟨current, g, [], [], [.Printf "Unknown command. Use HELP.\r\n"]⟩

/-- The function `ProcessCommandLine(usart, line, current)` for a non-null `line`. -/
def ProcessCommandLine {E : Type} (eng : WaveEngine E) (line : List Nat)
    (current : CommandState) (g : Device E) : CommandResult E :=
  match commandWord line with
  | none => ⟨current, g, [], [], []⟩
  | some cmd => runCommand eng cmd current g

/-- One served line: console state and device before it, and the outcome. -/
structure ServedLine (E : Type) where
  state : CommandState
  dev : Device E
  result : CommandResult E

/-- The lines of a sequence served in turn, each from the state and device the previous
one left. -/
def serveLines {E : Type} (eng : WaveEngine E) :
    List (List Nat) → CommandState → Device E → List (ServedLine E)
  | [], _, _ => []
  | l :: ls, st, g =>
    ⟨st, g, ProcessCommandLine eng l st g⟩ ::
      serveLines eng ls (ProcessCommandLine eng l st g).state
        (ProcessCommandLine eng l st g).dev

/-- The console states returned for a sequence of lines, in order. -/
def consoleStates {E : Type} (eng : WaveEngine E) (ls : List (List Nat))
    (st : CommandState) (g : Device E) : List CommandState :=
  (serveLines eng ls st g).map (fun x => x.result.state)

/-- The run-state that a console state stands for. -/
def CommandState.runState : CommandState → RunState
  | .UNKNOWN => .Idle
  | .START => .Running
  | .PAUSE => .Paused
  | .RESUME => .Running
  | .STOP => .Idle

/-! ## Line reader (`src/User/main.cpp`) -/

/-- Carriage return or line feed: the test `ch == '\r' || ch == '\n'`. -/
def isTerm (ch : Nat) : Bool := ch = 13 || ch = 10

/-- The C string left in `outLine` by `strncpy(outLine, lineBuf, outCap - 1)` followed by
`outLine[outCap - 1] = '\0'`, when `lineBuf` holds `buf` and then a NUL. -/
def deliver (outCap : Nat) (buf : List Nat) : List Nat :=
  (buf.takeWhile (fun c => c ≠ 0)).take (outCap - 1)

/-- The static locals of `TryReadCommandLine`: `lineBuf` holds the characters
`lineBuf[0 .. lineLen)`, so `lineLen` is its length. -/
structure LineReader where
  lineBuf : List Nat
  deriving DecidableEq

/-- Outcome of one call of `TryReadCommandLine`: the returned flag, the C string in
`outLine`, the bytes left in the receiver, the static locals and the console output. -/
structure ReadResult where
  ret : Bool
  outLine : List Nat
  rest : List Nat
  st : LineReader
  out : List ConsoleOut
  deriving DecidableEq

/-- Modelled from the spec: the serial transport (`USART_Controller`, `BTCPP.h`) is an
external collaborator and not among the sources; `usart.Receiver(&ch, 1)` is read as
taking the oldest pending byte of the receiver, and returning 0 when none is pending.
With that, this is `TryReadCommandLine(usart, outLine, outCap)` of `src/User/main.cpp`:
`rx` are the bytes pending in the receiver, `outLine` the C string in the caller's
buffer before the call. -/
def TryReadCommandLine (outCap : Nat) : List Nat → LineReader → List Nat → ReadResult
  | [], st, outLine => ⟨false, outLine, [], st, []⟩
  | ch :: rx, st, outLine =>
    if isTerm ch then
      if st.lineBuf.length > 0 then
        ⟨true, if outCap > 0 then deliver outCap st.lineBuf else outLine, rx, ⟨[]⟩, []⟩
      else TryReadCommandLine outCap rx st outLine
    else if st.lineBuf.length < 96 - 1 then
      TryReadCommandLine outCap rx ⟨st.lineBuf ++ [ch]⟩ outLine
    else
      { TryReadCommandLine outCap rx ⟨[]⟩ outLine with
        out := .Printf "Error: Line buffer overflow\r\n" ::
          (TryReadCommandLine outCap rx ⟨[]⟩ outLine).out }

/-- Successive calls of `TryReadCommandLine`: before each call the next chunk of the
schedule (possibly empty) arrives in the receiver behind the bytes still pending. -/
def readCalls (outCap : Nat) :
    List (List Nat) → List Nat → LineReader → List Nat → List ReadResult
  | [], _, _, _ => []
  | chunk :: more, pending, st, outLine =>
    TryReadCommandLine outCap (pending ++ chunk) st outLine ::
      readCalls outCap more (TryReadCommandLine outCap (pending ++ chunk) st outLine).rest
        (TryReadCommandLine outCap (pending ++ chunk) st outLine).st
        (TryReadCommandLine outCap (pending ++ chunk) st outLine).outLine

/-- The lines handed to the caller by the calls that returned true, in order. -/
def deliveredLines (rs : List ReadResult) : List (List Nat) :=
  (rs.filter (fun r => r.ret)).map (fun r => r.outLine)

/-- A byte stream made of lines: each entry is the characters of a line and the
terminator bytes that follow it. -/
def streamOf (ls : List (List Nat × List Nat)) : List Nat :=
  ls.flatMap (fun p => p.1 ++ p.2)

/-- The non-empty lines of such a stream, in order. -/
def nonEmptyLines (ls : List (List Nat × List Nat)) : List (List Nat) :=
  (ls.map (fun p => p.1)).filter (fun l => l ≠ [])

/-- The non-empty lines that a byte stream completes, when `cur` holds the characters of
the line in progress. -/
def completeLines : List Nat → List Nat → List (List Nat)
  | _, [] => []
  | cur, c :: s =>
    if isTerm c then
      (if cur = [] then completeLines [] s else cur :: completeLines [] s)
    else completeLines (cur ++ [c]) s

/-- No line of the stream, continued from the characters `cur` in progress, grows
beyond 95 characters. -/
def linesFit : List Nat → List Nat → Prop
  | cur, [] => cur.length ≤ 95
  | cur, c :: s =>
    if isTerm c then cur.length ≤ 95 ∧ linesFit [] s
    else cur.length < 95 ∧ linesFit (cur ++ [c]) s

/-! ## Theorems -/

/-! ### Binary32 rounding -/

theorem roundEven_eq_of_abs_lt (x : ℚ) (m : ℤ) (h : |x - m| < 1 / 2) : roundEven x = m := by
  rw [abs_lt] at h
  obtain ⟨h1, h2⟩ := h
  unfold roundEven
  by_cases hx : (m : ℚ) ≤ x
  · have hf : ⌊x⌋ = m := by
      rw [Int.floor_eq_iff]
      constructor
      · exact hx
      · linarith
    simp only [hf]
    rw [if_pos (by linarith)]
  · have hx' : x < m := not_le.mp hx
    have hf : ⌊x⌋ = m - 1 := by
      rw [Int.floor_eq_iff]
      constructor
      · push_cast; linarith
      · push_cast; linarith
    simp only [hf]
    push_cast
    rw [if_neg (by linarith), if_pos (by linarith)]
    ring

theorem roundEven_intCast (n : ℤ) : roundEven (n : ℚ) = n :=
  roundEven_eq_of_abs_lt _ n (by simp)

theorem roundEven_sub_le (x : ℚ) : |(roundEven x : ℚ) - x| ≤ 1 / 2 := by
  have h1 := Int.floor_le x
  have h2 := Int.lt_floor_add_one x
  unfold roundEven
  rw [abs_le]
  split_ifs <;> push_cast <;> constructor <;> linarith

theorem roundEven_mono {x y : ℚ} (h : x ≤ y) : roundEven x ≤ roundEven y := by
  by_contra hc
  push_neg at hc
  -- roundEven y + 1 ≤ roundEven x
  have hx := roundEven_sub_le x
  have hy := roundEven_sub_le y
  rw [abs_le] at hx hy
  have hc' : (roundEven y : ℚ) + 1 ≤ roundEven x := by exact_mod_cast hc
  -- then x ≥ rx - 1/2 ≥ ry + 1/2 ≥ y, so x = y
  have hxy : x = y := by linarith
  subst hxy
  exact absurd hc (lt_irrefl _)

theorem log2_eq (r : ℚ) (e : ℤ) (hlo : (2 : ℚ) ^ e ≤ r) (hhi : r < (2 : ℚ) ^ (e + 1)) :
    Int.log 2 r = e := by
  have hr : 0 < r := lt_of_lt_of_le (zpow_pos (by norm_num) e) hlo
  have h1 : e ≤ Int.log 2 r := by
    rw [← Int.zpow_le_iff_le_log (by norm_num) hr]
    simpa using hlo
  have h2 : Int.log 2 r < e + 1 := by
    rw [← Int.lt_zpow_iff_log_lt (by norm_num) hr]
    simpa using hhi
  omega

theorem quantumExp_eq (x : ℚ) (q : ℤ) (hq : -149 ≤ q) (hlo : (2 : ℚ) ^ (q + 23) ≤ |x|)
    (hhi : |x| < (2 : ℚ) ^ (q + 24)) : quantumExp x = q := by
  have hx : x ≠ 0 := by
    intro h
    rw [h, abs_zero] at hlo
    exact absurd hlo (not_le.mpr (zpow_pos (by norm_num) _))
  have hl : Int.log 2 |x| = q + 23 := log2_eq _ _ hlo (by simpa [add_assoc] using hhi)
  unfold quantumExp
  rw [if_neg hx, hl]
  omega

theorem quantumExp_ge (x : ℚ) : -149 ≤ quantumExp x := by
  unfold quantumExp
  split_ifs
  · exact le_rfl
  · exact le_max_right _ _

theorem quantumExp_lt (x : ℚ) : |x| < (2 : ℚ) ^ (quantumExp x + 24) := by
  unfold quantumExp
  split_ifs with h
  · rw [h, abs_zero]
    exact zpow_pos (by norm_num) _
  · have h1 : |x| < ((2 : ℕ) : ℚ) ^ (Int.log 2 |x| + 1) := Int.lt_zpow_succ_log_self (by norm_num) _
    have h2 : ((2 : ℕ) : ℚ) ^ (Int.log 2 |x| + 1) ≤ (2 : ℚ) ^ (max (Int.log 2 |x| - 23) (-149) + 24) := by
      have : Int.log 2 |x| + 1 ≤ max (Int.log 2 |x| - 23) (-149) + 24 := by
        have := le_max_left (Int.log 2 |x| - 23) (-149)
        omega
      simpa using zpow_le_zpow_right₀ (by norm_num : (1 : ℚ) ≤ 2) this
    exact lt_of_lt_of_le h1 h2

theorem quantumExp_lo (x : ℚ) :
    quantumExp x = -149 ∨ (2 : ℚ) ^ (quantumExp x + 23) ≤ |x| := by
  unfold quantumExp
  split_ifs with h
  · exact Or.inl rfl
  · by_cases hc : Int.log 2 |x| - 23 ≤ -149
    · exact Or.inl (max_eq_right hc)
    · right
      have hm : max (Int.log 2 |x| - 23) (-149) = Int.log 2 |x| - 23 :=
        max_eq_left (by omega)
      rw [hm]
      have h1 : ((2 : ℕ) : ℚ) ^ Int.log 2 |x| ≤ |x| :=
        Int.zpow_log_le_self (by norm_num) (abs_pos.mpr h)
      have e : Int.log 2 |x| - 23 + 23 = Int.log 2 |x| := by omega
      rw [e]
      simpa using h1

theorem quantumExp_le_of_abs_lt (x : ℚ) (k : ℤ) (h : |x| < (2 : ℚ) ^ k) :
    quantumExp x ≤ max (k - 24) (-149) := by
  rcases quantumExp_lo x with h1 | h1
  · rw [h1]; exact le_max_right _ _
  · have h2 : (2 : ℚ) ^ (quantumExp x + 23) < (2 : ℚ) ^ k := lt_of_le_of_lt h1 h
    have h3 : quantumExp x + 23 < k := (zpow_lt_zpow_iff_right₀ (by norm_num : (1 : ℚ) < 2)).mp h2
    have := le_max_left (k - 24) (-149)
    omega

theorem quantumExp_mono (x y : ℚ) (h : |x| ≤ |y|) : quantumExp x ≤ quantumExp y := by
  have h1 := quantumExp_le_of_abs_lt x _ (lt_of_le_of_lt h (quantumExp_lt y))
  have h2 := quantumExp_ge y
  have e : quantumExp y + 24 - 24 = quantumExp y := by omega
  rw [e, max_eq_left h2] at h1
  exact h1

theorem rnd32_eq (x : ℚ) (q m : ℤ) (hq : -149 ≤ q) (hlo : (2 : ℚ) ^ (q + 23) ≤ |x|)
    (hhi : |x| < (2 : ℚ) ^ (q + 24)) (hm : |x / (2 : ℚ) ^ q - m| < 1 / 2) :
    rnd32 x = m * (2 : ℚ) ^ q := by
  unfold rnd32
  rw [quantumExp_eq x q hq hlo hhi, roundEven_eq_of_abs_lt _ m hm]

theorem rnd32_zero : rnd32 0 = 0 := by
  simp [rnd32, roundEven]

theorem rnd32_err (x : ℚ) : |rnd32 x - x| ≤ (2 : ℚ) ^ quantumExp x / 2 := by
  have hpos : (0 : ℚ) < (2 : ℚ) ^ quantumExp x := zpow_pos (by norm_num) _
  have h := roundEven_sub_le (x / (2 : ℚ) ^ quantumExp x)
  have e : rnd32 x - x =
      ((roundEven (x / (2 : ℚ) ^ quantumExp x) : ℚ) - x / (2 : ℚ) ^ quantumExp x) *
        (2 : ℚ) ^ quantumExp x := by
    unfold rnd32
    field_simp
  rw [e, abs_mul, abs_of_pos hpos]
  calc |(roundEven (x / (2 : ℚ) ^ quantumExp x) : ℚ) - x / (2 : ℚ) ^ quantumExp x| *
        (2 : ℚ) ^ quantumExp x ≤ 1 / 2 * (2 : ℚ) ^ quantumExp x :=
        mul_le_mul_of_nonneg_right h hpos.le
    _ = (2 : ℚ) ^ quantumExp x / 2 := by ring

theorem rnd32_err_of_abs_lt (x : ℚ) (k : ℤ) (hk : -125 ≤ k) (h : |x| < (2 : ℚ) ^ k) :
    |rnd32 x - x| ≤ (2 : ℚ) ^ (k - 25) := by
  have h1 := rnd32_err x
  have h2 := quantumExp_le_of_abs_lt x k h
  rw [max_eq_left (by omega)] at h2
  have h3 : (2 : ℚ) ^ quantumExp x ≤ (2 : ℚ) ^ (k - 24) :=
    zpow_le_zpow_right₀ (by norm_num) h2
  have h4 : (2 : ℚ) ^ (k - 24) = 2 * (2 : ℚ) ^ (k - 25) := by
    have e : k - 24 = (k - 25) + 1 := by omega
    rw [e, zpow_add_one₀ (by norm_num)]
    ring
  linarith

theorem rnd32_nonneg (x : ℚ) (hx : 0 ≤ x) : 0 ≤ rnd32 x := by
  unfold rnd32
  have hpos : (0 : ℚ) < (2 : ℚ) ^ quantumExp x := zpow_pos (by norm_num) _
  have h0 : roundEven 0 ≤ roundEven (x / (2 : ℚ) ^ quantumExp x) :=
    roundEven_mono (div_nonneg hx hpos.le)
  have h1 : roundEven (0 : ℚ) = 0 := by simpa using roundEven_intCast 0
  rw [h1] at h0
  exact mul_nonneg (by exact_mod_cast h0) hpos.le

theorem rnd32_mono_nonneg (x y : ℚ) (hx : 0 ≤ x) (hxy : x ≤ y) : rnd32 x ≤ rnd32 y := by
  have hy : 0 ≤ y := hx.trans hxy
  have hq : quantumExp x ≤ quantumExp y := by
    apply quantumExp_mono
    rw [abs_of_nonneg hx, abs_of_nonneg hy]
    exact hxy
  have hpx : (0 : ℚ) < (2 : ℚ) ^ quantumExp x := zpow_pos (by norm_num) _
  have hpy : (0 : ℚ) < (2 : ℚ) ^ quantumExp y := zpow_pos (by norm_num) _
  rcases eq_or_lt_of_le hq with he | hlt
  · unfold rnd32
    rw [he]
    have := roundEven_mono (div_le_div_of_nonneg_right hxy hpy.le)
    exact mul_le_mul_of_nonneg_right (by exact_mod_cast this) hpy.le
  · -- the binade of y starts at B = 2^(qy+23), a multiple of both spacings
    have hylo : (2 : ℚ) ^ (quantumExp y + 23) ≤ y := by
      rcases quantumExp_lo y with h | h
      · have := quantumExp_ge x
        omega
      · rwa [abs_of_nonneg hy] at h
    have hxhi : x < (2 : ℚ) ^ (quantumExp x + 24) := by
      have := quantumExp_lt x
      rwa [abs_of_nonneg hx] at this
    have hB : (2 : ℚ) ^ (quantumExp x + 24) ≤ (2 : ℚ) ^ (quantumExp y + 23) :=
      zpow_le_zpow_right₀ (by norm_num) (by omega)
    -- rnd32 x ≤ B
    have h1 : rnd32 x ≤ (2 : ℚ) ^ (quantumExp y + 23) := by
      unfold rnd32
      have hn : (0 : ℤ) ≤ quantumExp y + 23 - quantumExp x := by omega
      have e : (2 : ℚ) ^ (quantumExp y + 23) =
          (((2 : ℤ) ^ (quantumExp y + 23 - quantumExp x).toNat : ℤ) : ℚ) *
            (2 : ℚ) ^ quantumExp x := by
        push_cast
        rw [← zpow_natCast, Int.toNat_of_nonneg hn, ← zpow_add₀ (by norm_num)]
        congr 1
        omega
      rw [e]
      apply mul_le_mul_of_nonneg_right _ hpx.le
      have hle : x / (2 : ℚ) ^ quantumExp x ≤
          (((2 : ℤ) ^ (quantumExp y + 23 - quantumExp x).toNat : ℤ) : ℚ) := by
        rw [div_le_iff₀ hpx, ← e]
        exact (hxhi.le).trans hB
      have := roundEven_mono hle
      rw [roundEven_intCast] at this
      exact_mod_cast this
    -- B ≤ rnd32 y
    have h2 : (2 : ℚ) ^ (quantumExp y + 23) ≤ rnd32 y := by
      unfold rnd32
      have e : (2 : ℚ) ^ (quantumExp y + 23) =
          (((2 : ℤ) ^ (23 : ℕ) : ℤ) : ℚ) * (2 : ℚ) ^ quantumExp y := by
        push_cast
        rw [zpow_add₀ (by norm_num)]
        norm_num
        ring
      rw [e]
      apply mul_le_mul_of_nonneg_right _ hpy.le
      have hle : (((2 : ℤ) ^ (23 : ℕ) : ℤ) : ℚ) ≤ y / (2 : ℚ) ^ quantumExp y := by
        rw [le_div_iff₀ hpy, ← e]
        exact hylo
      have := roundEven_mono hle
      rw [roundEven_intCast] at this
      exact_mod_cast this
    exact h1.trans h2

theorem rnd32_eq_pos (x : ℚ) (q m : ℤ) (hq : -149 ≤ q) (hlo : (2 : ℚ) ^ (q + 23) ≤ x)
    (hhi : x < (2 : ℚ) ^ (q + 24)) (h1 : (m : ℚ) - 1 / 2 < x / (2 : ℚ) ^ q)
    (h2 : x / (2 : ℚ) ^ q < (m : ℚ) + 1 / 2) : rnd32 x = m * (2 : ℚ) ^ q := by
  have hx : 0 < x := lt_of_lt_of_le (zpow_pos (by norm_num) _) hlo
  apply rnd32_eq x q m hq
  · rwa [abs_of_pos hx]
  · rwa [abs_of_pos hx]
  · rw [abs_lt]
    constructor <;> linarith

theorem fl32_eq_some (x : ℚ) (h : |rnd32 x| < 2 ^ 128) : fl32 x = some (rnd32 x) := by
  unfold fl32
  rw [if_pos h]

theorem rnd32_one : rnd32 1 = 1 := by
  rw [rnd32_eq_pos 1 (-23) 8388608 (by norm_num) (by norm_num) (by norm_num) (by norm_num)
    (by norm_num)]
  norm_num

theorem rnd32_half : rnd32 (1 / 2) = 1 / 2 := by
  rw [rnd32_eq_pos (1 / 2) (-24) 8388608 (by norm_num) (by norm_num) (by norm_num)
    (by norm_num) (by norm_num)]
  norm_num

theorem SetupTIM_ticks_of (p : ℚ) (h1 : |rnd32 (p * 10000)| < 2 ^ 128)
    (h3 : |tickValue p| < 2 ^ 128) :
    SetupTIM_ticks p = (toUnsignedInt (tickValue p)).map (fun n => max 1 (min 65536 n)) := by
  unfold tickValue at h3
  have hf : (fun ticks : Nat =>
      (if (if ticks < 1 then 1 else ticks) > 65536 then 65536
        else if ticks < 1 then 1 else ticks)) = fun n => max 1 (min 65536 n) := by
    funext n
    split_ifs <;> omega
  simp only [SetupTIM_ticks, mul32, add32, fl32, tickValue, if_pos h1, if_pos h3,
    Option.some_bind, hf]

theorem roundClampTicks_bounds (p : ℚ) :
    1 ≤ roundClampTicks p ∧ roundClampTicks p ≤ 65536 := by
  unfold roundClampTicks
  omega

theorem rnd32_two_pow_31 : rnd32 (2 ^ 31) = 2 ^ 31 := by
  rw [rnd32_eq_pos (2 ^ 31) 8 8388608 (by norm_num) (by norm_num) (by norm_num)
    (by norm_num) (by norm_num)]
  norm_num

theorem rnd32_two_pow_32 : rnd32 (2 ^ 32) = 2 ^ 32 := by
  rw [rnd32_eq_pos (2 ^ 32) 9 8388608 (by norm_num) (by norm_num) (by norm_num)
    (by norm_num) (by norm_num)]
  norm_num

/-- Below the midpoint `2^32 - 128` a non-negative value rounds to at most `2^32 - 256`, the
largest `float` under `2^32`. -/
theorem rnd32_le_of_lt_mid (x : ℚ) (h0 : 0 ≤ x) (h : x < 2 ^ 32 - 128) :
    rnd32 x ≤ 2 ^ 32 - 256 := by
  by_cases hc : x < 2 ^ 31
  · have h1 := rnd32_mono_nonneg x (2 ^ 31) h0 hc.le
    rw [rnd32_two_pow_31] at h1
    norm_num at h1 ⊢
    linarith
  · push_neg at hc
    have hq : quantumExp x = 8 :=
      quantumExp_eq x 8 (by norm_num) (by rw [abs_of_nonneg h0]; norm_num at hc ⊢; linarith)
        (by rw [abs_of_nonneg h0]; norm_num at h ⊢; linarith)
    have hr := roundEven_sub_le (x / (2 : ℚ) ^ (8 : ℤ))
    rw [abs_le] at hr
    have hlt : (roundEven (x / (2 : ℚ) ^ (8 : ℤ)) : ℚ) < ((16777215 + 1 : ℤ) : ℚ) := by
      have e : x / (2 : ℚ) ^ (8 : ℤ) = x / 256 := by norm_num
      rw [e] at hr ⊢
      push_cast
      norm_num at h ⊢
      linarith
    have hle : roundEven (x / (2 : ℚ) ^ (8 : ℤ)) ≤ 16777215 :=
      Int.lt_add_one_iff.mp (by exact_mod_cast hlt)
    have hle' : (roundEven (x / (2 : ℚ) ^ (8 : ℤ)) : ℚ) ≤ 16777215 := by exact_mod_cast hle
    unfold rnd32
    rw [hq]
    norm_num at hle' ⊢
    linarith

/-- From the midpoint `2^32 - 128` on a value rounds to at least `2^32`. -/
theorem rnd32_ge_of_mid_le (x : ℚ) (h : 2 ^ 32 - 128 ≤ x) : 2 ^ 32 ≤ rnd32 x := by
  have h1 := rnd32_mono_nonneg (2 ^ 32 - 128) x (by norm_num) h
  have h2 : rnd32 (2 ^ 32 - 128) = 2 ^ 32 := by
    have hq : quantumExp (2 ^ 32 - 128) = 8 :=
      quantumExp_eq _ 8 (by norm_num) (by norm_num [abs_of_pos]) (by norm_num [abs_of_pos])
    unfold rnd32
    rw [hq]
    have e : ((2 : ℚ) ^ 32 - 128) / (2 : ℚ) ^ (8 : ℤ) = 33554431 / 2 := by norm_num
    rw [e]
    have hfl : ⌊(33554431 / 2 : ℚ)⌋ = 16777215 := by
      rw [Int.floor_eq_iff]
      norm_num
    have : roundEven (33554431 / 2) = 16777216 := by
      unfold roundEven
      rw [hfl]
      norm_num
    rw [this]
    norm_num
  rw [h2] at h1
  exact h1

theorem tickValue_bounds (p : ℚ) (hp : 0 ≤ p) (hmax : p * 10000 < 2 ^ 32 - 128) :
    |rnd32 (p * 10000)| < 2 ^ 128 ∧ 0 ≤ tickValue p ∧ tickValue p < 2 ^ 32 ∧
    |tickValue p| < 2 ^ 128 := by
  have hy0 : 0 ≤ p * 10000 := by positivity
  have hr0 := rnd32_nonneg _ hy0
  have hr1 := rnd32_le_of_lt_mid _ hy0 hmax
  have hs0 : 0 ≤ rnd32 (p * 10000) + 1 / 2 := by linarith
  have hr3 := rnd32_nonneg _ hs0
  have hr4 := rnd32_le_of_lt_mid _ hs0 (by linarith)
  have hbig : (2 : ℚ) ^ 32 ≤ 2 ^ 128 := by norm_num
  unfold tickValue
  refine ⟨?_, hr3, by linarith, ?_⟩
  · rw [abs_of_nonneg hr0]
    linarith
  · rw [abs_of_nonneg hr3]
    linarith

theorem tickValue_near (p : ℚ) (hp : 0 ≤ p) (hmax : p * 10000 < 2 ^ 32 - 128) :
    max 1 (min 65536 (Int.toNat ⌊tickValue p⌋)) ≤ roundClampTicks p + 1 ∧
    roundClampTicks p ≤ max 1 (min 65536 (Int.toNat ⌊tickValue p⌋)) + 1 ∧
    (⌊p * 10000 + 1 / 2 - 3 / 256⌋ = ⌊p * 10000 + 1 / 2 + 3 / 256⌋ →
      max 1 (min 65536 (Int.toNat ⌊tickValue p⌋)) = roundClampTicks p) := by
  have hy0 : 0 ≤ p * 10000 := by positivity
  have hy1 : p * 10000 < 2 ^ 32 := by linarith
  have hr0 := rnd32_nonneg _ hy0
  have hs0 : 0 ≤ rnd32 (p * 10000) + 1 / 2 := by linarith
  have ht0 : 0 ≤ tickValue p := rnd32_nonneg _ hs0
  have hm0 : 0 ≤ ⌊tickValue p⌋ := Int.floor_nonneg.mpr ht0
  have hn0 : 0 ≤ ⌊p * 10000 + 1 / 2⌋ := Int.floor_nonneg.mpr (by linarith)
  unfold roundClampTicks
  rw [round_eq]
  by_cases hc : p * 10000 < 131072
  · have he1 := rnd32_err_of_abs_lt (p * 10000) 17 (by norm_num)
      (by rw [abs_of_nonneg hy0]; norm_num; linarith)
    rw [abs_le] at he1
    norm_num at he1
    have he3 := rnd32_err_of_abs_lt (rnd32 (p * 10000) + 1 / 2) 18 (by norm_num)
      (by rw [abs_of_nonneg hs0]; norm_num; linarith)
    rw [abs_le] at he3
    norm_num at he3
    have hlo : p * 10000 + 1 / 2 - 3 / 256 ≤ tickValue p := by
      unfold tickValue
      linarith
    have hhi : tickValue p ≤ p * 10000 + 1 / 2 + 3 / 256 := by
      unfold tickValue
      linarith
    have hfl3 := Int.floor_le (p * 10000 + 1 / 2)
    have hfl4 := Int.lt_floor_add_one (p * 10000 + 1 / 2)
    have hfl1 := Int.floor_le (tickValue p)
    have hfl2 := Int.lt_floor_add_one (tickValue p)
    have hmn : ⌊tickValue p⌋ ≤ ⌊p * 10000 + 1 / 2⌋ + 1 := by
      have : ⌊tickValue p⌋ < ⌊p * 10000 + 1 / 2⌋ + 2 := by
        rw [Int.floor_lt]
        push_cast
        linarith
      omega
    have hnm : ⌊p * 10000 + 1 / 2⌋ ≤ ⌊tickValue p⌋ + 1 := by
      have : ⌊p * 10000 + 1 / 2⌋ < ⌊tickValue p⌋ + 2 := by
        rw [Int.floor_lt]
        push_cast
        linarith
      omega
    refine ⟨by omega, by omega, ?_⟩
    intro heq
    have ha : ⌊p * 10000 + 1 / 2 - 3 / 256⌋ ≤ ⌊tickValue p⌋ := Int.floor_mono hlo
    have hb : ⌊tickValue p⌋ ≤ ⌊p * 10000 + 1 / 2 + 3 / 256⌋ := Int.floor_mono hhi
    have hc1 : ⌊p * 10000 + 1 / 2 - 3 / 256⌋ ≤ ⌊p * 10000 + 1 / 2⌋ :=
      Int.floor_mono (by linarith)
    have hc2 : ⌊p * 10000 + 1 / 2⌋ ≤ ⌊p * 10000 + 1 / 2 + 3 / 256⌋ :=
      Int.floor_mono (by linarith)
    have : ⌊tickValue p⌋ = ⌊p * 10000 + 1 / 2⌋ := by omega
    rw [this]
  · have hc' : (131072 : ℚ) ≤ p * 10000 := not_lt.mp hc
    have he1 := rnd32_err_of_abs_lt (p * 10000) 32 (by norm_num)
      (by rw [abs_of_nonneg hy0]; norm_num at hy1 ⊢; linarith)
    rw [abs_le] at he1
    norm_num at he1
    have hr1 := rnd32_le_of_lt_mid _ hy0 hmax
    have he3 := rnd32_err_of_abs_lt (rnd32 (p * 10000) + 1 / 2) 32 (by norm_num)
      (by rw [abs_of_nonneg hs0]; norm_num at hr1 ⊢; linarith)
    rw [abs_le] at he3
    norm_num at he3
    have hm : (65536 : ℤ) ≤ ⌊tickValue p⌋ := by
      rw [Int.le_floor]
      push_cast
      unfold tickValue
      linarith
    have hn : (65536 : ℤ) ≤ ⌊p * 10000 + 1 / 2⌋ := by
      rw [Int.le_floor]
      push_cast
      linarith
    refine ⟨by omega, by omega, fun _ => by omega⟩

theorem SetupTIM_ticks_undefined (p : ℚ) (h : 2 ^ 32 - 128 ≤ p * 10000) :
    SetupTIM_ticks p = none := by
  have h1 := rnd32_ge_of_mid_le _ h
  have h2 : (2 : ℚ) ^ 32 - 128 ≤ rnd32 (p * 10000) + 1 / 2 := by linarith
  have h3 := rnd32_ge_of_mid_le _ h2
  have hu : toUnsignedInt (rnd32 (rnd32 (p * 10000) + 1 / 2)) = none := by
    unfold toUnsignedInt
    rw [if_neg]
    intro hc
    linarith [hc.2]
  unfold SetupTIM_ticks mul32 add32 fl32
  by_cases c1 : |rnd32 (p * 10000)| < 2 ^ 128
  · rw [if_pos c1]
    simp only [Option.some_bind]
    by_cases c2 : |rnd32 (rnd32 (p * 10000) + 1 / 2)| < 2 ^ 128
    · rw [if_pos c2]
      simp only [Option.some_bind, hu]
      rfl
    · rw [if_neg c2]
      rfl
  · rw [if_neg c1]
    rfl

theorem rnd32_period_50ms : rnd32 (5 / 100) = 13421773 / 2 ^ 28 := by
  rw [rnd32_eq_pos (5 / 100) (-28) 13421773 (by norm_num) (by norm_num) (by norm_num)
    (by norm_num) (by norm_num)]
  norm_num

theorem tickValue_period_50ms : tickValue (13421773 / 2 ^ 28) = 1001 / 2 := by
  have e1 : rnd32 (13421773 / 2 ^ 28 * 10000) = 500 := by
    rw [rnd32_eq_pos _ (-15) 16384000 (by norm_num) (by norm_num) (by norm_num)
      (by norm_num) (by norm_num)]
    norm_num
  have e3 : rnd32 (500 + 1 / 2) = 1001 / 2 := by
    rw [rnd32_eq_pos _ (-15) 16400384 (by norm_num) (by norm_num) (by norm_num)
      (by norm_num) (by norm_num)]
    norm_num
  unfold tickValue
  rw [e1, e3]

theorem SetupTIM_ticks_50ms : SetupTIM_ticks (rnd32 (5 / 100)) = some 500 := by
  rw [rnd32_period_50ms]
  have hb := tickValue_bounds (13421773 / 2 ^ 28) (by norm_num) (by norm_num)
  rw [SetupTIM_ticks_of _ hb.1 hb.2.2.2, tickValue_period_50ms]
  have hfl : ⌊(1001 / 2 : ℚ)⌋ = 500 := by
    rw [Int.floor_eq_iff]
    norm_num
  have hu : toUnsignedInt (1001 / 2) = some 500 := by
    unfold toUnsignedInt
    rw [if_pos (by norm_num), hfl]
    rfl
  rw [hu]
  rfl

theorem SetupTIM_period_eq (q : ℚ) :
    SetupTIM_period q = (SetupTIM_ticks q).map (fun n => n - 1) := by
  unfold SetupTIM_period
  cases h : SetupTIM_ticks q with
  | none => rfl
  | some n =>
    have hn : n ≤ 65536 := by
      simp only [SetupTIM_ticks, Option.bind_eq_some, Option.map_eq_some'] at h
      obtain ⟨_, _, _, _, _, _, rfl⟩ := h
      split_ifs <;> omega
    simp only [Option.map_some']
    congr 1
    omega

theorem tickValue_450us : tickValue (7730941 / 2 ^ 34) = 5 := by
  have e1 : rnd32 (7730941 / 2 ^ 34 * 10000) = 9 / 2 := by
    rw [rnd32_eq_pos _ (-21) 9437184 (by norm_num) (by norm_num) (by norm_num)
      (by norm_num) (by norm_num)]
    norm_num
  have e3 : rnd32 (9 / 2 + 1 / 2) = 5 := by
    rw [rnd32_eq_pos _ (-21) 10485760 (by norm_num) (by norm_num) (by norm_num)
      (by norm_num) (by norm_num)]
    norm_num
  unfold tickValue
  rw [e1, e3]

/-- C1 (counterexample): the claim's tick count fails at the `float` 0.00045f, which is
`7730941 / 2^34`, just under 0.00045. Its exact product with 10000 is below 4.5, so
round-half-up gives 4 ticks, but the `float` product rounds to exactly 4.5 and
`SetupTIM` computes 5 ticks. At the `float` 500000 the value converted is `5 * 10^9`, outside
the range of `unsigned int`, so the conversion has no defined result although the claimed
count is 65536. -/
theorem SetupTIM_ticks_not_round_half_up :
    rnd32 (45 / 100000) = 7730941 / 2 ^ 34 ∧
    SetupTIM_ticks (7730941 / 2 ^ 34) = some 5 ∧
    roundClampTicks (7730941 / 2 ^ 34) = 4 ∧
    rnd32 500000 = 500000 ∧
    SetupTIM_ticks 500000 = none ∧
    roundClampTicks 500000 = 65536 := by
  refine ⟨?_, ?_, ?_, ?_, ?_, ?_⟩
  · rw [rnd32_eq_pos (45 / 100000) (-35) 15461882 (by norm_num) (by norm_num) (by norm_num)
      (by norm_num) (by norm_num)]
    norm_num
  · have hb := tickValue_bounds (7730941 / 2 ^ 34) (by norm_num) (by norm_num)
    rw [SetupTIM_ticks_of _ hb.1 hb.2.2.2, tickValue_450us]
    have hu : toUnsignedInt 5 = some 5 := by
      unfold toUnsignedInt
      rw [if_pos (by norm_num)]
      have : ⌊(5 : ℚ)⌋ = 5 := Int.floor_eq_iff.mpr (by norm_num)
      rw [this]
      rfl
    rw [hu]
    rfl
  · have hfl : ⌊(7730941 / 2 ^ 34 * 10000 + 1 / 2 : ℚ)⌋ = 4 := by
      rw [Int.floor_eq_iff]
      norm_num
    unfold roundClampTicks
    rw [round_eq, hfl]
    rfl
  · rw [rnd32_eq_pos 500000 (-5) 16000000 (by norm_num) (by norm_num) (by norm_num)
      (by norm_num) (by norm_num)]
    norm_num
  · exact SetupTIM_ticks_undefined 500000 (by norm_num)
  · have hfl : ⌊(500000 * 10000 + 1 / 2 : ℚ)⌋ = 5000000000 := by
      rw [Int.floor_eq_iff]
      norm_num
    unfold roundClampTicks
    rw [round_eq, hfl]
    rfl

/-- C1 (amended): for every requested period `p >= 0` with `p * 10000 < 2^32 - 128`, the
range in which the value converted fits `unsigned int`, `SetupTIM` computes a tick count
`t`: the floor of the `float` `p * 10000.0f + 0.5f` clamped into `[1, 65536]`. So
`1 <= t <= 65536`; `t` differs from round-half-up of `p * 10000` clamped into `[1, 65536]`
by at most one, and equals it whenever `p * 10000` is not within `3/256` of a half-integer;
`TIM_Period` receives `t - 1`. The `float` 0.05f gives `t = 500`. -/
theorem SetupTIM_ticks_near_round_clamped (p : ℚ) (hp : 0 ≤ p)
    (hmax : p * 10000 < 2 ^ 32 - 128) :
    (∃ t, SetupTIM_ticks p = some t ∧
      t = max 1 (min 65536 (Int.toNat ⌊tickValue p⌋)) ∧
      1 ≤ t ∧ t ≤ 65536 ∧
      t ≤ roundClampTicks p + 1 ∧ roundClampTicks p ≤ t + 1 ∧
      (⌊p * 10000 + 1 / 2 - 3 / 256⌋ = ⌊p * 10000 + 1 / 2 + 3 / 256⌋ →
        t = roundClampTicks p) ∧
      SetupTIM_period p = some (t - 1)) ∧
    SetupTIM_ticks (rnd32 (5 / 100)) = some 500 := by
  refine ⟨?_, SetupTIM_ticks_50ms⟩
  have hb := tickValue_bounds p hp hmax
  have hn := tickValue_near p hp hmax
  have hu : toUnsignedInt (tickValue p) = some (Int.toNat ⌊tickValue p⌋) := by
    unfold toUnsignedInt
    rw [if_pos ⟨by linarith [hb.2.1], hb.2.2.1⟩]
  have ht : SetupTIM_ticks p = some (max 1 (min 65536 (Int.toNat ⌊tickValue p⌋))) := by
    rw [SetupTIM_ticks_of p hb.1 hb.2.2.2, hu]
    rfl
  refine ⟨_, ht, rfl, by omega, by omega, hn.1, hn.2.1, hn.2.2, ?_⟩
  rw [SetupTIM_period_eq, ht]
  rfl

/-- C1 (witness): the amended theorem at the `float` 0.05f, where the count is the rounding
itself. -/
theorem SetupTIM_ticks_near_round_clamped_witness :
    (0 : ℚ) ≤ rnd32 (5 / 100) ∧ rnd32 (5 / 100) * 10000 < 2 ^ 32 - 128 ∧
    SetupTIM_ticks (rnd32 (5 / 100)) = some 500 ∧
    roundClampTicks (rnd32 (5 / 100)) = 500 ∧
    SetupTIM_period (rnd32 (5 / 100)) = some 499 := by
  have h0 : (0 : ℚ) ≤ rnd32 (5 / 100) := by rw [rnd32_period_50ms]; norm_num
  have h1 : rnd32 (5 / 100) * 10000 < 2 ^ 32 - 128 := by rw [rnd32_period_50ms]; norm_num
  have hfl : ⌊(13421773 / 2 ^ 28 * 10000 + 1 / 2 : ℚ)⌋ = 500 := by
    rw [Int.floor_eq_iff]
    norm_num
  have hr : roundClampTicks (rnd32 (5 / 100)) = 500 := by
    rw [rnd32_period_50ms]
    unfold roundClampTicks
    rw [round_eq, hfl]
    rfl
  obtain ⟨⟨t, ht, -, -, -, -, -, -, hper⟩, h500⟩ :=
    SetupTIM_ticks_near_round_clamped (rnd32 (5 / 100)) h0 h1
  rw [h500] at ht
  cases ht
  exact ⟨h0, h1, h500, hr, hper⟩

/-! ### Run-state machine -/

section RunStateMachine

variable {E : Type}

theorem runState_idle_iff (c : SystemController) :
    c.runState = .Idle ↔ c.isRunning = false := by
  unfold SystemController.runState
  cases c.isRunning <;> cases c.isPaused <;> simp

theorem runState_running_iff (c : SystemController) :
    c.runState = .Running ↔ c.isRunning = true ∧ c.isPaused = false := by
  unfold SystemController.runState
  cases c.isRunning <;> cases c.isPaused <;> simp

theorem runState_paused_iff (c : SystemController) :
    c.runState = .Paused ↔ c.isRunning = true ∧ c.isPaused = true := by
  unfold SystemController.runState
  cases c.isRunning <;> cases c.isPaused <;> simp

/-- C2: with the run-state read from the two flags, `Start()` from Idle yields Running,
`Pause()` from Running yields Paused, `Resume()` from Paused yields Running, and
`Stop()` from Running or from Paused yields Idle. -/
theorem legal_transitions (eng : WaveEngine E) (g : Device E) :
    (g.ctl.runState = .Idle → (g.Start eng).1.ctl.runState = .Running) ∧
    (g.ctl.runState = .Running → g.Pause.1.ctl.runState = .Paused) ∧
    (g.ctl.runState = .Paused → g.Resume.1.ctl.runState = .Running) ∧
    (g.ctl.runState = .Running ∨ g.ctl.runState = .Paused →
      g.Stop.1.ctl.runState = .Idle) := by
  refine ⟨?_, ?_, ?_, ?_⟩
  · intro _
    simp [Device.Start, SystemController.ClearTick, SystemController.runState]
  · intro h
    rw [runState_running_iff] at h
    simp [Device.Pause, SystemController.runState, h.1]
  · intro h
    rw [runState_paused_iff] at h
    simp [Device.Resume, SystemController.runState, h.1]
  · intro _
    simp [Device.Stop, SystemController.runState]

/-- Witness for C2: the four transitions taken in turn from the power-on device
(Idle, then Running, then Paused, then Running again). -/
theorem legal_transitions_witness :
    powerOn.dev.ctl.runState = .Idle ∧
    (powerOn.dev.Start holdEngine).1.ctl.runState = .Running ∧
    (powerOn.dev.Start holdEngine).1.Pause.1.ctl.runState = .Paused ∧
    (powerOn.dev.Start holdEngine).1.Pause.1.Resume.1.ctl.runState = .Running ∧
    (powerOn.dev.Start holdEngine).1.Pause.1.Resume.1.Stop.1.ctl.runState = .Idle ∧
    (powerOn.dev.Start holdEngine).1.Pause.1.Stop.1.ctl.runState = .Idle := by
  have h0 : powerOn.dev.ctl.runState = .Idle := rfl
  have h1 := (legal_transitions holdEngine powerOn.dev).1 h0
  have h2 := (legal_transitions holdEngine (powerOn.dev.Start holdEngine).1).2.1 h1
  have h3 := (legal_transitions holdEngine (powerOn.dev.Start holdEngine).1.Pause.1).2.2.1 h2
  have h4 := (legal_transitions holdEngine
    (powerOn.dev.Start holdEngine).1.Pause.1.Resume.1).2.2.2 (Or.inl h3)
  have h5 := (legal_transitions holdEngine
    (powerOn.dev.Start holdEngine).1.Pause.1).2.2.2 (Or.inr h2)
  exact ⟨h0, h1, h2, h3, h4, h5⟩

/-- C3: `SetMode(m)` takes effect only in Idle: from Idle `GetMode()` returns `m`
afterwards, from Running or Paused `GetMode()` is unchanged, and in every case all
other fields of the orchestrator keep their values. -/
theorem SetMode_only_in_idle (m : RunMode) (c : SystemController) :
    (c.runState = .Idle → (c.SetMode m).GetMode = m) ∧
    (c.runState = .Running ∨ c.runState = .Paused → (c.SetMode m).GetMode = c.GetMode) ∧
    { c.SetMode m with currentMode := c.currentMode } = c := by
  refine ⟨?_, ?_, ?_⟩
  · intro h
    rw [runState_idle_iff] at h
    simp [SystemController.SetMode, SystemController.GetMode, h]
  · intro h
    have hr : c.isRunning = true := by
      rcases h with h | h
      · exact ((runState_running_iff c).1 h).1
      · exact ((runState_paused_iff c).1 h).1
    simp [SystemController.SetMode, hr]
  · unfold SystemController.SetMode
    split <;> rfl

/-- Witness for C3: `SetMode(DPV)` on the idle power-on orchestrator and on the same
orchestrator once running and once paused. -/
theorem SetMode_only_in_idle_witness :
    ctlDefaults.runState = .Idle ∧ (ctlDefaults.SetMode .DPV).GetMode = .DPV ∧
    ({ ctlDefaults with isRunning := true } : SystemController).runState = .Running ∧
    (({ ctlDefaults with isRunning := true } : SystemController).SetMode .DPV).GetMode = .CV ∧
    ({ ctlDefaults with isRunning := true, isPaused := true } : SystemController).runState
      = .Paused ∧
    (({ ctlDefaults with isRunning := true, isPaused := true } : SystemController).SetMode
      .DPV).GetMode = .CV :=
  ⟨rfl, (SetMode_only_in_idle .DPV ctlDefaults).1 rfl,
   rfl, (SetMode_only_in_idle .DPV { ctlDefaults with isRunning := true }).2.1 (Or.inl rfl),
   rfl, (SetMode_only_in_idle .DPV
     { ctlDefaults with isRunning := true, isPaused := true }).2.1 (Or.inr rfl)⟩

end RunStateMachine

/-! ### Requests outside the legal transitions -/

section IllegalRequests

variable {E : Type}

/-- C4, as stated, fails: on the idle power-on device `Pause()` sets the orchestrator's
pause flag and the Scan channel's pause flag and sends a pause request to the sampling
subsystem. -/
theorem Pause_while_idle_changes_state :
    powerOn.dev.ctl.runState = .Idle ∧
    powerOn.dev.ctl.isPaused = false ∧ powerOn.dev.Pause.1.ctl.isPaused = true ∧
    powerOn.dev.Chan_Scan.isPaused = false ∧ powerOn.dev.Pause.1.Chan_Scan.isPaused = true ∧
    powerOn.dev.Pause.2 = [.TIM_Cmd .TIM2 false, .ADC_Pause] := by
  refine ⟨rfl, rfl, rfl, rfl, rfl, rfl⟩

/-- C4, amended: for every Idle state, `Pause()` keeps `isRunning`, the mode, the tick
counter and the cached parameters (so the run-state read from the flags stays Idle) and
the Bias channel, but it sets `isPaused`, applies the channel-level `Pause()` to the
Scan channel and then sends one pause request to the sampling subsystem. -/
theorem Pause_while_idle (g : Device E) (h : g.ctl.runState = .Idle) :
    g.Pause.1.ctl = { g.ctl with isPaused := true } ∧
    g.Pause.1.ctl.runState = .Idle ∧
    g.Pause.1.Chan_Scan = g.Chan_Scan.Pause.1 ∧
    g.Pause.1.Chan_Constant = g.Chan_Constant ∧
    g.Pause.2 = g.Chan_Scan.Pause.2 ++ [.ADC_Pause] := by
  rw [runState_idle_iff] at h
  refine ⟨rfl, ?_, rfl, rfl, rfl⟩
  simp [Device.Pause, SystemController.runState, h]

/-- Witness for the amended C4 at the idle power-on device. -/
theorem Pause_while_idle_witness :
    powerOn.dev.ctl.runState = .Idle ∧
    powerOn.dev.Pause.1.ctl.runState = .Idle ∧
    powerOn.dev.Pause.2 = powerOn.dev.Chan_Scan.Pause.2 ++ [.ADC_Pause] :=
  ⟨rfl, (Pause_while_idle powerOn.dev rfl).2.1, (Pause_while_idle powerOn.dev rfl).2.2.2.2⟩

theorem hwStep_timEnabled_false (h : Hardware) (t : TIM_TypeDef) (op : Op)
    (hop : op ≠ .TIM_Cmd t true) (hh : h.timEnabled t = false) :
    (hwStep h op).timEnabled t = false := by
  cases op <;> simp only [hwStep, hh]
  case TIM_Cmd u en =>
    by_cases htu : t = u
    · subst htu
      cases en
      · simp
      · exact absurd rfl hop
    · simp [htu, hh]
  case TIM_DeInit u =>
    by_cases htu : t = u <;> simp [htu, hh]

theorem hwRun_timEnabled_false (t : TIM_TypeDef) (ops : List Op)
    (hops : ∀ op ∈ ops, op ≠ .TIM_Cmd t true) (h : Hardware)
    (hh : h.timEnabled t = false) :
    (hwRun h ops).timEnabled t = false := by
  induction ops generalizing h with
  | nil => simpa [hwRun] using hh
  | cons op rest ih =>
    have h1 := hwStep_timEnabled_false h t op (hops op (List.mem_cons_self _ _)) hh
    have h2 := ih (fun o ho => hops o (List.mem_cons_of_mem _ ho)) (hwStep h op) h1
    simpa [hwRun] using h2

theorem hwRun_append (h : Hardware) (a b : List Op) :
    hwRun h (a ++ b) = hwRun (hwRun h a) b := by
  simp [hwRun, List.foldl_append]

theorem chan_Stop_no_enable (s : DAC_ChanController E) (t : TIM_TypeDef) :
    ∀ op ∈ s.Stop.2, op ≠ .TIM_Cmd t true := by
  intro op hop
  unfold DAC_ChanController.Stop at hop
  rcases hw : s.hw.tim with _ | u <;> rcases hu : s.useDMA <;>
    rcases hd : s.hw.dmaChan with _ | d <;>
    simp [hw, hu, hd] at hop <;> aesop

theorem chan_Pause_no_enable (s : DAC_ChanController E) (t : TIM_TypeDef) :
    ∀ op ∈ s.Pause.2, op ≠ .TIM_Cmd t true := by
  intro op hop
  unfold DAC_ChanController.Pause at hop
  rcases hw : s.hw.tim with _ | u <;> rcases hp : s.isPaused <;>
    simp [hw, hp] at hop
  subst hop
  simp

theorem chan_Stop_timer_off (s : DAC_ChanController E) (t : TIM_TypeDef)
    (ht : s.hw.tim = some t) (h : Hardware) :
    (hwRun h s.Stop.2).timEnabled t = false := by
  have hsplit : s.Stop.2 = [.TIM_Cmd t false] ++
      ([.DAC_Cmd s.hw.dacChan false] ++
        (match s.useDMA, s.hw.dmaChan with
          | true, some d => [.DMA_Cmd d false]
          | _, _ => [])) := by
    simp [DAC_ChanController.Stop, ht]
  rw [hsplit, hwRun_append]
  apply hwRun_timEnabled_false
  · intro op hop
    rcases hu : s.useDMA <;> rcases hd : s.hw.dmaChan with _ | d <;>
      simp [hu, hd] at hop <;> aesop
  · simp [hwRun, hwStep]

theorem chan_Pause_hw (s : DAC_ChanController E) : s.Pause.1.hw = s.hw := by
  unfold DAC_ChanController.Pause
  split <;> rfl

theorem serve_keeps_timer_off (eng : WaveEngine E) (w : World E) (t : TIM_TypeDef)
    (r : Request) (hr : r ≠ .Start ∧ r ≠ .Resume)
    (ht : w.dev.Chan_Scan.hw.tim = some t) (hoff : w.hw.timEnabled t = false) :
    (w.serve eng r).dev.Chan_Scan.hw.tim = some t ∧
    (w.serve eng r).hw.timEnabled t = false := by
  cases r with
  | Start => exact absurd rfl hr.1
  | Resume => exact absurd rfl hr.2
  | Stop =>
    refine ⟨ht, ?_⟩
    apply hwRun_timEnabled_false _ _ _ _ hoff
    intro op hop
    rcases List.mem_append.1 hop with h | h
    · exact chan_Stop_no_enable _ t op h
    · exact chan_Stop_no_enable _ t op h
  | Pause =>
    refine ⟨?_, ?_⟩
    · show w.dev.Chan_Scan.Pause.1.hw.tim = some t
      rw [chan_Pause_hw]; exact ht
    · apply hwRun_timEnabled_false _ _ _ _ hoff
      intro op hop
      rcases List.mem_append.1 hop with h | h
      · exact chan_Pause_no_enable _ t op h
      · simp at h; subst h; simp
  | SetMode m => exact ⟨ht, hoff⟩
  | UpdateTick => exact ⟨ht, hoff⟩

theorem serveAll_keeps_timer_off (eng : WaveEngine E) (t : TIM_TypeDef)
    (rs : List Request) (hrs : ∀ r ∈ rs, r ≠ .Start ∧ r ≠ .Resume) (w : World E)
    (ht : w.dev.Chan_Scan.hw.tim = some t) (hoff : w.hw.timEnabled t = false) :
    (w.serveAll eng rs).hw.timEnabled t = false := by
  induction rs generalizing w with
  | nil => simpa [World.serveAll] using hoff
  | cons r rest ih =>
    have h1 := serve_keeps_timer_off eng w t r (hrs r (List.mem_cons_self _ _)) ht hoff
    have h2 := ih (fun x hx => hrs x (List.mem_cons_of_mem _ hx)) (w.serve eng r) h1.1 h1.2
    simpa [World.serveAll] using h2

/-- C5, as stated, fails: from power-on, after `Start, Pause, Stop` the orchestrator is
Idle and the Scan timer (TIM2) is disabled, yet the further request `Resume` enables it
again; so does `Pause, Resume` after `Start, Stop`. -/
theorem Resume_after_Stop_enables_timer :
    (powerOn.serveAll holdEngine [.Start, .Pause, .Stop]).dev.ctl.runState = .Idle ∧
    (powerOn.serveAll holdEngine [.Start, .Pause, .Stop]).hw.timEnabled .TIM2 = false ∧
    (powerOn.serveAll holdEngine [.Start, .Pause, .Stop, .Resume]).hw.timEnabled .TIM2
      = true ∧
    (powerOn.serveAll holdEngine [.Start, .Stop, .Pause, .Resume]).hw.timEnabled .TIM2
      = true := by
  refine ⟨rfl, rfl, rfl, rfl⟩

/-- C5, amended: when `Stop()` returns the Scan channel's timer is disabled, and it stays
disabled after every following sequence of `Pause()`, `Stop()`, `SetMode()` and
`UpdateTick()` requests (no `Start()` and no `Resume()`). -/
theorem Stop_timer_stays_off (eng : WaveEngine E) (w : World E) (t : TIM_TypeDef)
    (ht : w.dev.Chan_Scan.hw.tim = some t) (rs : List Request)
    (hrs : ∀ r ∈ rs, r ≠ .Start ∧ r ≠ .Resume) :
    (w.serve eng .Stop).hw.timEnabled t = false ∧
    ((w.serve eng .Stop).serveAll eng rs).hw.timEnabled t = false := by
  have hstop : (w.serve eng .Stop).hw.timEnabled t = false := by
    show (hwRun w.hw (w.dev.Chan_Scan.Stop.2 ++ w.dev.Chan_Constant.Stop.2)).timEnabled t
      = false
    rw [hwRun_append]
    exact hwRun_timEnabled_false t _ (chan_Stop_no_enable _ t) _
      (chan_Stop_timer_off _ t ht _)
  exact ⟨hstop, serveAll_keeps_timer_off eng t rs hrs _ ht hstop⟩

/-- Witness for the amended C5: the running power-on device (timer enabled) is stopped
and then receives `Pause, Stop, SetMode(DPV), UpdateTick, Pause`. -/
theorem Stop_timer_stays_off_witness :
    (powerOn.serve holdEngine .Start).hw.timEnabled .TIM2 = true ∧
    (((powerOn.serve holdEngine .Start).serve holdEngine .Stop).serveAll holdEngine
      [.Pause, .Stop, .SetMode .DPV, .UpdateTick, .Pause]).hw.timEnabled .TIM2 = false :=
  ⟨rfl,
   (Stop_timer_stays_off holdEngine (powerOn.serve holdEngine .Start) .TIM2 rfl
      [.Pause, .Stop, .SetMode .DPV, .UpdateTick, .Pause] (by decide)).2⟩

end IllegalRequests

/-! ### Channel controller: pause, resume, fan-out, initialisation -/

section Channel

variable {E : Type}

/-- C6: channel-level `Pause()` and `Resume()` are idempotent and gate only the timer:
a second call in the same direction returns the same state and issues no call at all;
either operation keeps the binding, the engine and the delivery mode, issues nothing
but a `TIM_Cmd` on the bound timer, and leaves the enable bits of the output channels
and of the transfer channels as they were. -/
theorem chan_Pause_Resume_idempotent (s : DAC_ChanController E) (h : Hardware) :
    s.Pause.1.Pause = (s.Pause.1, []) ∧
    s.Resume.1.Resume = (s.Resume.1, []) ∧
    s.Pause.1.isPaused = true ∧ s.Resume.1.isPaused = false ∧
    { s.Pause.1 with isPaused := s.isPaused } = s ∧
    { s.Resume.1 with isPaused := s.isPaused } = s ∧
    (∀ op ∈ s.Pause.2, ∃ t, s.hw.tim = some t ∧ op = .TIM_Cmd t false) ∧
    (∀ op ∈ s.Resume.2, ∃ t, s.hw.tim = some t ∧ op = .TIM_Cmd t true) ∧
    (hwRun h s.Pause.2).dacEnabled = h.dacEnabled ∧
    (hwRun h s.Pause.2).dmaEnabled = h.dmaEnabled ∧
    (hwRun h s.Resume.2).dacEnabled = h.dacEnabled ∧
    (hwRun h s.Resume.2).dmaEnabled = h.dmaEnabled := by
  obtain ⟨hw, dm, p, u⟩ := s
  obtain ⟨ch, tim, dma, trg, src⟩ := hw
  cases p <;> cases tim <;>
    simp [DAC_ChanController.Pause, DAC_ChanController.Resume, hwRun, hwStep]

/-- C7, as stated, fails: on the running power-on device the orchestrator's `Pause()`
issues only the Scan timer gate and the sampling pause, and the Bias channel's pause
flag is still clear afterwards. -/
theorem Pause_skips_Bias :
    (powerOn.dev.Start holdEngine).1.ctl.runState = .Running ∧
    (powerOn.dev.Start holdEngine).1.Pause.1.Chan_Constant.isPaused = false ∧
    (powerOn.dev.Start holdEngine).1.Pause.1.Chan_Scan.isPaused = true ∧
    (powerOn.dev.Start holdEngine).1.Pause.2 = [.TIM_Cmd .TIM2 false, .ADC_Pause] := by
  refine ⟨rfl, rfl, rfl, rfl⟩

/-- C7, amended: `Stop()` applies the channel-level `Stop()` to the Scan channel and then
to the Bias channel; `Pause()` and `Resume()` apply the same-named operation to the Scan
channel only, then invoke the sampling subsystem's `Pause`/`Resume`, and leave the Bias
channel untouched; after `Pause()` the Scan pause flag is set and after `Resume()` it is
clear. -/
theorem fan_out (g : Device E) :
    (g.Stop.1.Chan_Scan = g.Chan_Scan.Stop.1 ∧
      g.Stop.1.Chan_Constant = g.Chan_Constant.Stop.1 ∧
      g.Stop.2 = g.Chan_Scan.Stop.2 ++ g.Chan_Constant.Stop.2) ∧
    (g.Pause.1.Chan_Scan = g.Chan_Scan.Pause.1 ∧
      g.Pause.1.Chan_Constant = g.Chan_Constant ∧
      g.Pause.2 = g.Chan_Scan.Pause.2 ++ [.ADC_Pause] ∧
      g.Pause.1.Chan_Scan.isPaused = true) ∧
    (g.Resume.1.Chan_Scan = g.Chan_Scan.Resume.1 ∧
      g.Resume.1.Chan_Constant = g.Chan_Constant ∧
      g.Resume.2 = g.Chan_Scan.Resume.2 ++ [.ADC_Resume] ∧
      g.Resume.1.Chan_Scan.isPaused = false) := by
  refine ⟨⟨rfl, rfl, rfl⟩, ⟨rfl, rfl, rfl, ?_⟩, ⟨rfl, rfl, rfl, ?_⟩⟩
  · show g.Chan_Scan.Pause.1.isPaused = true
    unfold DAC_ChanController.Pause
    cases hp : g.Chan_Scan.isPaused <;> simp [hp]
  · show g.Chan_Scan.Resume.1.isPaused = false
    unfold DAC_ChanController.Resume
    cases hp : g.Chan_Scan.isPaused <;> simp [hp]

/-- C8: the delivery model is fixed by the Init call, for every prior controller state:
`InitAsCV` leaves push mode with engine mode CV_SCAN, `InitAsDPV` and `InitAsConstant`
leave pull mode with engine mode DPV_PULSE and CONSTANT; each calls the matching engine
`Setup*` first and `SwitchMode` second, the engine ending as `SwitchMode` applied to the
result of `Setup*` on the prior engine. -/
theorem Init_fixes_delivery (eng : WaveEngine E) (s : DAC_ChanController E)
    (v : CV_VoltParams) (c : CV_Params) (d : DPV_Params) (val : Nat) :
    ((s.InitAsCV eng v c).1.useDMA = true ∧
      (s.InitAsCV eng v c).1.dataMgr.GetMode = .CV_SCAN ∧
      (s.InitAsCV eng v c).1.dataMgr =
        WaveDataManager.SwitchMode .CV_SCAN (s.dataMgr.SetupCV eng v c) ∧
      (s.InitAsCV eng v c).2 =
        [.Engine s.hw.dacChan (.SetupCV v c), .Engine s.hw.dacChan (.SwitchMode .CV_SCAN)]) ∧
    ((s.InitAsDPV eng d).1.useDMA = false ∧
      (s.InitAsDPV eng d).1.dataMgr.GetMode = .DPV_PULSE ∧
      (s.InitAsDPV eng d).1.dataMgr =
        WaveDataManager.SwitchMode .DPV_PULSE (s.dataMgr.SetupDPV eng d) ∧
      (s.InitAsDPV eng d).2 =
        [.Engine s.hw.dacChan (.SetupDPV d), .Engine s.hw.dacChan (.SwitchMode .DPV_PULSE)]) ∧
    ((s.InitAsConstant eng val).1.useDMA = false ∧
      (s.InitAsConstant eng val).1.dataMgr.GetMode = .CONSTANT ∧
      (s.InitAsConstant eng val).1.dataMgr =
        WaveDataManager.SwitchMode .CONSTANT (s.dataMgr.SetupConstant eng val) ∧
      (s.InitAsConstant eng val).2 =
        [.Engine s.hw.dacChan (.SetupConstant val),
         .Engine s.hw.dacChan (.SwitchMode .CONSTANT)]) ∧
    ((s.InitAsCV eng v c).1.hw = s.hw ∧ (s.InitAsDPV eng d).1.hw = s.hw ∧
      (s.InitAsConstant eng val).1.hw = s.hw ∧
      (s.InitAsCV eng v c).1.isPaused = s.isPaused ∧
      (s.InitAsDPV eng d).1.isPaused = s.isPaused ∧
      (s.InitAsConstant eng val).1.isPaused = s.isPaused) :=
  ⟨⟨rfl, rfl, rfl, rfl⟩, ⟨rfl, rfl, rfl, rfl⟩, ⟨rfl, rfl, rfl, rfl⟩,
   ⟨rfl, rfl, rfl, rfl, rfl, rfl⟩⟩

/-- Witness for C6 on the power-on Scan channel (TIM2, not paused): the one call of
`Pause()` is the timer gate, and a second `Pause()` issues nothing. -/
theorem chan_Pause_Resume_idempotent_witness :
    Op.TIM_Cmd .TIM2 false ∈ powerOn.dev.Chan_Scan.Pause.2 ∧
    (∃ t, powerOn.dev.Chan_Scan.hw.tim = some t ∧ Op.TIM_Cmd .TIM2 false = .TIM_Cmd t false) ∧
    powerOn.dev.Chan_Scan.Pause.1.Pause.2 = [] := by
  have hmem : Op.TIM_Cmd .TIM2 false ∈ powerOn.dev.Chan_Scan.Pause.2 := by decide
  have h := chan_Pause_Resume_idempotent powerOn.dev.Chan_Scan Hardware.reset
  exact ⟨hmem, h.2.2.2.2.2.2.1 _ hmem, congrArg Prod.snd h.1⟩

theorem SetupTIM_period_example : SetupTIM_period (rnd32 (5 / 100)) = some 499 := by
  rw [SetupTIM_period_eq, SetupTIM_ticks_50ms]
  rfl

/-- C9, as stated, fails in the order of the timer part: on a CV channel bound to TIM2
the only interrupt-enabling call (`TIM_ITConfig`, position 15) is issued inside the
timer configuration, before the first clearing of the pending event (position 17), and
no interrupt-enabling call stands between the clearing and the timer enable. -/
theorem Start_enables_interrupt_before_clearing :
    (scanCV.Start holdEngine).2 =
      [.RCC_APB2PeriphClockCmd_GPIOA, .GPIO_Init_AIN 5,
       .RCC_APB1PeriphClockCmd_DAC, .DAC_Init .CH2 .T2_TRGO, .DAC_Cmd .CH2 true,
       .DAC_DMACmd .CH2 true,
       .RCC_AHBPeriphClockCmd_DMA 1, .DMA_DeInit .DMA1_Channel2,
       .DMA_Init .DMA1_Channel2 .CH2, .DMA_Cmd .DMA1_Channel2 true,
       .DAC_SetChannel2Data 2048,
       .RCC_APB1PeriphClockCmd_TIM .TIM2, .TIM_DeInit .TIM2,
       .TIM_TimeBaseInit .TIM2 7199 (some 499), .TIM_SelectOutputTrigger .TIM2,
       .TIM_ITConfig .TIM2 true,
       .TIM_SetCounter .TIM2 0, .TIM_ClearITPendingBit .TIM2, .TIM_Cmd .TIM2 false,
       .TIM_SetCounter .TIM2 0, .TIM_ClearITPendingBit .TIM2, .NVIC_ClearPendingIRQ .TIM2,
       .TIM_Cmd .TIM2 true, .TIM_GenerateEvent .TIM2] ∧
    (scanCV.Start holdEngine).2.indexOf (.TIM_ITConfig .TIM2 true) = 15 ∧
    (scanCV.Start holdEngine).2.count (.TIM_ITConfig .TIM2 true) = 1 ∧
    (scanCV.Start holdEngine).2.indexOf (.TIM_ClearITPendingBit .TIM2) = 17 ∧
    (scanCV.Start holdEngine).2.indexOf (.NVIC_ClearPendingIRQ .TIM2) = 21 ∧
    (scanCV.Start holdEngine).2.indexOf (.TIM_Cmd .TIM2 true) = 22 := by
  have hp : DAC_ChanController.Start_period holdEngine scanCV = rnd32 (5 / 100) := by
    have hpos : ¬ rnd32 (5 / 100) ≤ 0 := by
      rw [rnd32_period_50ms]
      norm_num
    simp only [DAC_ChanController.Start_period, scanCV, WaveDataManager.GetMode,
      WaveDataManager.GetCV_duration, holdEngine, if_true, if_neg hpos]
  have htr : (scanCV.Start holdEngine).2 =
      [.RCC_APB2PeriphClockCmd_GPIOA, .GPIO_Init_AIN 5,
       .RCC_APB1PeriphClockCmd_DAC, .DAC_Init .CH2 .T2_TRGO, .DAC_Cmd .CH2 true,
       .DAC_DMACmd .CH2 true,
       .RCC_AHBPeriphClockCmd_DMA 1, .DMA_DeInit .DMA1_Channel2,
       .DMA_Init .DMA1_Channel2 .CH2, .DMA_Cmd .DMA1_Channel2 true,
       .DAC_SetChannel2Data 2048,
       .RCC_APB1PeriphClockCmd_TIM .TIM2, .TIM_DeInit .TIM2,
       .TIM_TimeBaseInit .TIM2 7199 (some 499), .TIM_SelectOutputTrigger .TIM2,
       .TIM_ITConfig .TIM2 true,
       .TIM_SetCounter .TIM2 0, .TIM_ClearITPendingBit .TIM2, .TIM_Cmd .TIM2 false,
       .TIM_SetCounter .TIM2 0, .TIM_ClearITPendingBit .TIM2, .NVIC_ClearPendingIRQ .TIM2,
       .TIM_Cmd .TIM2 true, .TIM_GenerateEvent .TIM2] := by
    have e : (scanCV.Start holdEngine).2 =
      [.RCC_APB2PeriphClockCmd_GPIOA, .GPIO_Init_AIN 5,
       .RCC_APB1PeriphClockCmd_DAC, .DAC_Init .CH2 .T2_TRGO, .DAC_Cmd .CH2 true,
       .DAC_DMACmd .CH2 true,
       .RCC_AHBPeriphClockCmd_DMA 1, .DMA_DeInit .DMA1_Channel2,
       .DMA_Init .DMA1_Channel2 .CH2, .DMA_Cmd .DMA1_Channel2 true,
       .DAC_SetChannel2Data 2048,
       .RCC_APB1PeriphClockCmd_TIM .TIM2, .TIM_DeInit .TIM2,
       .TIM_TimeBaseInit .TIM2 7199
         (SetupTIM_period (DAC_ChanController.Start_period holdEngine scanCV)),
       .TIM_SelectOutputTrigger .TIM2,
       .TIM_ITConfig .TIM2 true,
       .TIM_SetCounter .TIM2 0, .TIM_ClearITPendingBit .TIM2, .TIM_Cmd .TIM2 false,
       .TIM_SetCounter .TIM2 0, .TIM_ClearITPendingBit .TIM2, .NVIC_ClearPendingIRQ .TIM2,
       .TIM_Cmd .TIM2 true, .TIM_GenerateEvent .TIM2] := rfl
    rw [e, hp, SetupTIM_period_example]
  rw [htr]
  refine ⟨rfl, ?_, ?_, ?_, ?_, ?_⟩ <;> decide

/-- C9, amended: for every channel state the calls of `Start()` are, in order: the analog
pin configuration; the output-channel configuration, with the resolved timer trigger if
push and the software trigger if pull; the arming of the transfer engine if push and a
transfer channel is resolved; one write of the engine's current code at entry; one
software trigger if pull; and, if the mode is CV_SCAN or DPV_PULSE and a timer is bound,
the timer configuration (which enables the update interrupt and ends with the timer
disabled), the clearing of counter and pending event, the timer enable and one forced
update event as the last call.  The write is the only data-register write, and only the
pause flag, cleared, may differ afterwards. -/
theorem Start_sequence (eng : WaveEngine E) (s : DAC_ChanController E) :
    (s.Start eng).2 =
      [.RCC_APB2PeriphClockCmd_GPIOA,
       .GPIO_Init_AIN (match s.hw.dacChan with | .CH1 => 4 | .CH2 => 5)] ++
      [.RCC_APB1PeriphClockCmd_DAC,
       .DAC_Init s.hw.dacChan (if s.useDMA then s.hw.dacTrigger else .Software),
       .DAC_Cmd s.hw.dacChan true,
       .DAC_DMACmd s.hw.dacChan s.useDMA] ++
      (if s.useDMA then
        (s.hw.dmaChan.toList.flatMap fun d =>
          [.RCC_AHBPeriphClockCmd_DMA (if d.geDMA2_Channel1 then 2 else 1),
           .DMA_DeInit d, .DMA_Init d s.hw.dacChan, .DMA_Cmd d true])
       else []) ++
      [Op.dataWrite s.hw.dacChan (s.dataMgr.GetCurrentData eng)] ++
      (if s.useDMA then [] else [.DAC_SoftwareTriggerCmd s.hw.dacChan]) ++
      (if s.dataMgr.GetMode = .CV_SCAN ∨ s.dataMgr.GetMode = .DPV_PULSE then
        (s.hw.tim.toList.flatMap fun t =>
          (if t = .TIM2 ∨ t = .TIM3 ∨ t = .TIM4 then [.RCC_APB1PeriphClockCmd_TIM t]
           else []) ++
          [.TIM_DeInit t,
           .TIM_TimeBaseInit t 7199
             ((SetupTIM_ticks (DAC_ChanController.Start_period eng s)).map fun n => n - 1),
           .TIM_SelectOutputTrigger t,
           .TIM_ITConfig t true,
           .TIM_SetCounter t 0, .TIM_ClearITPendingBit t, .TIM_Cmd t false,
           .TIM_SetCounter t 0, .TIM_ClearITPendingBit t, .NVIC_ClearPendingIRQ t,
           .TIM_Cmd t true,
           .TIM_GenerateEvent t])
       else []) ∧
    (s.Start eng).2.filter Op.isDataWrite =
      [Op.dataWrite s.hw.dacChan (s.dataMgr.GetCurrentData eng)] ∧
    (s.Start eng).1 = { s with isPaused := false } ∧
    (s.Start eng).1.isPaused = false := by
  have hper : ∀ q : ℚ, SetupTIM_period q = (SetupTIM_ticks q).map fun n => n - 1 :=
    SetupTIM_period_eq
  obtain ⟨hw, dm, p, u⟩ := s
  obtain ⟨ch, tim, dma, trg, src⟩ := hw
  obtain ⟨mode, core⟩ := dm
  refine ⟨?_, ?_, rfl, rfl⟩
  · cases ch <;> cases u <;> cases dma <;> cases tim <;> cases mode <;>
      simp [DAC_ChanController.Start, DAC_ChanController.SetupGPIO,
        DAC_ChanController.SetupDAC, DAC_ChanController.SetupDMA,
        DAC_ChanController.SetupTIM, DAC_ChanController.Start_needTim,
        WaveDataManager.GetMode, Op.dataWrite, hper]
    all_goals (rename_i t; cases t <;> simp)
  · cases ch <;> cases u <;> cases dma <;> cases tim <;> cases mode <;>
      simp [DAC_ChanController.Start, DAC_ChanController.SetupGPIO,
        DAC_ChanController.SetupDAC, DAC_ChanController.SetupDMA,
        DAC_ChanController.SetupTIM, DAC_ChanController.Start_needTim,
        WaveDataManager.GetMode, Op.dataWrite, Op.isDataWrite, List.filter]

/-- C10: for every channel state, `Stop()` issues the timer disable (when a timer is
bound), then the output-channel disable, then the transfer-channel disable (when push
mode with a transfer channel), and nothing else; afterwards the bound timer and the
output channel are disabled; the controller state (binding, engine, delivery mode) is
unchanged, and an `InitAs*` followed by `Start()` gives the same state and the same
calls as on a fresh controller with the same binding and engine. -/
theorem chan_Stop_sequence (eng : WaveEngine E) (s : DAC_ChanController E) (h : Hardware)
    (v : CV_VoltParams) (c : CV_Params) (d : DPV_Params) (val : Nat) :
    s.Stop.2 =
      s.hw.tim.toList.map (fun t => Op.TIM_Cmd t false) ++
      [.DAC_Cmd s.hw.dacChan false] ++
      (if s.useDMA then s.hw.dmaChan.toList.map (fun x => Op.DMA_Cmd x false) else []) ∧
    (∀ t, s.hw.tim = some t → (hwRun h s.Stop.2).timEnabled t = false) ∧
    (hwRun h s.Stop.2).dacEnabled s.hw.dacChan = false ∧
    s.Stop.1 = s ∧
    ((s.Stop.1.InitAsCV eng v c).2 =
        (({ s with isPaused := false, useDMA := true } : DAC_ChanController E).InitAsCV
          eng v c).2 ∧
      (s.Stop.1.InitAsCV eng v c).1.Start eng =
        (({ s with isPaused := false, useDMA := true } : DAC_ChanController E).InitAsCV
          eng v c).1.Start eng) ∧
    ((s.Stop.1.InitAsDPV eng d).2 =
        (({ s with isPaused := false, useDMA := true } : DAC_ChanController E).InitAsDPV
          eng d).2 ∧
      (s.Stop.1.InitAsDPV eng d).1.Start eng =
        (({ s with isPaused := false, useDMA := true } : DAC_ChanController E).InitAsDPV
          eng d).1.Start eng) ∧
    ((s.Stop.1.InitAsConstant eng val).2 =
        (({ s with isPaused := false, useDMA := true } : DAC_ChanController E).InitAsConstant
          eng val).2 ∧
      (s.Stop.1.InitAsConstant eng val).1.Start eng =
        (({ s with isPaused := false, useDMA := true } : DAC_ChanController E).InitAsConstant
          eng val).1.Start eng) := by
  refine ⟨?_, ?_, ?_, rfl, ⟨rfl, rfl⟩, ⟨rfl, rfl⟩, ⟨rfl, rfl⟩⟩
  · obtain ⟨hw, dm, p, u⟩ := s
    obtain ⟨ch, tim, dma, trg, src⟩ := hw
    cases u <;> cases dma <;> cases tim <;> simp [DAC_ChanController.Stop]
  · intro t ht
    exact chan_Stop_timer_off s t ht h
  · obtain ⟨hw, dm, p, u⟩ := s
    obtain ⟨ch, tim, dma, trg, src⟩ := hw
    cases u <;> cases dma <;> cases tim <;>
      simp [DAC_ChanController.Stop, hwRun, hwStep]

/-- Witness for C10 on the CV channel bound to TIM2, with the timer running. -/
theorem chan_Stop_sequence_witness :
    scanCV.hw.tim = some .TIM2 ∧
    (hwRun Hardware.reset (scanCV.Start holdEngine).2).timEnabled .TIM2 = true ∧
    (hwRun (hwRun Hardware.reset (scanCV.Start holdEngine).2) scanCV.Stop.2).timEnabled .TIM2
      = false ∧
    scanCV.Stop.2 =
      [.TIM_Cmd .TIM2 false, .DAC_Cmd .CH2 false, .DMA_Cmd .DMA1_Channel2 false] :=
  ⟨rfl, rfl,
   (chan_Stop_sequence holdEngine scanCV (hwRun Hardware.reset (scanCV.Start holdEngine).2)
      kDefaultCVVolt kDefaultCVParams exampleDPV 2048).2.1 .TIM2 rfl,
   rfl⟩

/-- C11: for every channel state `TIM_IRQHandler()` calls the engine's `UpdateNextStep()`
exactly once, first; it then writes the output if and only if the channel is in pull mode
and the step reported a change, and the write is the engine's new current code to the
data register of the channel's own output followed by one software trigger; in push
mode, or when the step reported no change, no output operation is issued at all.  Only
the engine state changes. -/
theorem TIM_IRQHandler_sequence (eng : WaveEngine E) (s : DAC_ChanController E) :
    (s.TIM_IRQHandler eng).2 =
      [.Engine s.hw.dacChan .UpdateNextStep] ++
      (if s.useDMA = false ∧ (s.dataMgr.UpdateNextStep eng).2 = true then
        [Op.dataWrite s.hw.dacChan ((s.dataMgr.UpdateNextStep eng).1.GetCurrentData eng),
         .DAC_SoftwareTriggerCmd s.hw.dacChan]
       else []) ∧
    (s.TIM_IRQHandler eng).2.count (.Engine s.hw.dacChan .UpdateNextStep) = 1 ∧
    ((∃ op ∈ (s.TIM_IRQHandler eng).2, op.isOutputOp = true) ↔
      (s.useDMA = false ∧ (s.dataMgr.UpdateNextStep eng).2 = true)) ∧
    (s.TIM_IRQHandler eng).2.filter Op.isOutputOp =
      (if s.useDMA = false ∧ (s.dataMgr.UpdateNextStep eng).2 = true then
        [Op.dataWrite s.hw.dacChan ((s.dataMgr.UpdateNextStep eng).1.GetCurrentData eng),
         .DAC_SoftwareTriggerCmd s.hw.dacChan]
       else []) ∧
    (s.TIM_IRQHandler eng).1 = { s with dataMgr := (s.dataMgr.UpdateNextStep eng).1 } := by
  obtain ⟨hw, dm, p, u⟩ := s
  obtain ⟨ch, tim, dma, trg, src⟩ := hw
  refine ⟨?_, ?_, ?_, ?_, rfl⟩
  · cases ch <;> cases u <;> cases hc : (WaveDataManager.UpdateNextStep eng dm).2 <;>
      simp [DAC_ChanController.TIM_IRQHandler, Op.dataWrite, hc]
  · cases ch <;> cases u <;> cases hc : (WaveDataManager.UpdateNextStep eng dm).2 <;>
      simp [DAC_ChanController.TIM_IRQHandler, hc]
  · cases ch <;> cases u <;> cases hc : (WaveDataManager.UpdateNextStep eng dm).2 <;>
      simp [DAC_ChanController.TIM_IRQHandler, Op.isOutputOp, hc]
  · cases ch <;> cases u <;> cases hc : (WaveDataManager.UpdateNextStep eng dm).2 <;>
      simp [DAC_ChanController.TIM_IRQHandler, Op.isOutputOp, Op.dataWrite, List.filter, hc]

/-- Witness for C11: a pull-mode channel whose step changes the code from 7 to 8 writes
8 to its own data register and triggers once; the same channel in push mode issues only
the engine step. -/
theorem TIM_IRQHandler_sequence_witness :
    (scanDPV.TIM_IRQHandler countEngine).2 =
      [.Engine .CH2 .UpdateNextStep, .DAC_SetChannel2Data 8, .DAC_SoftwareTriggerCmd .CH2] ∧
    (({ scanDPV with useDMA := true } : DAC_ChanController Nat).TIM_IRQHandler countEngine).2 =
      [.Engine .CH2 .UpdateNextStep] ∧
    (∃ op ∈ (scanDPV.TIM_IRQHandler countEngine).2, op.isOutputOp = true) :=
  ⟨rfl, rfl,
   (TIM_IRQHandler_sequence countEngine scanDPV).2.2.1.2 ⟨rfl, rfl⟩⟩

/-! ### Hardware resolution -/

/-- C12: `ResolveHardware` is total and never fails.  The output channel and the timer
identity are copied from the request; with no timer, and with any timer that has no row
in the tables, the trigger is Software and there is no transfer channel; for a timer
with a row it yields that row's trigger and transfer channel; TIM2 gives the TIM2
trigger output and DMA1 channel 2. -/
theorem ResolveHardware_total (ch : DAC_Channel) :
    (∀ cfg : HW_Config,
      (DAC_ChanController.ResolveHardware cfg).dacChan = cfg.dacChan ∧
      (DAC_ChanController.ResolveHardware cfg).tim = cfg.tim) ∧
    ((DAC_ChanController.ResolveHardware ⟨ch, none⟩).dacTrigger = .Software ∧
      (DAC_ChanController.ResolveHardware ⟨ch, none⟩).dmaChan = none) ∧
    (∀ t : TIM_TypeDef, (∀ m ∈ timDacMap, m.TIMx ≠ t) →
      (DAC_ChanController.ResolveHardware ⟨ch, some t⟩).dacTrigger = .Software) ∧
    (∀ t : TIM_TypeDef, (∀ m ∈ timDmaMap, m.TIMx ≠ t) →
      (DAC_ChanController.ResolveHardware ⟨ch, some t⟩).dmaChan = none) ∧
    (∀ m ∈ timDacMap,
      (DAC_ChanController.ResolveHardware ⟨ch, some m.TIMx⟩).dacTrigger = m.trigger) ∧
    (∀ m ∈ timDmaMap,
      (DAC_ChanController.ResolveHardware ⟨ch, some m.TIMx⟩).dmaChan = some m.DMA_Channel) ∧
    ((DAC_ChanController.ResolveHardware ⟨ch, some .TIM2⟩).dacTrigger = .T2_TRGO ∧
      (DAC_ChanController.ResolveHardware ⟨ch, some .TIM2⟩).dmaChan = some .DMA1_Channel2) := by
  refine ⟨?_, ⟨rfl, rfl⟩, ?_, ?_, ?_, ?_, ⟨rfl, rfl⟩⟩
  · intro cfg
    obtain ⟨c, t⟩ := cfg
    cases t <;> exact ⟨rfl, rfl⟩
  · intro t ht
    cases t <;> first | rfl | (exfalso; simp [timDacMap] at ht)
  · intro t ht
    cases t <;> first | rfl | (exfalso; simp [timDmaMap] at ht)
  · intro m hm
    simp only [timDacMap, List.mem_cons, List.mem_singleton, List.not_mem_nil, or_false] at hm
    rcases hm with h | h | h | h | h | h <;> subst h <;> rfl
  · intro m hm
    simp only [timDmaMap, List.mem_cons, List.mem_singleton, List.not_mem_nil, or_false] at hm
    rcases hm with h | h | h | h | h | h <;> subst h <;> rfl

/-- Witness for C12: TIM1 and TIM8 have no row in either table and fall back to the
software trigger with no transfer channel; TIM4 has rows and gets them. -/
theorem ResolveHardware_total_witness :
    (∀ m ∈ timDacMap, m.TIMx ≠ .TIM1) ∧ (∀ m ∈ timDmaMap, m.TIMx ≠ .TIM8) ∧
    (DAC_ChanController.ResolveHardware ⟨.CH1, some .TIM1⟩).dacTrigger = .Software ∧
    (DAC_ChanController.ResolveHardware ⟨.CH1, some .TIM8⟩).dmaChan = none ∧
    (⟨.TIM4, .T4_TRGO⟩ : TIM_DAC_Mapping) ∈ timDacMap ∧
    (DAC_ChanController.ResolveHardware ⟨.CH1, some .TIM4⟩).dacTrigger = .T4_TRGO ∧
    (⟨.TIM4, TIM_DMA_Update, .DMA1_Channel7⟩ : TIM_DMA_Mapping) ∈ timDmaMap ∧
    (DAC_ChanController.ResolveHardware ⟨.CH1, some .TIM4⟩).dmaChan = some .DMA1_Channel7 := by
  have h1 : ∀ m ∈ timDacMap, m.TIMx ≠ TIM_TypeDef.TIM1 := by simp [timDacMap]
  have h8 : ∀ m ∈ timDmaMap, m.TIMx ≠ TIM_TypeDef.TIM8 := by simp [timDmaMap]
  have hdac : (⟨.TIM4, .T4_TRGO⟩ : TIM_DAC_Mapping) ∈ timDacMap := by simp [timDacMap]
  have hdma : (⟨.TIM4, TIM_DMA_Update, .DMA1_Channel7⟩ : TIM_DMA_Mapping) ∈ timDmaMap := by
    simp [timDmaMap]
  have h := ResolveHardware_total .CH1
  exact ⟨h1, h8, h.2.2.1 _ h1, h.2.2.2.1 _ h8, hdac, h.2.2.2.2.1 _ hdac, hdma,
    h.2.2.2.2.2.1 _ hdma⟩

end Channel

/-! ### Orchestrator start -/

section OrchestratorStart

variable {E : Type}

/-- C13: with a periodic cached mode (CV or DPV) the calls of `SystemController::Start()`
are, in order: start of the sampling subsystem; initialisation of the Scan channel from
the cached mode and parameters; initialisation of the Bias channel as constant with the
cached bias code; registration of the timer-tick handler (and clearing of its pending
request); `Start()` of the Scan channel, then of the Bias channel; one extra forced
update event.  Nothing before the registration is a timer operation, so the registration
precedes every timer enable; on return the tick counter is 0 and the run-state is
Running. -/
theorem Start_order (eng : WaveEngine E) (g : Device E)
    (hp : g.ctl.currentMode = .CV ∨ g.ctl.currentMode = .DPV) :
    (g.Start eng).2 =
      [.ADC_StartConversion] ++
      (Device.Start_initScan eng g).2 ++
      (g.Chan_Constant.InitAsConstant eng g.ctl.cachedBiasConstantVal).2 ++
      [.TIM_IRQnManage_Add .TIM2, .NVIC_ClearPendingIRQ .TIM2] ++
      ((Device.Start_initScan eng g).1.Start eng).2 ++
      ((g.Chan_Constant.InitAsConstant eng g.ctl.cachedBiasConstantVal).1.Start eng).2 ++
      [.TIM_GenerateEvent .TIM2] ∧
    (g.ctl.currentMode = .CV → Device.Start_initScan eng g =
      g.Chan_Scan.InitAsCV eng g.ctl.cachedCV_Volt g.ctl.cachedCV_Params) ∧
    (g.ctl.currentMode = .DPV → Device.Start_initScan eng g =
      g.Chan_Scan.InitAsDPV eng g.ctl.cachedDPV_Params) ∧
    (∀ op ∈ [Op.ADC_StartConversion] ++ (Device.Start_initScan eng g).2 ++
        (g.Chan_Constant.InitAsConstant eng g.ctl.cachedBiasConstantVal).2,
      op.isTimerOp = false ∧ ∀ t, op ≠ .TIM_Cmd t true) ∧
    (g.Start eng).1.Chan_Scan = ((Device.Start_initScan eng g).1.Start eng).1 ∧
    (g.Start eng).1.Chan_Constant =
      ((g.Chan_Constant.InitAsConstant eng g.ctl.cachedBiasConstantVal).1.Start eng).1 ∧
    (g.Start eng).1.ctl.GetTickCount = 0 ∧
    (g.Start eng).1.ctl.runState = .Running := by
  have hper : Device.periodic g = true := by
    rcases hp with h | h <;> simp [Device.periodic, h]
  refine ⟨?_, ?_, ?_, ?_, rfl, rfl, rfl, ?_⟩
  · simp [Device.Start, hper]
  · intro h
    simp [Device.Start_initScan, h]
  · intro h
    simp [Device.Start_initScan, h]
  · intro op hop
    rcases hp with h | h <;>
      simp [Device.Start_initScan, h, DAC_ChanController.InitAsCV,
        DAC_ChanController.InitAsDPV, DAC_ChanController.InitAsConstant] at hop <;>
      rcases hop with h1 | h1 | h1 | h1 | h1 <;> subst h1 <;> simp [Op.isTimerOp]
  · simp [Device.Start, SystemController.ClearTick, SystemController.runState]

/-- Witness for C13 on the power-on device (cached mode CV): the handler registration is
at position 5 of the trace and the only timer enable at position 29. -/
theorem Start_order_witness :
    powerOn.dev.ctl.currentMode = .CV ∧
    (powerOn.dev.Start holdEngine).1.ctl.runState = .Running ∧
    (powerOn.dev.Start holdEngine).2.indexOf (.TIM_IRQnManage_Add .TIM2) = 5 ∧
    (powerOn.dev.Start holdEngine).2.indexOf (.TIM_Cmd .TIM2 true) = 29 ∧
    (powerOn.dev.Start holdEngine).2.length = 40 :=
  ⟨rfl, (Start_order holdEngine powerOn.dev (Or.inl rfl)).2.2.2.2.2.2.2, by decide,
   by decide, rfl⟩

theorem chan_Start_congr (eng : WaveEngine E) (s1 s2 : DAC_ChanController E)
    (hhw : s1.hw = s2.hw) (hu : s1.useDMA = s2.useDMA)
    (hm : s1.dataMgr.GetMode = s2.dataMgr.GetMode)
    (hc : s1.dataMgr.GetCurrentData eng = s2.dataMgr.GetCurrentData eng)
    (hd : DAC_ChanController.Start_period eng s1 = DAC_ChanController.Start_period eng s2) :
    (s1.Start eng).2 = (s2.Start eng).2 := by
  obtain ⟨hw1, dm1, p1, u1⟩ := s1
  obtain ⟨hw2, dm2, p2, u2⟩ := s2
  simp only at hhw hu hm hc
  subst hhw hu
  simp only [DAC_ChanController.Start, DAC_ChanController.SetupGPIO,
    DAC_ChanController.SetupDAC, DAC_ChanController.SetupDMA,
    DAC_ChanController.SetupTIM, DAC_ChanController.Start_needTim, hm, hc, hd]

/-- C14: no residual state survives a stop/start cycle.  Provided the code and the CV
step duration that the engine reports after a `Setup*` depend only on the arguments of
that `Setup*`, the orchestrator's `Start(); Stop(); Start()` agrees with a single
`Start()` from the same state in the orchestrator record (run flags, tick counter, mode,
cached configuration), in each channel's binding, delivery mode, engine mode and pause
flag, in the code written first to each output, in the programmed tick count, and in the
whole sequence of calls issued by the last `Start()`. -/
theorem restart_agrees (eng : WaveEngine E) (g : Device E)
    (hcv : ∀ v c e e',
      eng.GetCurrentData .CV_SCAN (eng.SetupCV v c e) =
        eng.GetCurrentData .CV_SCAN (eng.SetupCV v c e') ∧
      eng.GetCV_duration (eng.SetupCV v c e) = eng.GetCV_duration (eng.SetupCV v c e'))
    (hdpv : ∀ d e e',
      eng.GetCurrentData .DPV_PULSE (eng.SetupDPV d e) =
        eng.GetCurrentData .DPV_PULSE (eng.SetupDPV d e'))
    (hconst : ∀ v e e',
      eng.GetCurrentData .CONSTANT (eng.SetupConstant v e) =
        eng.GetCurrentData .CONSTANT (eng.SetupConstant v e')) :
    ((g.Start eng).1.Stop.1.Start eng).1.ctl = (g.Start eng).1.ctl ∧
    (((g.Start eng).1.Stop.1.Start eng).1.Chan_Scan.hw = (g.Start eng).1.Chan_Scan.hw ∧
      ((g.Start eng).1.Stop.1.Start eng).1.Chan_Scan.useDMA = (g.Start eng).1.Chan_Scan.useDMA ∧
      ((g.Start eng).1.Stop.1.Start eng).1.Chan_Scan.isPaused =
        (g.Start eng).1.Chan_Scan.isPaused ∧
      ((g.Start eng).1.Stop.1.Start eng).1.Chan_Scan.dataMgr.GetMode =
        (g.Start eng).1.Chan_Scan.dataMgr.GetMode) ∧
    (((g.Start eng).1.Stop.1.Start eng).1.Chan_Constant.hw = (g.Start eng).1.Chan_Constant.hw ∧
      ((g.Start eng).1.Stop.1.Start eng).1.Chan_Constant.useDMA =
        (g.Start eng).1.Chan_Constant.useDMA ∧
      ((g.Start eng).1.Stop.1.Start eng).1.Chan_Constant.isPaused =
        (g.Start eng).1.Chan_Constant.isPaused ∧
      ((g.Start eng).1.Stop.1.Start eng).1.Chan_Constant.dataMgr.GetMode =
        (g.Start eng).1.Chan_Constant.dataMgr.GetMode) ∧
    ((Device.Start_initScan eng (g.Start eng).1.Stop.1).1.dataMgr.GetCurrentData eng =
        (Device.Start_initScan eng g).1.dataMgr.GetCurrentData eng ∧
      ((g.Start eng).1.Stop.1.Chan_Constant.InitAsConstant eng
          g.ctl.cachedBiasConstantVal).1.dataMgr.GetCurrentData eng =
        (g.Chan_Constant.InitAsConstant eng
          g.ctl.cachedBiasConstantVal).1.dataMgr.GetCurrentData eng) ∧
    SetupTIM_ticks (DAC_ChanController.Start_period eng
        (Device.Start_initScan eng (g.Start eng).1.Stop.1).1) =
      SetupTIM_ticks (DAC_ChanController.Start_period eng (Device.Start_initScan eng g).1) ∧
    ((g.Start eng).1.Stop.1.Start eng).2 = (g.Start eng).2 := by
  obtain ⟨ctl, scan, bias⟩ := g
  obtain ⟨mode, run, paused, ticks, cvv, cvp, dpv, sc, bc⟩ := ctl
  have hbc : (((((bias.InitAsConstant eng bc).1.Start eng).1.Stop.1).InitAsConstant eng
      bc).1.dataMgr.GetCurrentData eng) =
      (bias.InitAsConstant eng bc).1.dataMgr.GetCurrentData eng := by
    simp only [DAC_ChanController.InitAsConstant, DAC_ChanController.Start,
      DAC_ChanController.Stop, WaveDataManager.GetCurrentData,
      WaveDataManager.SwitchMode, WaveDataManager.SetupConstant]
    rw [hconst _ _ bias.dataMgr.core]
  have hb : ((((bias.InitAsConstant eng bc).1.Start eng).1.Stop.1.InitAsConstant eng
      bc).1.Start eng).2 = ((bias.InitAsConstant eng bc).1.Start eng).2 :=
    chan_Start_congr eng _ _ rfl rfl rfl hbc rfl
  cases mode
  · -- CV
    have hc : (((((scan.InitAsCV eng cvv cvp).1.Start eng).1.Stop.1).InitAsCV eng cvv
        cvp).1.dataMgr.GetCurrentData eng) =
        (scan.InitAsCV eng cvv cvp).1.dataMgr.GetCurrentData eng := by
      simp only [DAC_ChanController.InitAsCV, DAC_ChanController.Start,
        DAC_ChanController.Stop, WaveDataManager.GetCurrentData,
        WaveDataManager.SwitchMode, WaveDataManager.SetupCV]
      rw [(hcv _ _ _ scan.dataMgr.core).1]
    have hd : DAC_ChanController.Start_period eng
        ((((scan.InitAsCV eng cvv cvp).1.Start eng).1.Stop.1).InitAsCV eng cvv cvp).1 =
        DAC_ChanController.Start_period eng (scan.InitAsCV eng cvv cvp).1 := by
      simp only [DAC_ChanController.Start_period, DAC_ChanController.InitAsCV,
        DAC_ChanController.Start, DAC_ChanController.Stop, WaveDataManager.GetCV_duration,
        WaveDataManager.SwitchMode, WaveDataManager.SetupCV, WaveDataManager.GetMode]
      rw [(hcv _ _ _ scan.dataMgr.core).2]
    have hs : ((((scan.InitAsCV eng cvv cvp).1.Start eng).1.Stop.1.InitAsCV eng cvv
        cvp).1.Start eng).2 = ((scan.InitAsCV eng cvv cvp).1.Start eng).2 :=
      chan_Start_congr eng _ _ rfl rfl rfl hc hd
    refine ⟨rfl, ⟨rfl, rfl, rfl, rfl⟩, ⟨rfl, rfl, rfl, rfl⟩, ⟨hc, hbc⟩, ?_, ?_⟩
    · exact congrArg SetupTIM_ticks hd
    · show [Op.ADC_StartConversion] ++ _ ++ _ ++ _ ++ _ ++ _ ++ _ =
        [Op.ADC_StartConversion] ++ _ ++ _ ++ _ ++ _ ++ _ ++ _
      exact congrArg₂ (· ++ ·) (congrArg₂ (· ++ ·) (congrArg₂ (· ++ ·) rfl hs) hb) rfl
  · -- DPV
    have hc : (((((scan.InitAsDPV eng dpv).1.Start eng).1.Stop.1).InitAsDPV eng
        dpv).1.dataMgr.GetCurrentData eng) =
        (scan.InitAsDPV eng dpv).1.dataMgr.GetCurrentData eng := by
      simp only [DAC_ChanController.InitAsDPV, DAC_ChanController.Start,
        DAC_ChanController.Stop, WaveDataManager.GetCurrentData,
        WaveDataManager.SwitchMode, WaveDataManager.SetupDPV]
      rw [hdpv _ _ scan.dataMgr.core]
    have hd : DAC_ChanController.Start_period eng
        ((((scan.InitAsDPV eng dpv).1.Start eng).1.Stop.1).InitAsDPV eng dpv).1 =
        DAC_ChanController.Start_period eng (scan.InitAsDPV eng dpv).1 := by
      simp [DAC_ChanController.Start_period, DAC_ChanController.InitAsDPV,
        WaveDataManager.SwitchMode, WaveDataManager.GetMode]
    have hs : ((((scan.InitAsDPV eng dpv).1.Start eng).1.Stop.1.InitAsDPV eng
        dpv).1.Start eng).2 = ((scan.InitAsDPV eng dpv).1.Start eng).2 :=
      chan_Start_congr eng _ _ rfl rfl rfl hc hd
    refine ⟨rfl, ⟨rfl, rfl, rfl, rfl⟩, ⟨rfl, rfl, rfl, rfl⟩, ⟨hc, hbc⟩, ?_, ?_⟩
    · exact congrArg SetupTIM_ticks hd
    · show [Op.ADC_StartConversion] ++ _ ++ _ ++ _ ++ _ ++ _ ++ _ =
        [Op.ADC_StartConversion] ++ _ ++ _ ++ _ ++ _ ++ _ ++ _
      exact congrArg₂ (· ++ ·) (congrArg₂ (· ++ ·) (congrArg₂ (· ++ ·) rfl hs) hb) rfl
  · -- IT
    have hc : (((((scan.InitAsConstant eng sc).1.Start eng).1.Stop.1).InitAsConstant eng
        sc).1.dataMgr.GetCurrentData eng) =
        (scan.InitAsConstant eng sc).1.dataMgr.GetCurrentData eng := by
      simp only [DAC_ChanController.InitAsConstant, DAC_ChanController.Start,
        DAC_ChanController.Stop, WaveDataManager.GetCurrentData,
        WaveDataManager.SwitchMode, WaveDataManager.SetupConstant]
      rw [hconst _ _ scan.dataMgr.core]
    have hd : DAC_ChanController.Start_period eng
        ((((scan.InitAsConstant eng sc).1.Start eng).1.Stop.1).InitAsConstant eng sc).1 =
        DAC_ChanController.Start_period eng (scan.InitAsConstant eng sc).1 := by
      simp [DAC_ChanController.Start_period, DAC_ChanController.InitAsConstant,
        WaveDataManager.SwitchMode, WaveDataManager.GetMode]
    have hs : ((((scan.InitAsConstant eng sc).1.Start eng).1.Stop.1.InitAsConstant eng
        sc).1.Start eng).2 = ((scan.InitAsConstant eng sc).1.Start eng).2 :=
      chan_Start_congr eng _ _ rfl rfl rfl hc hd
    refine ⟨rfl, ⟨rfl, rfl, rfl, rfl⟩, ⟨rfl, rfl, rfl, rfl⟩, ⟨hc, hbc⟩, ?_, ?_⟩
    · exact congrArg SetupTIM_ticks hd
    · show [Op.ADC_StartConversion] ++ _ ++ _ ++ _ ++ _ ++ _ ++ _ =
        [Op.ADC_StartConversion] ++ _ ++ _ ++ _ ++ _ ++ _ ++ _
      exact congrArg₂ (· ++ ·) (congrArg₂ (· ++ ·) (congrArg₂ (· ++ ·) rfl hs) hb) rfl

/-- Witness for C14: the minimal engine reports, after each `Setup*`, a code and a step
duration fixed by the arguments; restarting the power-on device, whose Scan engine was
left in another state, issues the same 40 calls as the first start. -/
theorem restart_agrees_witness :
    (∀ v c e e',
      holdEngine.GetCurrentData .CV_SCAN (holdEngine.SetupCV v c e) =
        holdEngine.GetCurrentData .CV_SCAN (holdEngine.SetupCV v c e') ∧
      holdEngine.GetCV_duration (holdEngine.SetupCV v c e) =
        holdEngine.GetCV_duration (holdEngine.SetupCV v c e')) ∧
    ((powerOn.dev.Start holdEngine).1.Stop.1.Start holdEngine).2 =
      (powerOn.dev.Start holdEngine).2 ∧
    ((powerOn.dev.Start holdEngine).1.Stop.1.Start holdEngine).1.ctl =
      (powerOn.dev.Start holdEngine).1.ctl :=
  have h := restart_agrees holdEngine powerOn.dev (fun _ _ _ _ => ⟨rfl, rfl⟩)
    (fun _ _ _ => rfl) (fun _ _ _ => rfl)
  ⟨fun _ _ _ _ => ⟨rfl, rfl⟩, h.2.2.2.2.2, h.1⟩

end OrchestratorStart

/-! ### Constant channel -/

section ConstantChannel

variable {E : Type}

theorem hwStep_timEnabled_of_not_timerOp (h : Hardware) (op : Op)
    (hop : op.isTimerOp = false) : (hwStep h op).timEnabled = h.timEnabled := by
  cases op <;> simp [Op.isTimerOp] at hop <;> rfl

theorem hwRun_timEnabled_of_not_timerOp (ops : List Op)
    (hops : ∀ op ∈ ops, op.isTimerOp = false) (h : Hardware) :
    (hwRun h ops).timEnabled = h.timEnabled := by
  induction ops generalizing h with
  | nil => rfl
  | cons op rest ih =>
    have h1 := hwStep_timEnabled_of_not_timerOp h op (hops op (List.mem_cons_self _ _))
    have h2 := ih (fun o ho => hops o (List.mem_cons_of_mem _ ho)) (hwStep h op)
    show (hwRun (hwStep h op) rest).timEnabled = h.timEnabled
    rw [h2, h1]

theorem TIM_IRQHandler_constant (eng : WaveEngine E)
    (hstep : ∀ e, eng.UpdateNextStep .CONSTANT e = (e, false))
    (s : DAC_ChanController E) (hm : s.dataMgr.GetMode = .CONSTANT) :
    s.TIM_IRQHandler eng = (s, [.Engine s.hw.dacChan .UpdateNextStep]) := by
  obtain ⟨hw, dm, p, u⟩ := s
  obtain ⟨mode, core⟩ := dm
  simp only [WaveDataManager.GetMode] at hm
  subst hm
  simp [DAC_ChanController.TIM_IRQHandler, WaveDataManager.UpdateNextStep, hstep]

theorem TIM_IRQHandler_times_constant (eng : WaveEngine E)
    (hstep : ∀ e, eng.UpdateNextStep .CONSTANT e = (e, false)) (n : Nat)
    (s : DAC_ChanController E) (hm : s.dataMgr.GetMode = .CONSTANT) :
    s.TIM_IRQHandler_times eng n =
      (s, List.replicate n (.Engine s.hw.dacChan .UpdateNextStep)) := by
  induction n with
  | zero => rfl
  | succ k ih =>
    simp only [DAC_ChanController.TIM_IRQHandler_times,
      TIM_IRQHandler_constant eng hstep s hm, ih, List.replicate_succ, List.singleton_append]

/-- C15: a constant channel holds its code.  For every 16-bit code `v` and every channel,
bound to a timer or not, given that `SetupConstant(v)` fixes the engine's code at `v`
and that `UpdateNextStep` in CONSTANT mode is a no-op returning false: after
`InitAsConstant(v)` and `Start()` the one value written to the output is `v`, no timer
operation is issued and no timer enable bit changes, `GetCurrentData()` is `v`, and any
number of `TIM_IRQHandler()` invocations issues no output operation and leaves the state,
hence `GetCurrentData() = v`, as it was. -/
theorem constant_channel_holds (eng : WaveEngine E) (s : DAC_ChanController E) (v : Nat)
    (hv : v < 2 ^ 16)
    (hset : ∀ e, eng.GetCurrentData .CONSTANT (eng.SetupConstant v e) = v)
    (hstep : ∀ e, eng.UpdateNextStep .CONSTANT e = (e, false))
    (n : Nat) (h : Hardware) :
    ((s.InitAsConstant eng v).1.Start eng).2.filter Op.isDataWrite =
      [Op.dataWrite s.hw.dacChan v] ∧
    (∀ op ∈ ((s.InitAsConstant eng v).1.Start eng).2, op.isTimerOp = false) ∧
    (hwRun h ((s.InitAsConstant eng v).1.Start eng).2).timEnabled = h.timEnabled ∧
    ((s.InitAsConstant eng v).1.Start eng).1.dataMgr.GetCurrentData eng = v ∧
    (∀ op ∈ (((s.InitAsConstant eng v).1.Start eng).1.TIM_IRQHandler_times eng n).2,
      op.isOutputOp = false) ∧
    (((s.InitAsConstant eng v).1.Start eng).1.TIM_IRQHandler_times eng n).1 =
      ((s.InitAsConstant eng v).1.Start eng).1 ∧
    (((s.InitAsConstant eng v).1.Start eng).1.TIM_IRQHandler_times eng
      n).1.dataMgr.GetCurrentData eng = v := by
  have hcode : (s.InitAsConstant eng v).1.dataMgr.GetCurrentData eng = v := by
    simp only [DAC_ChanController.InitAsConstant, WaveDataManager.GetCurrentData,
      WaveDataManager.SwitchMode, WaveDataManager.SetupConstant, hset]
    exact Nat.mod_eq_of_lt hv
  have hmode : ((s.InitAsConstant eng v).1.Start eng).1.dataMgr.GetMode = .CONSTANT := rfl
  have hnotim : ∀ op ∈ ((s.InitAsConstant eng v).1.Start eng).2, op.isTimerOp = false := by
    intro op hop
    obtain ⟨hw, dm, p, u⟩ := s
    obtain ⟨ch, tim, dma, trg, src⟩ := hw
    cases ch <;> cases tim <;>
      simp [DAC_ChanController.Start, DAC_ChanController.InitAsConstant,
        DAC_ChanController.SetupGPIO, DAC_ChanController.SetupDAC,
        DAC_ChanController.SetupDMA, DAC_ChanController.Start_needTim,
        WaveDataManager.GetMode, WaveDataManager.SwitchMode] at hop <;>
      rcases hop with h1 | h1 | h1 | h1 | h1 | h1 | h1 | h1 <;> subst h1 <;> rfl
  have htimes := TIM_IRQHandler_times_constant eng hstep n _ hmode
  refine ⟨?_, hnotim, hwRun_timEnabled_of_not_timerOp _ hnotim h, hcode, ?_, ?_, ?_⟩
  · have hw : ((s.InitAsConstant eng v).1.Start eng).2.filter Op.isDataWrite =
        [Op.dataWrite s.hw.dacChan ((s.InitAsConstant eng v).1.dataMgr.GetCurrentData eng)] := by
      obtain ⟨hw, dm, p, u⟩ := s
      obtain ⟨ch, tim, dma, trg, src⟩ := hw
      cases ch <;> cases tim <;>
        simp [DAC_ChanController.Start, DAC_ChanController.InitAsConstant,
          DAC_ChanController.SetupGPIO, DAC_ChanController.SetupDAC,
          DAC_ChanController.SetupDMA, DAC_ChanController.Start_needTim,
          WaveDataManager.GetMode, WaveDataManager.SwitchMode, Op.dataWrite,
          Op.isDataWrite, List.filter]
    rw [hw, hcode]
  · intro op hop
    rw [htimes] at hop
    rw [List.eq_of_mem_replicate hop]
    rfl
  · rw [htimes]
  · rw [htimes]
    exact hcode

/-- Witness for C15 at `v = 2048`, on the Scan channel (bound to TIM2) of the power-on
device and three ticks. -/
theorem constant_channel_holds_witness :
    (2048 : Nat) < 2 ^ 16 ∧
    ((powerOn.dev.Chan_Scan.InitAsConstant holdEngine 2048).1.Start holdEngine).2.filter
      Op.isDataWrite = [.DAC_SetChannel2Data 2048] ∧
    (((powerOn.dev.Chan_Scan.InitAsConstant holdEngine 2048).1.Start
      holdEngine).1.TIM_IRQHandler_times holdEngine 3).1.dataMgr.GetCurrentData holdEngine
      = 2048 :=
  have h := constant_channel_holds holdEngine powerOn.dev.Chan_Scan 2048 (by norm_num)
    (fun _ => rfl) (fun _ => rfl) 3 Hardware.reset
  ⟨by norm_num, h.1, h.2.2.2.2.2.2⟩

end ConstantChannel

/-! ### Voltage to code -/

theorem VoltToCode12_clamp_arg (v vref : ℚ) (hr : 0 < vref) :
    (if (if v < 0 then 0 else v) > vref then vref else (if v < 0 then 0 else v)) =
      min (max v 0) vref := by
  by_cases h0 : v < 0
  · have h1 : ¬ (0 : ℚ) > vref := not_lt.mpr hr.le
    rw [if_pos h0, if_neg h1, max_eq_right h0.le, min_eq_left hr.le]
  · rw [if_neg h0, max_eq_left (not_lt.mp h0)]
    by_cases h1 : v > vref
    · rw [if_pos h1, min_eq_right h1.le]
    · rw [if_neg h1, min_eq_left (not_lt.mp h1)]

theorem rnd32_4095 : rnd32 4095 = 4095 := by
  rw [rnd32_eq_pos 4095 (-12) 16773120 (by norm_num) (by norm_num) (by norm_num)
    (by norm_num) (by norm_num)]
  norm_num

theorem rnd32_8191_half : rnd32 (8191 / 2) = 8191 / 2 := by
  rw [rnd32_eq_pos (8191 / 2) (-12) 16775168 (by norm_num) (by norm_num) (by norm_num)
    (by norm_num) (by norm_num)]
  norm_num

/-- The three intermediate `float`s of `VoltToCode12` stay in `[0, 1]`, `[0, 4095]` and
`[1/2, 4095.5]`. -/
theorem voltCodeValue_bounds (v vref : ℚ) (hr : 0 < vref) :
    (0 ≤ rnd32 (min (max v 0) vref / vref) ∧ rnd32 (min (max v 0) vref / vref) ≤ 1) ∧
    (0 ≤ rnd32 (rnd32 (min (max v 0) vref / vref) * 4095) ∧
      rnd32 (rnd32 (min (max v 0) vref / vref) * 4095) ≤ 4095) ∧
    (1 / 2 ≤ voltCodeValue v vref ∧ voltCodeValue v vref ≤ 8191 / 2) := by
  have hx0 : 0 ≤ min (max v 0) vref / vref :=
    div_nonneg (le_min (le_max_right _ _) hr.le) hr.le
  have hx1 : min (max v 0) vref / vref ≤ 1 := by
    rw [div_le_one hr]
    exact min_le_right _ _
  have hq0 := rnd32_nonneg _ hx0
  have hq1 := rnd32_mono_nonneg _ _ hx0 hx1
  rw [rnd32_one] at hq1
  have hy0 : 0 ≤ rnd32 (min (max v 0) vref / vref) * 4095 := by positivity
  have hy1 : rnd32 (min (max v 0) vref / vref) * 4095 ≤ 4095 := by linarith
  have hp0 := rnd32_nonneg _ hy0
  have hp1 := rnd32_mono_nonneg _ _ hy0 hy1
  rw [rnd32_4095] at hp1
  have hs0 : (1 / 2 : ℚ) ≤ rnd32 (rnd32 (min (max v 0) vref / vref) * 4095) + 1 / 2 := by
    linarith
  have hs1 : rnd32 (rnd32 (min (max v 0) vref / vref) * 4095) + 1 / 2 ≤ 8191 / 2 := by
    linarith
  have hv0 := rnd32_mono_nonneg _ _ (by norm_num) hs0
  have hv1 := rnd32_mono_nonneg _ _ (by linarith) hs1
  rw [rnd32_half] at hv0
  rw [rnd32_8191_half] at hv1
  exact ⟨⟨hq0, hq1⟩, ⟨hp0, hp1⟩, ⟨hv0, hv1⟩⟩

theorem VoltToCode12_of (v vref : ℚ) (hr : 0 < vref) :
    VoltToCode12 v vref = some (Int.toNat ⌊voltCodeValue v vref⌋) ∧
    0 ≤ ⌊voltCodeValue v vref⌋ ∧ ⌊voltCodeValue v vref⌋ ≤ 4095 := by
  obtain ⟨⟨hq0, hq1⟩, ⟨hp0, hp1⟩, ⟨hv0, hv1⟩⟩ := voltCodeValue_bounds v vref hr
  have hf0 : 0 ≤ ⌊voltCodeValue v vref⌋ := Int.floor_nonneg.mpr (by linarith)
  have hf1 : ⌊voltCodeValue v vref⌋ ≤ 4095 := by
    have : ⌊voltCodeValue v vref⌋ < 4096 := by
      rw [Int.floor_lt]
      push_cast
      linarith
    omega
  refine ⟨?_, hf0, hf1⟩
  have a1 : |rnd32 (min (max v 0) vref / vref)| < 2 ^ 128 := by
    rw [abs_of_nonneg hq0]
    have : (1 : ℚ) < 2 ^ 128 := by norm_num
    linarith
  have a2 : |rnd32 (rnd32 (min (max v 0) vref / vref) * 4095)| < 2 ^ 128 := by
    rw [abs_of_nonneg hp0]
    have : (4095 : ℚ) < 2 ^ 128 := by norm_num
    linarith
  have a3 : |voltCodeValue v vref| < 2 ^ 128 := by
    rw [abs_of_nonneg (by linarith)]
    have : (8191 / 2 : ℚ) < 2 ^ 128 := by norm_num
    linarith
  have hint : toInt32 (voltCodeValue v vref) = some ⌊voltCodeValue v vref⌋ := by
    unfold toInt32
    have hb : (2 : ℚ) ^ 31 = 2147483648 := by norm_num
    rw [if_pos ⟨by rw [hb]; linarith, by rw [hb]; linarith⟩, if_pos (by linarith)]
  have hcl : (Int.toNat
      (if (if ⌊voltCodeValue v vref⌋ < 0 then 0 else ⌊voltCodeValue v vref⌋) > 4095 then 4095
        else if ⌊voltCodeValue v vref⌋ < 0 then 0 else ⌊voltCodeValue v vref⌋)) % 2 ^ 16 =
      Int.toNat ⌊voltCodeValue v vref⌋ := by
    rw [if_neg (by omega), if_neg (by omega)]
    omega
  unfold voltCodeValue at a3 hint hcl ⊢
  simp only [VoltToCode12, VoltToCode12_clamp_arg v vref hr, div32, if_neg hr.ne', mul32,
    add32, fl32, if_pos a1, if_pos a2, if_pos a3, Option.some_bind, hint, Option.map_some',
    hcl]

theorem voltCodeValue_mono (v w vref : ℚ) (hr : 0 < vref) (h : v ≤ w) :
    voltCodeValue v vref ≤ voltCodeValue w vref := by
  have hx0 : 0 ≤ min (max v 0) vref / vref :=
    div_nonneg (le_min (le_max_right _ _) hr.le) hr.le
  have hxy : min (max v 0) vref / vref ≤ min (max w 0) vref / vref :=
    div_le_div_of_nonneg_right (min_le_min (max_le_max h le_rfl) le_rfl) hr.le
  have h1 := rnd32_mono_nonneg _ _ hx0 hxy
  have hq0 := rnd32_nonneg _ hx0
  have h2 := rnd32_mono_nonneg (rnd32 (min (max v 0) vref / vref) * 4095)
    (rnd32 (min (max w 0) vref / vref) * 4095) (by positivity) (by linarith)
  have hp0 := rnd32_nonneg (rnd32 (min (max v 0) vref / vref) * 4095) (by positivity)
  exact rnd32_mono_nonneg _ _ (by linarith) (by linarith)

/-- The rounded value is within `1/1024` of the exact one. -/
theorem voltCodeValue_near (v vref : ℚ) (hr : 0 < vref) :
    |voltCodeValue v vref - (min (max v 0) vref / vref * 4095 + 1 / 2)| ≤ 1 / 1024 := by
  obtain ⟨⟨hq0, hq1⟩, ⟨hp0, hp1⟩, -⟩ := voltCodeValue_bounds v vref hr
  have hx0 : 0 ≤ min (max v 0) vref / vref :=
    div_nonneg (le_min (le_max_right _ _) hr.le) hr.le
  have hx1 : min (max v 0) vref / vref ≤ 1 := by
    rw [div_le_one hr]
    exact min_le_right _ _
  have e1 := rnd32_err_of_abs_lt (min (max v 0) vref / vref) 1 (by norm_num)
    (by rw [abs_of_nonneg hx0]; norm_num; linarith)
  have e2 := rnd32_err_of_abs_lt (rnd32 (min (max v 0) vref / vref) * 4095) 12 (by norm_num)
    (by rw [abs_of_nonneg (by positivity)]; norm_num; linarith)
  have e3 := rnd32_err_of_abs_lt (rnd32 (rnd32 (min (max v 0) vref / vref) * 4095) + 1 / 2)
    13 (by norm_num) (by rw [abs_of_nonneg (by linarith)]; norm_num; linarith)
  rw [abs_le] at e1 e2 e3 ⊢
  norm_num at e1 e2 e3
  unfold voltCodeValue
  constructor <;> linarith

theorem voltCodeValue_of_nonpos (v vref : ℚ) (hr : 0 < vref) (h : v ≤ 0) :
    voltCodeValue v vref = 1 / 2 := by
  unfold voltCodeValue
  rw [max_eq_right h, min_eq_left hr.le, zero_div, rnd32_zero, zero_mul, rnd32_zero, zero_add,
    rnd32_half]

theorem voltCodeValue_of_ge (v vref : ℚ) (hr : 0 < vref) (h : vref ≤ v) :
    voltCodeValue v vref = 8191 / 2 := by
  unfold voltCodeValue
  rw [max_eq_left (hr.le.trans h), min_eq_right h, div_self hr.ne', rnd32_one, one_mul,
    rnd32_4095]
  have e : (4095 + 1 / 2 : ℚ) = 8191 / 2 := by norm_num
  rw [e, rnd32_8191_half]

theorem rnd32_vref : rnd32 (33 / 10) = 13841203 / 2 ^ 22 := by
  rw [rnd32_eq_pos (33 / 10) (-22) 13841203 (by norm_num) (by norm_num) (by norm_num)
    (by norm_num) (by norm_num)]
  norm_num

theorem rnd32_mid_bias : rnd32 (165 / 100) = 13841203 / 2 ^ 23 := by
  rw [rnd32_eq_pos (165 / 100) (-23) 13841203 (by norm_num) (by norm_num) (by norm_num)
    (by norm_num) (by norm_num)]
  norm_num

theorem voltCodeValue_mid : voltCodeValue (13841203 / 2 ^ 23) (13841203 / 2 ^ 22) = 2048 := by
  have e0 : min (max (13841203 / 2 ^ 23 : ℚ) 0) (13841203 / 2 ^ 22) / (13841203 / 2 ^ 22) =
      1 / 2 := by
    rw [max_eq_left (by norm_num), min_eq_left (by norm_num)]
    norm_num
  have e2 : rnd32 (1 / 2 * 4095) = 4095 / 2 := by
    rw [rnd32_eq_pos _ (-13) 16773120 (by norm_num) (by norm_num) (by norm_num)
      (by norm_num) (by norm_num)]
    norm_num
  have e3 : rnd32 (4095 / 2 + 1 / 2) = 2048 := by
    rw [rnd32_eq_pos _ (-12) 8388608 (by norm_num) (by norm_num) (by norm_num)
      (by norm_num) (by norm_num)]
    norm_num
  unfold voltCodeValue
  rw [e0, rnd32_half, e2, e3]

theorem VoltToCode12_mid :
    VoltToCode12 (rnd32 (165 / 100)) (rnd32 (33 / 10)) = some 2048 := by
  rw [rnd32_mid_bias, rnd32_vref, (VoltToCode12_of _ _ (by norm_num)).1, voltCodeValue_mid]
  have : ⌊(2048 : ℚ)⌋ = 2048 := Int.floor_eq_iff.mpr (by norm_num)
  rw [this]
  rfl

theorem voltCodeValue_770mV :
    voltCodeValue (1614807 / 2 ^ 21) (13841203 / 2 ^ 22) = 956 := by
  have e0 : min (max (1614807 / 2 ^ 21 : ℚ) 0) (13841203 / 2 ^ 22) / (13841203 / 2 ^ 22) =
      3229614 / 13841203 := by
    rw [max_eq_left (by norm_num), min_eq_left (by norm_num)]
    norm_num
  have e1 : rnd32 (3229614 / 13841203) = 15658735 / 2 ^ 26 := by
    rw [rnd32_eq_pos _ (-26) 15658735 (by norm_num) (by norm_num) (by norm_num)
      (by norm_num) (by norm_num)]
    norm_num
  have e2 : rnd32 (15658735 / 2 ^ 26 * 4095) = 1911 / 2 := by
    rw [rnd32_eq_pos _ (-14) 15654912 (by norm_num) (by norm_num) (by norm_num)
      (by norm_num) (by norm_num)]
    norm_num
  have e3 : rnd32 (1911 / 2 + 1 / 2) = 956 := by
    rw [rnd32_eq_pos _ (-14) 15663104 (by norm_num) (by norm_num) (by norm_num)
      (by norm_num) (by norm_num)]
    norm_num
  unfold voltCodeValue
  rw [e0, e1, e2, e3]

/-- C16 (counterexample): the claimed floor formula fails at the `float`s 0.77f, which is
`1614807 / 2^21`, and 3.3f, which is `13841203 / 2^22`. The exact value of
`v / vref * 4095 + 1/2` is just under 956, so the formula gives 955, but the `float` product
rounds up to 955.5 and `VoltToCode12` returns 956. -/
theorem VoltToCode12_not_floor_formula :
    rnd32 (77 / 100) = 1614807 / 2 ^ 21 ∧
    rnd32 (33 / 10) = 13841203 / 2 ^ 22 ∧
    VoltToCode12 (1614807 / 2 ^ 21) (13841203 / 2 ^ 22) = some 956 ∧
    ⌊min (max (1614807 / 2 ^ 21 : ℚ) 0) (13841203 / 2 ^ 22) / (13841203 / 2 ^ 22) * 4095
      + 1 / 2⌋ = 955 := by
  refine ⟨?_, rnd32_vref, ?_, ?_⟩
  · rw [rnd32_eq_pos (77 / 100) (-24) 12918456 (by norm_num) (by norm_num) (by norm_num)
      (by norm_num) (by norm_num)]
    norm_num
  · rw [(VoltToCode12_of _ _ (by norm_num)).1, voltCodeValue_770mV]
    have : ⌊(956 : ℚ)⌋ = 956 := Int.floor_eq_iff.mpr (by norm_num)
    rw [this]
    rfl
  · rw [max_eq_left (by norm_num), min_eq_left (by norm_num), Int.floor_eq_iff]
    norm_num

/-- C16 (amended): for every voltage `v` and reference `vref > 0`, `VoltToCode12(v, vref)`
returns a code `c`, the floor of the `float` computed from the clamped voltage by the
rounded division, multiplication and addition. The code lies in `[0, 4095]`, differs from
`floor(min(max(v, 0), vref) / vref * 4095 + 1/2)` by at most one and equals it whenever that
exact value is not within `1/1024` of an integer; it is monotone non-decreasing in `v`, is 0
for every `v <= 0` and 4095 for every `v >= vref`. With the `float`s 3.3f and 1.65f the
mid-bias maps to 2048. -/
theorem VoltToCode12_near_linear_clamped (v w vref : ℚ) (hr : 0 < vref) :
    (∃ c : Nat, VoltToCode12 v vref = some c ∧
      (c : ℤ) = ⌊voltCodeValue v vref⌋ ∧
      c ≤ 4095 ∧
      (c : ℤ) ≤ ⌊min (max v 0) vref / vref * 4095 + 1 / 2⌋ + 1 ∧
      ⌊min (max v 0) vref / vref * 4095 + 1 / 2⌋ ≤ (c : ℤ) + 1 ∧
      (⌊min (max v 0) vref / vref * 4095 + 1 / 2 - 1 / 1024⌋ =
          ⌊min (max v 0) vref / vref * 4095 + 1 / 2 + 1 / 1024⌋ →
        (c : ℤ) = ⌊min (max v 0) vref / vref * 4095 + 1 / 2⌋) ∧
      (v ≤ 0 → c = 0) ∧
      (vref ≤ v → c = 4095) ∧
      (v ≤ w → ∃ d : Nat, VoltToCode12 w vref = some d ∧ c ≤ d)) ∧
    VoltToCode12 (rnd32 (165 / 100)) (rnd32 (33 / 10)) = some 2048 ∧
    VoltToCode12 (rnd32 (165 / 100)) = some 2048 := by
  refine ⟨?_, VoltToCode12_mid, VoltToCode12_mid⟩
  obtain ⟨hv, hf0, hf1⟩ := VoltToCode12_of v vref hr
  obtain ⟨hw, hg0, -⟩ := VoltToCode12_of w vref hr
  have hn := voltCodeValue_near v vref hr
  rw [abs_le] at hn
  have hc : ((Int.toNat ⌊voltCodeValue v vref⌋ : Nat) : ℤ) = ⌊voltCodeValue v vref⌋ :=
    Int.toNat_of_nonneg hf0
  have h1 := Int.floor_le (voltCodeValue v vref)
  have h2 := Int.lt_floor_add_one (voltCodeValue v vref)
  have h3 := Int.floor_le (min (max v 0) vref / vref * 4095 + 1 / 2)
  have h4 := Int.lt_floor_add_one (min (max v 0) vref / vref * 4095 + 1 / 2)
  refine ⟨_, hv, hc, by omega, ?_, ?_, ?_, ?_, ?_, ?_⟩
  · rw [hc]
    have : ⌊voltCodeValue v vref⌋ < ⌊min (max v 0) vref / vref * 4095 + 1 / 2⌋ + 2 := by
      rw [Int.floor_lt]
      push_cast
      linarith
    omega
  · rw [hc]
    have : ⌊min (max v 0) vref / vref * 4095 + 1 / 2⌋ < ⌊voltCodeValue v vref⌋ + 2 := by
      rw [Int.floor_lt]
      push_cast
      linarith
    omega
  · intro heq
    rw [hc]
    have ha : ⌊min (max v 0) vref / vref * 4095 + 1 / 2 - 1 / 1024⌋ ≤ ⌊voltCodeValue v vref⌋ :=
      Int.floor_mono (by linarith)
    have hb : ⌊voltCodeValue v vref⌋ ≤ ⌊min (max v 0) vref / vref * 4095 + 1 / 2 + 1 / 1024⌋ :=
      Int.floor_mono (by linarith)
    have hc1 : ⌊min (max v 0) vref / vref * 4095 + 1 / 2 - 1 / 1024⌋ ≤
        ⌊min (max v 0) vref / vref * 4095 + 1 / 2⌋ := Int.floor_mono (by linarith)
    have hc2 : ⌊min (max v 0) vref / vref * 4095 + 1 / 2⌋ ≤
        ⌊min (max v 0) vref / vref * 4095 + 1 / 2 + 1 / 1024⌋ := Int.floor_mono (by linarith)
    omega
  · intro h0
    rw [voltCodeValue_of_nonpos v vref hr h0]
    have : ⌊(1 / 2 : ℚ)⌋ = 0 := Int.floor_eq_iff.mpr (by norm_num)
    rw [this]
    rfl
  · intro h0
    rw [voltCodeValue_of_ge v vref hr h0]
    have : ⌊(8191 / 2 : ℚ)⌋ = 4095 := Int.floor_eq_iff.mpr (by norm_num)
    rw [this]
    rfl
  · intro hvw
    refine ⟨_, hw, ?_⟩
    have := Int.floor_mono (voltCodeValue_mono v w vref hr hvw)
    omega

/-- C16 (witness): the amended theorem at the reference 3.3f, for the `float`s 0.85f and
2.45f, for -1 and for 5. -/
theorem VoltToCode12_near_linear_clamped_witness :
    (0 : ℚ) < rnd32 (33 / 10) ∧
    (∃ c d : Nat, VoltToCode12 (rnd32 (85 / 100)) (rnd32 (33 / 10)) = some c ∧
      VoltToCode12 (rnd32 (245 / 100)) (rnd32 (33 / 10)) = some d ∧ c ≤ d ∧ d ≤ 4095) ∧
    VoltToCode12 (-1) (rnd32 (33 / 10)) = some 0 ∧
    VoltToCode12 5 (rnd32 (33 / 10)) = some 4095 := by
  have hr : (0 : ℚ) < rnd32 (33 / 10) := by rw [rnd32_vref]; norm_num
  have hvw : rnd32 (85 / 100) ≤ rnd32 (245 / 100) :=
    rnd32_mono_nonneg _ _ (by norm_num) (by norm_num)
  have h5 : rnd32 (33 / 10) ≤ 5 := by rw [rnd32_vref]; norm_num
  obtain ⟨c, hc, -, -, -, -, -, -, -, hmono⟩ :=
    (VoltToCode12_near_linear_clamped (rnd32 (85 / 100)) (rnd32 (245 / 100))
      (rnd32 (33 / 10)) hr).1
  obtain ⟨d, hd, hcd⟩ := hmono hvw
  obtain ⟨d', hd', -, hd4, -⟩ :=
    (VoltToCode12_near_linear_clamped (rnd32 (245 / 100)) 0 (rnd32 (33 / 10)) hr).1
  obtain ⟨a, ha, -, -, -, -, -, ha0, -⟩ :=
    (VoltToCode12_near_linear_clamped (-1) 0 (rnd32 (33 / 10)) hr).1
  obtain ⟨b, hb, -, -, -, -, -, -, hb1, -⟩ :=
    (VoltToCode12_near_linear_clamped 5 0 (rnd32 (33 / 10)) hr).1
  refine ⟨hr, ⟨c, d, hc, hd, hcd, ?_⟩, ?_, ?_⟩
  · rw [hd] at hd'
    cases hd'
    exact hd4
  · rw [ha, ha0 (by norm_num)]
  · rw [hb, hb1 h5]

/-! ### Malformed step duration -/

section ZeroDuration

variable {E : Type}

theorem rnd32_default_period : rnd32 (1 / 1000) = 8589935 / 2 ^ 33 := by
  rw [rnd32_eq_pos (1 / 1000) (-33) 8589935 (by norm_num) (by norm_num) (by norm_num)
    (by norm_num) (by norm_num)]
  norm_num

theorem tickValue_default_period : tickValue (8589935 / 2 ^ 33) = 21 / 2 := by
  have e1 : rnd32 (8589935 / 2 ^ 33 * 10000) = 10 := by
    rw [rnd32_eq_pos _ (-20) 10485760 (by norm_num) (by norm_num) (by norm_num)
      (by norm_num) (by norm_num)]
    norm_num
  have e3 : rnd32 (10 + 1 / 2) = 21 / 2 := by
    rw [rnd32_eq_pos _ (-20) 11010048 (by norm_num) (by norm_num) (by norm_num)
      (by norm_num) (by norm_num)]
    norm_num
  unfold tickValue
  rw [e1, e3]

/-- The default period 0.001f of `Start()` is 10 ticks. -/
theorem SetupTIM_ticks_default : SetupTIM_ticks (rnd32 (1 / 1000)) = some 10 := by
  rw [rnd32_default_period]
  have hb := tickValue_bounds (8589935 / 2 ^ 33) (by norm_num) (by norm_num)
  rw [SetupTIM_ticks_of _ hb.1 hb.2.2.2, tickValue_default_period]
  have hfl : ⌊(21 / 2 : ℚ)⌋ = 10 := by
    rw [Int.floor_eq_iff]
    norm_num
  have hu : toUnsignedInt (21 / 2) = some 10 := by
    unfold toUnsignedInt
    rw [if_pos (by norm_num), hfl]
    rfl
  rw [hu]
  rfl

/-- The guard of line 218: were the engine to report a step duration of 0 or less, `Start()`
would hand `SetupTIM` the default 0.001f, which is 10 ticks. -/
theorem Start_period_guard (eng : WaveEngine E) (s : DAC_ChanController E)
    (hm : s.dataMgr.GetMode = .CV_SCAN) (hd : s.dataMgr.GetCV_duration eng ≤ 0) :
    DAC_ChanController.Start_period eng s = rnd32 (1 / 1000) ∧
    SetupTIM_ticks (DAC_ChanController.Start_period eng s) = some 10 := by
  have hp : DAC_ChanController.Start_period eng s = rnd32 (1 / 1000) := by
    unfold DAC_ChanController.Start_period
    rw [if_pos hm, if_pos hd]
  rw [hp]
  exact ⟨rfl, SetupTIM_ticks_default⟩

end ZeroDuration

/-! ### Tick counter -/

/-- C18: `UpdateTick()` counts only while Running: from Running the counter becomes
`(old + 1) mod 2^32`, from Idle or Paused it is unchanged; no other field changes;
`GetTickCount()` returns the counter and after `ClearTick()` it returns 0, `ClearTick()`
changing nothing else. -/
theorem UpdateTick_counts_while_running (c : SystemController) :
    (c.runState = .Running → c.UpdateTick.GetTickCount = (c.GetTickCount + 1) % 2 ^ 32) ∧
    (c.runState = .Idle ∨ c.runState = .Paused →
      c.UpdateTick.GetTickCount = c.GetTickCount) ∧
    { c.UpdateTick with updateTimes := c.updateTimes } = c ∧
    c.GetTickCount = c.updateTimes ∧
    c.ClearTick.GetTickCount = 0 ∧
    { c.ClearTick with updateTimes := c.updateTimes } = c := by
  refine ⟨?_, ?_, ?_, rfl, rfl, rfl⟩
  · intro h
    obtain ⟨h1, h2⟩ := (runState_running_iff c).1 h
    simp [SystemController.UpdateTick, SystemController.GetTickCount, h1, h2]
  · intro h
    rcases h with h | h
    · have h1 := (runState_idle_iff c).1 h
      simp [SystemController.UpdateTick, h1]
    · obtain ⟨h1, h2⟩ := (runState_paused_iff c).1 h
      simp [SystemController.UpdateTick, h1, h2]
  · unfold SystemController.UpdateTick
    split <;> rfl

/-- Witness for C18: a running orchestrator whose counter is at `2^32 - 1` wraps to 0;
the idle and the paused orchestrator keep their counter. -/
theorem UpdateTick_counts_while_running_witness :
    ({ ctlDefaults with isRunning := true, updateTimes := 2 ^ 32 - 1 } :
      SystemController).runState = .Running ∧
    ({ ctlDefaults with isRunning := true, updateTimes := 2 ^ 32 - 1 } :
      SystemController).UpdateTick.GetTickCount = 0 ∧
    ctlDefaults.runState = .Idle ∧ ctlDefaults.UpdateTick.GetTickCount = 0 ∧
    ({ ctlDefaults with isRunning := true, isPaused := true, updateTimes := 7 } :
      SystemController).runState = .Paused ∧
    ({ ctlDefaults with isRunning := true, isPaused := true, updateTimes := 7 } :
      SystemController).UpdateTick.GetTickCount = 7 :=
  ⟨rfl,
   (UpdateTick_counts_while_running
     { ctlDefaults with isRunning := true, updateTimes := 2 ^ 32 - 1 }).1 rfl,
   rfl,
   (UpdateTick_counts_while_running ctlDefaults).2.1 (Or.inl rfl),
   rfl,
   (UpdateTick_counts_while_running
     { ctlDefaults with isRunning := true, isPaused := true, updateTimes := 7 }).2.1
       (Or.inr rfl)⟩

/-! ### Static hardware map -/

/-- C19, evaluated on the code: `timDmaMap` gives TIM3 and TIM6 the same transfer
channel, DMA1 channel 3, so two channels bound to these timers resolve to one transfer
channel; the trigger sources of `timDacMap` are pairwise distinct and both tables list
the timers TIM2 to TIM7, in the same order. -/
theorem hardware_map_shares_DMA1_Channel3 :
    (DAC_ChanController.ResolveHardware ⟨.CH1, some .TIM3⟩).dmaChan = some .DMA1_Channel3 ∧
    (DAC_ChanController.ResolveHardware ⟨.CH2, some .TIM6⟩).dmaChan = some .DMA1_Channel3 ∧
    ¬ (timDmaMap.map (fun m => m.DMA_Channel)).Nodup ∧
    (timDacMap.map (fun m => m.trigger)).Nodup ∧
    (timDmaMap.map (fun m => m.TIMx)).Nodup ∧
    timDmaMap.map (fun m => m.TIMx) = timDacMap.map (fun m => m.TIMx) ∧
    timDacMap.map (fun m => m.TIMx) = [.TIM2, .TIM3, .TIM4, .TIM5, .TIM6, .TIM7] := by
  refine ⟨rfl, rfl, by decide, by decide, by decide, rfl, rfl⟩

/-! ### Command console -/

section Console

variable {E : Type}

theorem Device_Start_runState (eng : WaveEngine E) (g : Device E) :
    (g.Start eng).1.ctl.runState = .Running := by
  simp [Device.Start, SystemController.ClearTick, SystemController.runState]

theorem Device_Stop_runState (g : Device E) : g.Stop.1.ctl.runState = .Idle := by
  simp [Device.Stop, SystemController.runState]

theorem Device_Pause_runState (g : Device E) (h : g.ctl.runState = .Running) :
    g.Pause.1.ctl.runState = .Paused := by
  rw [runState_running_iff] at h
  simp [Device.Pause, SystemController.runState, h.1]

theorem Device_Resume_runState (g : Device E) (h : g.ctl.runState = .Paused) :
    g.Resume.1.ctl.runState = .Running := by
  rw [runState_paused_iff] at h
  simp [Device.Resume, SystemController.runState, h.1]

theorem runCommand_step (eng : WaveEngine E) (cmd : List Nat) (st : CommandState)
    (g : Device E) (hinv : g.ctl.runState = st.runState) :
    (runCommand eng cmd st g).dev.ctl.runState = (runCommand eng cmd st g).state.runState ∧
    (∀ q ∈ (runCommand eng cmd st g).requests,
      (q = .Start → g.ctl.runState = .Idle) ∧
      (q = .Pause → g.ctl.runState = .Running) ∧
      (q = .Resume → g.ctl.runState = .Paused)) ∧
    ((runCommand eng cmd st g).requests = [] →
      (runCommand eng cmd st g).state = st ∧ (runCommand eng cmd st g).dev = g) := by
  unfold runCommand
  generalize my_stricmp cmd (cstr "HELP") = x1
  generalize my_stricmp cmd (cstr "SHOW") = x2
  generalize my_stricmp cmd (cstr "START") = x3
  generalize my_stricmp cmd (cstr "STOP") = x4
  generalize my_stricmp cmd (cstr "PAUSE") = x5
  generalize my_stricmp cmd (cstr "RESUME") = x6
  split_ifs with a1 a2 a3 a4 a5 a6 a7 a8 a9
  · simp [hinv]
  · simp [hinv]
  · simp [hinv]
  · have hst : st = .UNKNOWN ∨ st = .STOP := by
      cases st <;> simp at a4 <;> simp
    refine ⟨?_, ?_, ?_⟩
    · simpa [CommandState.runState] using Device_Start_runState eng g
    · rcases hst with h | h <;> subst h <;> simp [hinv, CommandState.runState]
    · simp
  · refine ⟨?_, ?_, ?_⟩
    · simpa [CommandState.runState] using Device_Stop_runState g
    · simp
    · simp
  · simp [hinv]
  · have hst : st = .START ∨ st = .RESUME := by
      cases st <;> simp at a7 <;> simp
    have hrun : g.ctl.runState = .Running := by
      rcases hst with h | h <;> subst h <;> simpa [CommandState.runState] using hinv
    refine ⟨?_, ?_, ?_⟩
    · simpa [CommandState.runState] using Device_Pause_runState g hrun
    · simp [hrun]
    · simp
  · simp [hinv]
  · have hst : st = .PAUSE := by
      simpa using a9
    subst hst
    have hp : g.ctl.runState = .Paused := by
      simpa [CommandState.runState] using hinv
    refine ⟨?_, ?_, ?_⟩
    · simpa [CommandState.runState] using Device_Resume_runState g hp
    · simp [hp]
    · simp
  · simp [hinv]

theorem ProcessCommandLine_step (eng : WaveEngine E) (l : List Nat) (st : CommandState)
    (g : Device E) (hinv : g.ctl.runState = st.runState) :
    (ProcessCommandLine eng l st g).dev.ctl.runState =
      (ProcessCommandLine eng l st g).state.runState ∧
    (∀ q ∈ (ProcessCommandLine eng l st g).requests,
      (q = .Start → g.ctl.runState = .Idle) ∧
      (q = .Pause → g.ctl.runState = .Running) ∧
      (q = .Resume → g.ctl.runState = .Paused)) ∧
    ((ProcessCommandLine eng l st g).requests = [] →
      (ProcessCommandLine eng l st g).state = st ∧
      (ProcessCommandLine eng l st g).dev = g) := by
  unfold ProcessCommandLine
  cases commandWord l with
  | none => simp [hinv]
  | some cmd => exact runCommand_step eng cmd st g hinv

theorem serveLines_step (eng : WaveEngine E) (ls : List (List Nat)) (st : CommandState)
    (g : Device E) (hinv : g.ctl.runState = st.runState) :
    ∀ x ∈ serveLines eng ls st g,
      x.result.dev.ctl.runState = x.result.state.runState ∧
      (∀ q ∈ x.result.requests,
        (q = .Start → x.dev.ctl.runState = .Idle) ∧
        (q = .Pause → x.dev.ctl.runState = .Running) ∧
        (q = .Resume → x.dev.ctl.runState = .Paused)) ∧
      (x.result.requests = [] → x.result.state = x.state ∧ x.result.dev = x.dev) := by
  induction ls generalizing st g with
  | nil => intro x hx; simp [serveLines] at hx
  | cons l rest ih =>
    intro x hx
    have hstep := ProcessCommandLine_step eng l st g hinv
    simp only [serveLines, List.mem_cons] at hx
    rcases hx with hx | hx
    · subst hx
      exact hstep
    · exact ih _ _ hstep.1 x hx

theorem runState_eq_iff (st : CommandState) (rs : RunState) (h : rs = st.runState) :
    ((st = .START ∨ st = .RESUME) ↔ rs = .Running) ∧
    (st = .PAUSE ↔ rs = .Paused) ∧
    ((st = .UNKNOWN ∨ st = .STOP) ↔ rs = .Idle) := by
  subst h
  cases st <;> simp [CommandState.runState]

theorem toUpperAZ_ne_zero (c : Nat) (h : c ≠ 0) : toUpperAZ c ≠ 0 := by
  unfold toUpperAZ
  split_ifs <;> omega

theorem my_stricmp_eq_zero_iff (a b : List Nat) (ha : 0 ∉ a) (hb : 0 ∉ b) :
    my_stricmp a b = 0 ↔ a.map toUpperAZ = b.map toUpperAZ := by
  induction a generalizing b with
  | nil =>
    cases b with
    | nil => simp [my_stricmp]
    | cons c2 s2 =>
      have h2 : c2 ≠ 0 := fun h => hb (by simp [h])
      simp [my_stricmp]
      omega
  | cons c1 s1 ih =>
    have h1 : c1 ≠ 0 := fun h => ha (by simp [h])
    cases b with
    | nil =>
      simp [my_stricmp]
      omega
    | cons c2 s2 =>
      have ha' : 0 ∉ s1 := fun h => ha (List.mem_cons_of_mem _ h)
      have hb' : 0 ∉ s2 := fun h => hb (List.mem_cons_of_mem _ h)
      by_cases hc : toUpperAZ c1 = toUpperAZ c2
      · simp [my_stricmp, hc, ih s2 ha' hb']
      · have hne : (toUpperAZ c1 : Int) - (toUpperAZ c2 : Int) ≠ 0 := by omega
        simp [my_stricmp, hc, hne]

/-- C20: the command guard keeps console and orchestrator in step.  For every sequence of
lines served by `ProcessCommandLine` from console state UNKNOWN and an Idle
orchestrator, after each line the console state is START or RESUME exactly when the
orchestrator is Running, PAUSE exactly when it is Paused, UNKNOWN or STOP exactly when
it is Idle; `Start()` is invoked only on an Idle orchestrator, `Pause()` only on a
Running one, `Resume()` only on a Paused one; a line that invokes nothing leaves console
state and device unchanged, which is the case of every command word other than START,
STOP, PAUSE and RESUME; and a word matches a command exactly when it equals it after
folding `a`-`z` to upper case. -/
theorem console_in_step (eng : WaveEngine E) (g : Device E) (lines : List (List Nat))
    (hidle : g.ctl.runState = .Idle) :
    (∀ x ∈ serveLines eng lines .UNKNOWN g,
      (((x.result.state = .START ∨ x.result.state = .RESUME) ↔
          x.result.dev.ctl.runState = .Running) ∧
        (x.result.state = .PAUSE ↔ x.result.dev.ctl.runState = .Paused) ∧
        ((x.result.state = .UNKNOWN ∨ x.result.state = .STOP) ↔
          x.result.dev.ctl.runState = .Idle)) ∧
      (∀ q ∈ x.result.requests,
        (q = .Start → x.dev.ctl.runState = .Idle) ∧
        (q = .Pause → x.dev.ctl.runState = .Running) ∧
        (q = .Resume → x.dev.ctl.runState = .Paused)) ∧
      (x.result.requests = [] → x.result.state = x.state ∧ x.result.dev = x.dev)) ∧
    (∀ (cmd : List Nat) (st : CommandState) (d : Device E),
      my_stricmp cmd (cstr "START") ≠ 0 → my_stricmp cmd (cstr "STOP") ≠ 0 →
      my_stricmp cmd (cstr "PAUSE") ≠ 0 → my_stricmp cmd (cstr "RESUME") ≠ 0 →
      (runCommand eng cmd st d).requests = [] ∧ (runCommand eng cmd st d).state = st ∧
      (runCommand eng cmd st d).dev = d) ∧
    (∀ w : List Nat, 0 ∉ w →
      ∀ k ∈ [cstr "HELP", cstr "SHOW", cstr "START", cstr "STOP", cstr "PAUSE", cstr "RESUME"],
        (my_stricmp w k = 0 ↔ w.map toUpperAZ = k)) := by
  refine ⟨?_, ?_, ?_⟩
  · intro x hx
    obtain ⟨h1, h2, h3⟩ := serveLines_step eng lines .UNKNOWN g hidle x hx
    exact ⟨runState_eq_iff _ _ h1, h2, h3⟩
  · intro cmd st d n1 n2 n3 n4
    unfold runCommand
    simp only [n1, n2, n3, n4, if_false]
    split_ifs <;> exact ⟨rfl, rfl, rfl⟩
  · intro w hw k hk
    have hk0 : 0 ∉ k := by
      revert k
      decide
    have hku : k.map toUpperAZ = k := by
      revert k
      decide
    rw [my_stricmp_eq_zero_iff w k hw hk0, hku]

/-- Witness for C20: seven lines in mixed case, with blanks, arguments, a help request,
an unknown word and an empty token, served from the idle power-on device. -/
theorem console_in_step_witness :
    powerOn.dev.ctl.runState = .Idle ∧
    consoleStates holdEngine
      [cstr "  start ", cstr "Pause", cstr "resume,1", cstr "help", cstr "bogus", cstr ",,",
       cstr "sToP x"] .UNKNOWN powerOn.dev =
      [.START, .PAUSE, .RESUME, .RESUME, .RESUME, .RESUME, .STOP] ∧
    (∀ x ∈ serveLines holdEngine
        [cstr "  start ", cstr "Pause", cstr "resume,1", cstr "help", cstr "bogus", cstr ",,",
         cstr "sToP x"] .UNKNOWN powerOn.dev,
      ∀ q ∈ x.result.requests, q = .Start → x.dev.ctl.runState = .Idle) ∧
    (my_stricmp (cstr "sToP") (cstr "STOP") = 0 ↔
      (cstr "sToP").map toUpperAZ = cstr "STOP") :=
  have h := console_in_step holdEngine powerOn.dev
    [cstr "  start ", cstr "Pause", cstr "resume,1", cstr "help", cstr "bogus", cstr ",,",
     cstr "sToP x"] rfl
  ⟨rfl, rfl, fun x hx q hq => ((h.1 x hx).2.1 q hq).1,
   h.2.2 (cstr "sToP") (by decide) (cstr "STOP") (by decide)⟩

end Console

/-! ### Line reader -/

section LineReading

theorem TryReadCommandLine_call (outCap : Nat) (future : List Nat) :
    ∀ (rx : List Nat) (st : LineReader) (outLine : List Nat),
    linesFit st.lineBuf (rx ++ future) →
    (TryReadCommandLine outCap rx st outLine).out = [] ∧
    ((TryReadCommandLine outCap rx st outLine).ret = true →
      ∃ line, line ≠ [] ∧
        (0 < outCap → (TryReadCommandLine outCap rx st outLine).outLine = deliver outCap line) ∧
        completeLines st.lineBuf (rx ++ future) =
          line :: completeLines [] ((TryReadCommandLine outCap rx st outLine).rest ++ future) ∧
        linesFit [] ((TryReadCommandLine outCap rx st outLine).rest ++ future) ∧
        (TryReadCommandLine outCap rx st outLine).st.lineBuf = []) ∧
    ((TryReadCommandLine outCap rx st outLine).ret = false →
      (TryReadCommandLine outCap rx st outLine).rest = [] ∧
      (TryReadCommandLine outCap rx st outLine).outLine = outLine ∧
      completeLines st.lineBuf (rx ++ future) =
        completeLines (TryReadCommandLine outCap rx st outLine).st.lineBuf future ∧
      linesFit (TryReadCommandLine outCap rx st outLine).st.lineBuf future) := by
  intro rx
  induction rx with
  | nil =>
    intro st outLine hfit
    have heq : TryReadCommandLine outCap [] st outLine = ⟨false, outLine, [], st, []⟩ := by
      simp [TryReadCommandLine]
    rw [heq]
    refine ⟨rfl, fun h => absurd h (by simp), fun _ => ⟨rfl, rfl, rfl, ?_⟩⟩
    simpa using hfit
  | cons ch rx ih =>
    intro st outLine hfit
    obtain ⟨cur⟩ := st
    by_cases hterm : isTerm ch = true
    · by_cases hcur : cur = []
      · subst hcur
        have hfit' : linesFit [] (rx ++ future) := by
          simp only [List.cons_append, linesFit, hterm, if_true] at hfit
          exact hfit.2
        have hcl : completeLines [] (ch :: (rx ++ future)) = completeLines [] (rx ++ future) := by
          simp [completeLines, hterm]
        have hrec := ih ⟨[]⟩ outLine hfit'
        have heq : TryReadCommandLine outCap (ch :: rx) ⟨[]⟩ outLine =
            TryReadCommandLine outCap rx ⟨[]⟩ outLine := by
          simp [TryReadCommandLine, hterm]
        rw [heq]
        simp only [List.cons_append, hcl]
        exact hrec
      · have hlen : cur.length > 0 := List.length_pos.mpr hcur
        have heq : TryReadCommandLine outCap (ch :: rx) ⟨cur⟩ outLine =
            ⟨true, if outCap > 0 then deliver outCap cur else outLine, rx, ⟨[]⟩, []⟩ := by
          simp [TryReadCommandLine, hterm, hlen]
        rw [heq]
        refine ⟨rfl, fun _ => ⟨cur, hcur, ?_, ?_, ?_, rfl⟩, fun h => absurd h (by simp)⟩
        · intro hc
          simp [hc]
        · simp [completeLines, hterm, hcur]
        · simp only [List.cons_append, linesFit, hterm, if_true] at hfit
          exact hfit.2
    · have hfit' : cur.length < 95 ∧ linesFit (cur ++ [ch]) (rx ++ future) := by
        simpa only [List.cons_append, linesFit, hterm, if_false,
          Bool.false_eq_true] using hfit
      have hcl : completeLines cur (ch :: (rx ++ future)) =
          completeLines (cur ++ [ch]) (rx ++ future) := by
        simp [completeLines, hterm]
      have hrec := ih ⟨cur ++ [ch]⟩ outLine hfit'.2
      have heq : TryReadCommandLine outCap (ch :: rx) ⟨cur⟩ outLine =
          TryReadCommandLine outCap rx ⟨cur ++ [ch]⟩ outLine := by
        have h95 : cur.length < 96 - 1 := hfit'.1
        simp [TryReadCommandLine, hterm, h95]
      rw [heq]
      simp only [List.cons_append, hcl]
      exact hrec

theorem TryReadCommandLine_rest (outCap : Nat) :
    ∀ (rx : List Nat) (st : LineReader) (outLine : List Nat),
    (TryReadCommandLine outCap rx st outLine).ret = true →
    ∃ pre t, rx = pre ++ t :: (TryReadCommandLine outCap rx st outLine).rest ∧
      isTerm t = true := by
  intro rx
  induction rx with
  | nil =>
    intro st outLine h
    simp [TryReadCommandLine] at h
  | cons ch rx ih =>
    intro st outLine h
    by_cases hterm : isTerm ch = true
    · by_cases hlen : st.lineBuf.length > 0
      · refine ⟨[], ch, ?_, hterm⟩
        simp [TryReadCommandLine, hterm, hlen]
      · have heq : TryReadCommandLine outCap (ch :: rx) st outLine =
            TryReadCommandLine outCap rx st outLine := by
          simp only [TryReadCommandLine, hterm, hlen, if_true, if_false]
        rw [heq] at h ⊢
        obtain ⟨pre, t, hrx, ht⟩ := ih st outLine h
        exact ⟨ch :: pre, t, by rw [List.cons_append, ← hrx], ht⟩
    · by_cases h95 : st.lineBuf.length < 96 - 1
      · have heq : TryReadCommandLine outCap (ch :: rx) st outLine =
            TryReadCommandLine outCap rx ⟨st.lineBuf ++ [ch]⟩ outLine := by
          simp only [TryReadCommandLine, hterm, h95, if_true, if_false, Bool.false_eq_true]
        rw [heq] at h ⊢
        obtain ⟨pre, t, hrx, ht⟩ := ih _ outLine h
        exact ⟨ch :: pre, t, by rw [List.cons_append, ← hrx], ht⟩
      · have hret : (TryReadCommandLine outCap (ch :: rx) st outLine).ret =
            (TryReadCommandLine outCap rx ⟨[]⟩ outLine).ret := by
          simp only [TryReadCommandLine, hterm, h95, if_false, Bool.false_eq_true]
        have hrest : (TryReadCommandLine outCap (ch :: rx) st outLine).rest =
            (TryReadCommandLine outCap rx ⟨[]⟩ outLine).rest := by
          simp only [TryReadCommandLine, hterm, h95, if_false, Bool.false_eq_true]
        rw [hret] at h
        rw [hrest]
        obtain ⟨pre, t, hrx, ht⟩ := ih _ outLine h
        exact ⟨ch :: pre, t, by rw [List.cons_append, ← hrx], ht⟩

theorem readCalls_delivers (outCap : Nat) (hcap : 0 < outCap) :
    ∀ (schedule : List (List Nat)) (pending : List Nat) (st : LineReader)
      (outLine : List Nat),
    linesFit st.lineBuf (pending ++ schedule.flatten) →
    (∀ r ∈ readCalls outCap schedule pending st outLine, r.out = []) ∧
    ∃ todo,
      (completeLines st.lineBuf (pending ++ schedule.flatten)).map (deliver outCap) =
        deliveredLines (readCalls outCap schedule pending st outLine) ++ todo ∧
      ((∃ r, (readCalls outCap schedule pending st outLine).getLast? = some r ∧
          r.ret = false) → todo = []) := by
  intro schedule
  induction schedule with
  | nil =>
    intro pending st outLine _
    refine ⟨by simp [readCalls],
      (completeLines st.lineBuf (pending ++ ([] : List (List Nat)).flatten)).map
        (deliver outCap), ?_, ?_⟩
    · simp [readCalls, deliveredLines]
    rintro ⟨r, hr, _⟩
    simp [readCalls] at hr
  | cons chunk more ih =>
    intro pending st outLine hfit
    have happ : pending ++ (chunk :: more).flatten = (pending ++ chunk) ++ more.flatten := by
      simp [List.flatten]
    rw [happ] at hfit ⊢
    obtain ⟨hout, htrue, hfalse⟩ :=
      TryReadCommandLine_call outCap more.flatten (pending ++ chunk) st outLine hfit
    cases hret : (TryReadCommandLine outCap (pending ++ chunk) st outLine).ret with
    | true =>
      obtain ⟨line, _, hdel, hcl, hfit2, hbuf⟩ := htrue hret
      have hfit3 : linesFit (TryReadCommandLine outCap (pending ++ chunk) st outLine).st.lineBuf
          ((TryReadCommandLine outCap (pending ++ chunk) st outLine).rest ++ more.flatten) := by
        rw [hbuf]; exact hfit2
      obtain ⟨hout2, todo, hmap, hlast⟩ := ih _ _
        (TryReadCommandLine outCap (pending ++ chunk) st outLine).outLine hfit3
      rw [hbuf] at hmap
      refine ⟨?_, todo, ?_, ?_⟩
      · intro r hr
        simp only [readCalls, List.mem_cons] at hr
        rcases hr with hr | hr
        · rw [hr]; exact hout
        · exact hout2 r hr
      · rw [hcl, List.map_cons, hmap, ← hdel hcap]
        simp [readCalls, deliveredLines, hret]
      · rintro ⟨r, hr, hrf⟩
        cases more with
        | nil =>
          simp only [readCalls, List.getLast?_singleton, Option.some.injEq] at hr
          rw [← hr, hret] at hrf
          exact absurd hrf (by simp)
        | cons c2 m2 =>
          apply hlast
          refine ⟨r, ?_, hrf⟩
          simpa only [readCalls, List.getLast?_cons_cons] using hr
    | false =>
      obtain ⟨hrest, _, hcl, hfit2⟩ := hfalse hret
      have hfit3 : linesFit (TryReadCommandLine outCap (pending ++ chunk) st outLine).st.lineBuf
          ((TryReadCommandLine outCap (pending ++ chunk) st outLine).rest ++ more.flatten) := by
        rw [hrest]; simpa using hfit2
      obtain ⟨hout2, todo, hmap, hlast⟩ := ih _ _
        (TryReadCommandLine outCap (pending ++ chunk) st outLine).outLine hfit3
      rw [hrest, List.nil_append] at hmap
      refine ⟨?_, todo, ?_, ?_⟩
      · intro r hr
        simp only [readCalls, List.mem_cons] at hr
        rcases hr with hr | hr
        · rw [hr]; exact hout
        · exact hout2 r hr
      · rw [hcl, hmap]
        simp [readCalls, deliveredLines, hret, hrest]
      · rintro ⟨r, hr, hrf⟩
        cases more with
        | nil =>
          have : todo = [] := by
            have h0 := hmap
            simp [readCalls, deliveredLines, completeLines] at h0
            exact h0
          exact this
        | cons c2 m2 =>
          apply hlast
          refine ⟨r, ?_, hrf⟩
          simpa only [readCalls, List.getLast?_cons_cons, hrest] using hr

theorem completeLines_chars (l : List Nat) (hl : ∀ c ∈ l, isTerm c = false) :
    ∀ (cur s : List Nat), completeLines cur (l ++ s) = completeLines (cur ++ l) s := by
  induction l with
  | nil => intro cur s; simp
  | cons c l ih =>
    intro cur s
    have hc : isTerm c = false := hl c (List.mem_cons_self _ _)
    have h := ih (fun x hx => hl x (List.mem_cons_of_mem _ hx)) (cur ++ [c]) s
    have e : completeLines cur (c :: l ++ s) = completeLines (cur ++ [c]) (l ++ s) := by
      simp [completeLines, hc]
    rw [e, h, List.append_assoc, List.singleton_append]

theorem completeLines_terms (ts : List Nat) (hts : ∀ c ∈ ts, isTerm c = true)
    (s : List Nat) : completeLines [] (ts ++ s) = completeLines [] s := by
  induction ts with
  | nil => simp
  | cons c ts ih =>
    have hc : isTerm c = true := hts c (List.mem_cons_self _ _)
    simp only [List.cons_append, completeLines, hc, if_true]
    exact ih (fun x hx => hts x (List.mem_cons_of_mem _ hx))

theorem linesFit_chars (l : List Nat) (hl : ∀ c ∈ l, isTerm c = false) :
    ∀ (cur s : List Nat), cur.length + l.length ≤ 95 → linesFit (cur ++ l) s →
      linesFit cur (l ++ s) := by
  induction l with
  | nil => intro cur s _ h; simpa using h
  | cons c l ih =>
    intro cur s hlen h
    have hc : isTerm c = false := hl c (List.mem_cons_self _ _)
    simp only [List.length_cons] at hlen
    have h1 : linesFit (cur ++ [c]) (l ++ s) := by
      apply ih (fun x hx => hl x (List.mem_cons_of_mem _ hx))
      · simp only [List.length_append, List.length_singleton]; omega
      · simpa only [List.append_assoc, List.singleton_append] using h
    simp only [List.cons_append, linesFit, hc, Bool.false_eq_true, if_false]
    exact ⟨by omega, h1⟩

theorem linesFit_terms (ts : List Nat) (hts : ∀ c ∈ ts, isTerm c = true)
    (s : List Nat) (h : linesFit [] s) : linesFit [] (ts ++ s) := by
  induction ts with
  | nil => simpa using h
  | cons c ts ih =>
    have hc : isTerm c = true := hts c (List.mem_cons_self _ _)
    simp only [List.cons_append, linesFit, hc, if_true]
    exact ⟨by simp, ih (fun x hx => hts x (List.mem_cons_of_mem _ hx))⟩

theorem isTerm_eq_false_iff (c : Nat) : isTerm c = false ↔ c ≠ 13 ∧ c ≠ 10 := by
  simp [isTerm]

theorem isTerm_eq_true_iff (c : Nat) : isTerm c = true ↔ c = 13 ∨ c = 10 := by
  simp [isTerm]

theorem streamOf_lines (ls : List (List Nat × List Nat))
    (hls : ∀ p ∈ ls, p.1.length ≤ 95 ∧ (∀ c ∈ p.1, c ≠ 13 ∧ c ≠ 10) ∧ p.2 ≠ [] ∧
      (∀ c ∈ p.2, c = 13 ∨ c = 10)) :
    completeLines [] (streamOf ls) = nonEmptyLines ls ∧ linesFit [] (streamOf ls) := by
  induction ls with
  | nil => exact ⟨rfl, by simp [streamOf, linesFit]⟩
  | cons p rest ih =>
    obtain ⟨l, ts⟩ := p
    obtain ⟨hlen, hchars, hne, hterms⟩ := hls (l, ts) (List.mem_cons_self _ _)
    obtain ⟨ih1, ih2⟩ := ih (fun q hq => hls q (List.mem_cons_of_mem _ hq))
    have hchars' : ∀ c ∈ l, isTerm c = false :=
      fun c hc => (isTerm_eq_false_iff c).2 (hchars c hc)
    have hterms' : ∀ c ∈ ts, isTerm c = true :=
      fun c hc => (isTerm_eq_true_iff c).2 (hterms c hc)
    have hstream : streamOf ((l, ts) :: rest) = l ++ (ts ++ streamOf rest) := by
      simp [streamOf]
    cases ts with
    | nil => exact absurd rfl hne
    | cons t ts' =>
      have ht : isTerm t = true := hterms' t (List.mem_cons_self _ _)
      have hts' : ∀ c ∈ ts', isTerm c = true :=
        fun c hc => hterms' c (List.mem_cons_of_mem _ hc)
      rw [hstream]
      constructor
      · rw [completeLines_chars l hchars', List.nil_append, List.cons_append]
        by_cases hl : l = []
        · simp only [completeLines, ht, if_true, hl]
          rw [completeLines_terms ts' hts', ih1]
          simp [nonEmptyLines]
        · simp only [completeLines, ht, if_true, hl, if_false]
          rw [completeLines_terms ts' hts', ih1]
          simp [nonEmptyLines, hl]
      · apply linesFit_chars l hchars' [] _ (by simpa using hlen)
        simp only [List.nil_append, List.cons_append, linesFit, ht, if_true]
        exact ⟨hlen, linesFit_terms ts' hts' _ ih2⟩

theorem deliver_of_no_NUL (outCap : Nat) (l : List Nat) (hl : 0 ∉ l) :
    deliver outCap l = l.take (outCap - 1) := by
  unfold deliver
  congr 1
  apply List.takeWhile_eq_self_iff.mpr
  intro c hc
  have : c ≠ 0 := fun h => hl (h ▸ hc)
  simpa using this

/-- C21: the byte-at-a-time line reader loses no command.  Let a byte stream consist of
lines of at most 95 characters (none of them CR or LF), each followed by a non-empty run
of CR and LF bytes, let it arrive in the receiver in any chunks, one call of
`TryReadCommandLine` being made after each chunk (a chunk may be empty), and let
`outCap > 0`.  Then the lines handed out by the calls that returned true are, at any
moment, an initial part of the non-empty lines of the stream, in order, each as the C
string that `strncpy` leaves, which for a line without NUL is the line truncated to
`outCap - 1` characters; once a call has returned false after the last chunk, they are
all of them, one true return per non-empty line; no overflow is ever reported; and a
call that returns true leaves in the receiver every byte that follows the terminator it
stopped at. -/
theorem TryReadCommandLine_loses_no_line (outCap : Nat) (hcap : 0 < outCap)
    (ls : List (List Nat × List Nat))
    (hls : ∀ p ∈ ls, p.1.length ≤ 95 ∧ (∀ c ∈ p.1, c ≠ 13 ∧ c ≠ 10) ∧ p.2 ≠ [] ∧
      (∀ c ∈ p.2, c = 13 ∨ c = 10))
    (schedule : List (List Nat)) (hs : schedule.flatten = streamOf ls)
    (outLine : List Nat) :
    deliveredLines (readCalls outCap schedule [] ⟨[]⟩ outLine) <+:
      (nonEmptyLines ls).map (deliver outCap) ∧
    ((∃ r, (readCalls outCap schedule [] ⟨[]⟩ outLine).getLast? = some r ∧ r.ret = false) →
      deliveredLines (readCalls outCap schedule [] ⟨[]⟩ outLine) =
        (nonEmptyLines ls).map (deliver outCap) ∧
      ((readCalls outCap schedule [] ⟨[]⟩ outLine).filter (fun r => r.ret)).length =
        (nonEmptyLines ls).length) ∧
    (∀ r ∈ readCalls outCap schedule [] ⟨[]⟩ outLine, r.out = []) ∧
    (∀ l : List Nat, 0 ∉ l → deliver outCap l = l.take (outCap - 1)) ∧
    (∀ (rx : List Nat) (st : LineReader) (out : List Nat),
      (TryReadCommandLine outCap rx st out).ret = true →
      ∃ pre t, rx = pre ++ t :: (TryReadCommandLine outCap rx st out).rest ∧
        isTerm t = true) := by
  obtain ⟨hlines, hfit⟩ := streamOf_lines ls hls
  have hfit0 : linesFit (⟨[]⟩ : LineReader).lineBuf ([] ++ schedule.flatten) := by
    rw [hs]; exact hfit
  obtain ⟨hout, todo, hmap, hlast⟩ := readCalls_delivers outCap hcap schedule [] ⟨[]⟩ outLine hfit0
  rw [List.nil_append, hs, hlines] at hmap
  refine ⟨⟨todo, hmap.symm⟩, ?_, hout, deliver_of_no_NUL outCap, TryReadCommandLine_rest outCap⟩
  intro h
  have htodo := hlast h
  rw [htodo, List.append_nil] at hmap
  refine ⟨hmap.symm, ?_⟩
  have hlen := congrArg List.length hmap
  simpa [deliveredLines] using hlen.symm

/-- Witness for C21: the stream `START` CR LF, an empty line ended by LF, `STOP` CR,
arriving in three chunks that cut through a line, followed by one call on an empty
receiver; the capacity is that of the caller in `main`, 64. -/
theorem TryReadCommandLine_loses_no_line_witness :
    ([cstr "STA", cstr "RT\r\n\nSTOP", cstr "\r", []] : List (List Nat)).flatten =
      streamOf [(cstr "START", cstr "\r\n"), ([], cstr "\n"), (cstr "STOP", cstr "\r")] ∧
    (readCalls 64 [cstr "STA", cstr "RT\r\n\nSTOP", cstr "\r", []] [] ⟨[]⟩ []).map
      (fun r => r.ret) = [false, true, true, false] ∧
    deliveredLines (readCalls 64 [cstr "STA", cstr "RT\r\n\nSTOP", cstr "\r", []] [] ⟨[]⟩ []) =
      [cstr "START", cstr "STOP"] := by
  have hs : ([cstr "STA", cstr "RT\r\n\nSTOP", cstr "\r", []] : List (List Nat)).flatten =
      streamOf [(cstr "START", cstr "\r\n"), ([], cstr "\n"), (cstr "STOP", cstr "\r")] := by
    decide
  have h := TryReadCommandLine_loses_no_line 64 (by decide)
    [(cstr "START", cstr "\r\n"), ([], cstr "\n"), (cstr "STOP", cstr "\r")] (by decide)
    [cstr "STA", cstr "RT\r\n\nSTOP", cstr "\r", []] hs []
  have hd := (h.2.1 ⟨⟨false, cstr "STOP", [], ⟨[]⟩, []⟩, by decide, rfl⟩).1
  refine ⟨hs, by decide, ?_⟩
  rw [hd]
  decide

end LineReading

end NS_DAC
